import Mathlib

set_option maxHeartbeats 1600000
set_option maxRecDepth 8000

/-!  Shallow embedding of the SAMPA timetable generator.

The canonical revision `src/sampa/timetable-generator.js` is embedded at top
level; the `part_000` revision (which differs in `_getClassDivision`,
`canAssignLesson` and `_scheduleLessonBlock`) is embedded in namespace `P0`.

Modelling conventions:
* a JS object keyed by period id (one day row of a class timetable) is an
  association list in insertion order; property write replaces in place,
  property read takes the first matching key;
* JS maps keyed by strings (`divisionSchedules`, `teacherAvailability`,
  `teacherStats`, the global schedule) are total functions into `Option` or
  plain functions, since the generator only reads them pointwise;
* maps whose key order is iterated by the source (`teachers`, `subjects`,
  `subjectRestrictions`) are association lists;
* the ambient `Math.random()` shuffles (`.sort(() => Math.random() - 0.5)`)
  are modelled by an explicit `RandSrc` record of shuffle functions, one per
  list element type, since the source has no injectable random source;
* `St.calls` is a ghost counter of `_scheduleLessonBlock` invocations, not
  present in the source; it is used only to state the attempt bound.
-/

/-- One occupant of a timetable cell.  A lesson record in the source has
shape `\x7b subject, teacher \x7d` and no `type` tag; the remaining
constructors carry the `type` tag the source writes (`event`, `break`,
`lunch`, `free`, `arrival`). -/
inductive Entry where
  | lesson (subject : String) (teacher : String)
  | event (name : String) (color : String)
  | brk
  | lunch
  | free (name : String)
  | arrival
  deriving DecidableEq, Repr

/-- The `subject` property read by `_countSubjectOnDay`; typed entries have
no subject. -/
def Entry.subjectOf : Entry → Option String
  | .lesson s _ => some s
  | _ => none

/-- Whether the entry is a lesson record (its `type` tag is undefined). -/
def Entry.isLesson : Entry → Bool
  | .lesson _ _ => true
  | _ => false

/-- One day row of one class timetable: period id to occupant, in insertion
order (JS object semantics). -/
abbrev Cells := List (Nat × Entry)

/-- Property read `timetable[className][day][slot]`. -/
def cellGet (cs : Cells) (p : Nat) : Option Entry :=
  (cs.find? (fun pe => pe.1 == p)).map (·.2)

/-- Property write `timetable[className][day][slot] = e`: replace in place
if the key exists, else append. -/
def cellSet (cs : Cells) (p : Nat) (e : Entry) : Cells :=
  if cs.any (fun pe => pe.1 == p) then
    cs.map (fun pe => if pe.1 == p then (p, e) else pe)
  else
    cs ++ [(p, e)]

/-- Per-teacher workload counters (`teacherStats[t]`). -/
structure TeacherStat where
  total : Nat
  daily : String → Nat

/-- One unresolved-lesson diagnostic pushed onto `unassignedLessons`. -/
structure Diag where
  className : String
  subject : String
  periodsRemaining : Nat
  reason : String
  deriving DecidableEq, Repr

/-- The run-scoped mutable state of the generator object. -/
structure St where
  /-- `this.timetables` : class, day, period row. -/
  grid : String → String → Cells
  /-- `this.globalSchedule[day][period].teachers` as a characteristic map. -/
  gTeachers : String → Nat → String → Bool
  /-- `this.globalSchedule[day][period].resources.ICT`. -/
  gICT : String → Nat → Option String
  /-- `this.unassignedLessons`. -/
  diags : List Diag
  /-- `this.teacherStats`. -/
  stats : String → Option TeacherStat
  /-- Ghost counter of `_scheduleLessonBlock` invocations (not in source). -/
  calls : Nat

/-- One period of the global period table (display time omitted; the
generator logic reads only `id` and `type`). -/
structure Period where
  id : Nat
  ptype : Option String
  deriving DecidableEq, Repr

/-- One division (or per-class) schedule record. -/
structure DivSched where
  lessonSlots : List Nat
  breakPeriod : Option Nat
  lunchPeriod : Option Nat

/-- `event.appliesTo`: the string all, or an array of division names. -/
inductive AppliesTo where
  | all
  | divs (l : List String)

/-- One fixed special event. -/
structure SpecialEvent where
  day : String
  periodId : Option Nat
  periodIds : Option (List Nat)
  appliesTo : AppliesTo
  name : String
  color : String

/-- `Array.isArray(event.periodIds) ? event.periodIds : [event.periodId]`. -/
def SpecialEvent.ids (e : SpecialEvent) : List Nat :=
  match e.periodIds with
  | some l => l
  | none => e.periodId.toList

/-- Whether the event applies to the given division. -/
def SpecialEvent.appliesToDiv (e : SpecialEvent) (dv : String) : Bool :=
  match e.appliesTo with
  | .all => true
  | .divs l => l.contains dv

/-- `schoolData`.  `teachers` maps a class to an association list from
subject to a teacher list (a JS string value is a singleton list, an array
is itself, so that first-of-array and flattening agree with the source).
`perClassSchedules` is read only by the `part_000` revision. -/
structure SchoolData where
  days : List String
  periods : List Period
  divisionSchedules : String → Option DivSched
  subjects : List (String × List (String × Nat))
  teachers : List (String × List (String × List String))
  specialEvents : List SpecialEvent
  perClassSchedules : String → Option DivSched

structure WorkloadLimits where
  maxTeacherPeriodsPerDay : Nat
  maxTeacherPeriodsPerDayException : Nat

structure AvailRule where
  availableDays : Option (List String)
  unavailableDays : Option (List String)

structure RestrRule where
  days : Option (List String)

/-- The value of `rule.strict`: `true`, the string mixed, or anything
else. -/
inductive StrictTag where
  | strue
  | smixed
  | snone
  deriving DecidableEq

structure MixedStructure where
  doubles : Nat
  singles : Nat
  deriving DecidableEq

/-- One entry of `constraints.doublePeriodSubjects` (`rule.structure` is
renamed `struct`: `structure` is a Lean keyword). -/
structure DPRule where
  subject : String
  divisions : List String
  strict : StrictTag
  struct : Option MixedStructure

/-- `constraints`.  `singleResourceSubjects` is `Option` because the source
guards it with `Array.isArray`. -/
structure Constraints where
  workloadLimits : WorkloadLimits
  teacherWorkloadExceptions : List String
  teacherAvailability : String → Option AvailRule
  subjectRestrictions : List (String × RestrRule)
  singleResourceSubjects : Option (List String)
  doublePeriodSubjects : List DPRule

/-- The ambient `Math.random()` shuffles, made explicit: one shuffle
function per element type (class lists, day lists, slot lists). -/
structure RandSrc where
  classes : List String → List String
  days : List String → List String
  slots : List Nat → List Nat

/-- Association-list lookup by string key (JS property read: first match). -/
def lookupA {β : Type} (l : List (String × β)) (k : String) : Option β :=
  (l.find? (fun kv => kv.1 == k)).map (·.2)

/-! ### Class-name parsing (`_getClassDivision`)

The source matches `^Year\s*(\d+)` case-insensitively, then `^(\d+)[A-Z]?$`
case-insensitively, and buckets the parsed year.  `\s` is modelled as the
four common whitespace characters and `[A-Z]` with `/i` as a Latin
letter. -/

def parseDigits (ds : List Char) : Nat :=
  ds.foldl (fun a c => a * 10 + (c.toNat - 48)) 0

def isWs (c : Char) : Bool :=
  c == ' ' || c == '\t' || c == '\n' || c == '\r'

/-- Match `^Year\s*(\d+)` case-insensitively, returning the parsed year. -/
def matchYearPat : List Char → Option Nat
  | y :: e :: a :: r :: rest =>
    if y.toLower == 'y' && e.toLower == 'e' && a.toLower == 'a' && r.toLower == 'r' then
      let ds := (rest.dropWhile isWs).takeWhile Char.isDigit
      if ds.isEmpty then none else some (parseDigits ds)
    else none
  | _ => none

/-- Match `^(\d+)[A-Z]?$` case-insensitively, returning the parsed number. -/
def matchNumPat (cs : List Char) : Option Nat :=
  let ds := cs.takeWhile Char.isDigit
  let rest := cs.dropWhile Char.isDigit
  if ds.isEmpty then none
  else match rest with
    | [] => some (parseDigits ds)
    | [c] => if c.isAlpha then some (parseDigits ds) else none
    | _ => none

/-- `_getClassDivision` of the sampa revision. -/
def getClassDivision (name : String) : String :=
  let y? := match matchYearPat name.data with
    | some y => some y
    | none => matchNumPat name.data
  match y? with
  | none => "unknown"
  | some y =>
    if 1 ≤ y ∧ y ≤ 3 then "lowerPrimary"
    else if 4 ≤ y ∧ y ≤ 6 then "upperPrimary"
    else if 7 ≤ y ∧ y ≤ 9 then "lowerSecondary"
    else if 10 ≤ y ∧ y ≤ 11 then "upperSecondary"
    else "unknown"

/-! ### Shared read helpers -/

/-- `Object.keys(this.schoolData.teachers)`; also the key set of
`this.timetables` throughout a run, since `_initialize` creates exactly
these keys and nothing adds or removes one. -/
def allClasses (inp : SchoolData) : List String :=
  inp.teachers.map (·.1)

/-- `_getTeacherForClassSubject` (first of an array value). -/
def getTeacherForClassSubject (inp : SchoolData) (c S : String) : Option String :=
  match lookupA inp.teachers c with
  | none => none
  | some subj =>
    match lookupA subj S with
    | none => none
    | some ts => ts.head?

/-- JS truthiness of the teacher value (`undefined` and the empty string
are falsy). -/
def truthyTeacher : Option String → Bool
  | some t => t ≠ ""
  | none => false

/-- `this.schoolData.subjects[division]?.[subject]`. -/
def subjectsLookup (inp : SchoolData) (dv S : String) : Option Nat :=
  (lookupA inp.subjects dv).bind (fun l => lookupA l S)

/-- `_getAvailableLessonSlots` of the sampa revision: the day argument is
ignored by the source body. -/
def getAvailableLessonSlots (inp : SchoolData) (c : String) : List Nat :=
  match inp.divisionSchedules (getClassDivision c) with
  | some ds => ds.lessonSlots
  | none => []

/-- `_countSubjectOnDay`: entries of the day row whose subject equals `S`. -/
def countSubjectOnDay (st : St) (c S d : String) : Nat :=
  ((st.grid c d).filter (fun pe => pe.2.subjectOf == some S)).length

/-- `_getScheduledPeriods`: sum of the per-day counts over the day list. -/
def getScheduledPeriods (inp : SchoolData) (st : St) (c S : String) : Nat :=
  inp.days.foldl (fun a d => a + countSubjectOnDay st c S d) 0

/-- The applicable daily cap for a teacher (standard or exception). -/
def capOf (cons : Constraints) (t : String) : Nat :=
  if cons.teacherWorkloadExceptions.contains t then
    cons.workloadLimits.maxTeacherPeriodsPerDayException
  else
    cons.workloadLimits.maxTeacherPeriodsPerDay

/-- Result of `canAssignLesson`. -/
structure CheckRes where
  valid : Bool
  reason : Option String
  deriving DecidableEq, Repr

def CheckRes.ok : CheckRes := ⟨true, none⟩

def CheckRes.no (s : String) : CheckRes := ⟨false, some s⟩

/-- The tail of `canAssignLesson` shared by both stats branches: teacher
availability rule, subject day restriction, ICT lab resource.  The ICT
check is the source truthiness test `if (resources["ICT"])` on the stored
claiming class name: an absent claim and a stored empty string are both
falsy, so only a non-empty stored name blocks the slot. -/
def canAssignTail (cons : Constraints) (st : St) (_c S t d : String) (p : Nat) : CheckRes :=
  if (match cons.teacherAvailability t with
      | some ar =>
        match ar.availableDays with
        | some l => !(l.contains d)
        | none => false
      | none => false) then
    .no "teacher not available on this day"
  else if (match cons.teacherAvailability t with
      | some ar =>
        match ar.unavailableDays with
        | some l2 => l2.contains d
        | none => false
      | none => false) then
    .no "teacher specifically unavailable on this day"
  else if (match lookupA cons.subjectRestrictions S with
      | some rl =>
        match rl.days with
        | some l => !(l.contains d)
        | none => false
      | none => false) then
    .no "subject restricted to specific days"
  else if S == "ICT" && (st.gICT d p).getD "" != "" then
    .no "ICT lab already booked"
  else
    .ok

/-- `canAssignLesson` of the sampa revision.  Checks, in source order:
valid lesson slot for the division; cell not already booked by a lesson
(typed entries do not block); if the teacher is tracked in stats, daily
workload cap and global booking; then availability, day restriction and
ICT resource. -/
def canAssignLesson (inp : SchoolData) (cons : Constraints) (st : St)
    (c S t d : String) (p : Nat) : CheckRes :=
  if ¬ (getAvailableLessonSlots inp c).contains p then
    .no "slot is not a valid lesson slot for this division"
  else if (cellGet (st.grid c d) p).any (fun e => e.isLesson) then
    .no "class slot already booked"
  else
    match st.stats t with
    | some ts =>
      if ts.daily d ≥ capOf cons t then
        .no "teacher daily workload exceeded"
      else if st.gTeachers d p t then
        .no "teacher already booked globally"
      else
        canAssignTail cons st c S t d p
    | none => canAssignTail cons st c S t d p

/-! ### State updates -/

/-- Write one cell of one class timetable. -/
def St.setCell (st : St) (c d : String) (p : Nat) (e : Entry) : St :=
  { st with grid := fun c' d' => if c' = c ∧ d' = d then cellSet (st.grid c d) p e else st.grid c' d' }

/-- Push one diagnostic onto `unassignedLessons`. -/
def St.pushDiag (st : St) (dg : Diag) : St :=
  { st with diags := st.diags ++ [dg] }

/-- `assignLesson`: write the lesson record, and if the teacher is truthy
add it to the global slot set and bump its daily counter (when tracked);
for ICT claim the lab resource for this class.  The three sequential
source mutations are written as one record, field by field, with the same
guards; no intermediate state is observable. -/
def assignLesson (c S t d : String) (p : Nat) (st : St) : St where
  grid := fun c' d' =>
    if c' = c ∧ d' = d then cellSet (st.grid c d) p (Entry.lesson S t) else st.grid c' d'
  gTeachers := fun d' p' t' =>
    if t ≠ "" ∧ d' = d ∧ p' = p ∧ t' = t then true else st.gTeachers d' p' t'
  gICT := fun d' p' =>
    if S = "ICT" ∧ d' = d ∧ p' = p then some c else st.gICT d' p'
  diags := st.diags
  stats := fun t' =>
    if t ≠ "" ∧ t' = t then
      match st.stats t with
      | some ts =>
        some { ts with daily := fun d' => if d' = d then ts.daily d + 1 else ts.daily d' }
      | none => none
    else st.stats t'
  calls := st.calls

/-! ### Block placement search (`_scheduleLessonBlock`, sampa revision) -/

/-- The special-event exclusion used by the slot filter in
`_scheduleLessonBlock` (note: it ignores `appliesTo`). -/
def isEventSlot (inp : SchoolData) (d : String) (p : Nat) : Bool :=
  inp.specialEvents.any (fun e =>
    e.day == d && (e.periodId == some p ||
      (match e.periodIds with
       | some l => l.contains p
       | none => false)))

/-- The empty, non-event candidate slots of one class on one day. -/
def availableSlotsOn (inp : SchoolData) (st : St) (lessonSlots : List Nat)
    (c d : String) : List Nat :=
  lessonSlots.filter (fun p => (cellGet (st.grid c d) p).isNone && ¬ isEventSlot inp d p)

/-- Scan positionally adjacent candidate pairs, accepting the first with
consecutive ids for which both checks pass (the `s2 === s1 + 1` loop). -/
def findAdjPair (chk : Nat → Bool) : List Nat → Option (Nat × Nat)
  | a :: b :: rest =>
    if b == a + 1 && chk a && chk b then some (a, b)
    else findAdjPair chk (b :: rest)
  | _ => none

/-- Scan all index pairs `i < j` in order, accepting the first pair for
which both checks pass (the non-consecutive fallback loop). -/
def findAnyPair (chk : Nat → Bool) : List Nat → Option (Nat × Nat)
  | a :: rest =>
    if chk a then
      match rest.find? chk with
      | some b => some (a, b)
      | none => findAnyPair chk rest
    else findAnyPair chk rest
  | [] => none

/-- The day loop of `_scheduleLessonBlock` (sampa revision). -/
def blockGo (inp : SchoolData) (cons : Constraints) (r : RandSrc)
    (c S t : String) (lessonSlots : List Nat) (np : Nat) :
    List String → St → Bool × St
  | [], st => (false, st)
  | d :: rest, st =>
    let avail := r.slots (availableSlotsOn inp st lessonSlots c d)
    let chk := fun p => (canAssignLesson inp cons st c S t d p).valid
    if avail.length < np then blockGo inp cons r c S t lessonSlots np rest st
    else if np = 1 then
      match avail.find? chk with
      | some p => (true, assignLesson c S t d p st)
      | none => blockGo inp cons r c S t lessonSlots np rest st
    else if np = 2 then
      match findAdjPair chk avail with
      | some (a, b) => (true, assignLesson c S t d b (assignLesson c S t d a st))
      | none =>
        match findAnyPair chk avail with
        | some (a, b) => (true, assignLesson c S t d b (assignLesson c S t d a st))
        | none => blockGo inp cons r c S t lessonSlots np rest st
    else blockGo inp cons r c S t lessonSlots np rest st

/-- `_scheduleLessonBlock` (sampa revision): shuffle the allowed days, take
the division slot list once, then try each day.  The ghost call counter is
bumped on entry. -/
def scheduleLessonBlock (inp : SchoolData) (cons : Constraints) (r : RandSrc)
    (c S t : String) (allowedDays : List String) (np : Nat) (st : St) : Bool × St :=
  blockGo inp cons r c S t (getAvailableLessonSlots inp c) np (r.days allowedDays)
    { st with calls := st.calls + 1 }

/-! ### Per-class scheduling loops (`_scheduleAllForSubject`, sampa) -/

/-- Doubles loop of the `scheduleAsDoubleOnly` branch: on a failed double
push the mandatory-double diagnostic and stop. -/
def loopDoublesOnly (inp : SchoolData) (cons : Constraints) (r : RandSrc)
    (c S t : String) (ds : List String) : Nat → St → Nat × St
  | n + 2, st =>
    let (ok, st') := scheduleLessonBlock inp cons r c S t ds 2 st
    if ok then loopDoublesOnly inp cons r c S t ds n st'
    else (n + 2, st'.pushDiag ⟨c, S, n + 2, "Failed to schedule mandatory double period"⟩)
  | n, st => (n, st)

/-- Silent doubles loop of the default branch. -/
def loopDoubles (inp : SchoolData) (cons : Constraints) (r : RandSrc)
    (c S t : String) (ds : List String) : Nat → St → Nat × St
  | n + 2, st =>
    let (ok, st') := scheduleLessonBlock inp cons r c S t ds 2 st
    if ok then loopDoubles inp cons r c S t ds n st'
    else (n + 2, st')
  | n, st => (n, st)

/-- Singles loop of the default branch: push a diagnostic on failure. -/
def loopSinglesPush (inp : SchoolData) (cons : Constraints) (r : RandSrc)
    (c S t : String) (ds : List String) : Nat → St → Nat × St
  | n + 1, st =>
    let (ok, st') := scheduleLessonBlock inp cons r c S t ds 1 st
    if ok then loopSinglesPush inp cons r c S t ds n st'
    else (n + 1, st'.pushDiag ⟨c, S, n + 1, "Failed to schedule remaining single periods"⟩)
  | 0, st => (0, st)

/-- Structure-bounded doubles loop of the mixed branch (first argument is
the remaining `rule.structure.doubles` budget). -/
def loopMixedDoubles (inp : SchoolData) (cons : Constraints) (r : RandSrc)
    (c S t : String) (ds : List String) : Nat → Nat → St → Nat × St
  | 0, n, st => (n, st)
  | dRem + 1, n, st =>
    if n ≥ 2 then
      let (ok, st') := scheduleLessonBlock inp cons r c S t ds 2 st
      if ok then loopMixedDoubles inp cons r c S t ds dRem (n - 2) st'
      else (n, st')
    else (n, st)

/-- Structure-bounded singles loop of the mixed branch. -/
def loopMixedSingles (inp : SchoolData) (cons : Constraints) (r : RandSrc)
    (c S t : String) (ds : List String) : Nat → Nat → St → Nat × St
  | 0, n, st => (n, st)
  | sRem + 1, n, st =>
    if n ≥ 1 then
      let (ok, st') := scheduleLessonBlock inp cons r c S t ds 1 st
      if ok then loopMixedSingles inp cons r c S t ds sRem (n - 1) st'
      else (n, st')
    else (n, st)

/-- The mixed-branch cleanup loop (`while periodsToSchedule >= 2`, double
else single else break).  The first argument is iteration fuel; every
iteration lowers `n` by at least one, so fuel `n` is never exhausted before
the loop guard exits, and the source loop is reproduced exactly. -/
def loopMixed3 (inp : SchoolData) (cons : Constraints) (r : RandSrc)
    (c S t : String) (ds : List String) : Nat → Nat → St → Nat × St
  | 0, n, st => (n, st)
  | f + 1, n, st =>
    if n ≥ 2 then
      let (ok, st') := scheduleLessonBlock inp cons r c S t ds 2 st
      if ok then loopMixed3 inp cons r c S t ds f (n - 2) st'
      else
        let (ok2, st'') := scheduleLessonBlock inp cons r c S t ds 1 st'
        if ok2 then loopMixed3 inp cons r c S t ds f (n - 1) st''
        else (n, st'')
    else (n, st)

/-- Trailing singles loop of the mixed branch (silent break). -/
def loopSinglesSilent (inp : SchoolData) (cons : Constraints) (r : RandSrc)
    (c S t : String) (ds : List String) : Nat → St → Nat × St
  | n + 1, st =>
    let (ok, st') := scheduleLessonBlock inp cons r c S t ds 1 st
    if ok then loopSinglesSilent inp cons r c S t ds n st'
    else (n + 1, st')
  | 0, st => (0, st)

/-- `constraints.doublePeriodSubjects.find(r => r.subject === subject &&
r.divisions.includes(division))`. -/
def findDPRule (cons : Constraints) (S dv : String) : Option DPRule :=
  cons.doublePeriodSubjects.find? (fun rl => rl.subject == S && rl.divisions.contains dv)

/-- Default branch of the per-class body: as many doubles as possible, then
singles with a push-on-failure. -/
def schedDefault (inp : SchoolData) (cons : Constraints) (r : RandSrc)
    (c S t : String) (ds : List String) (n : Nat) (st : St) : St :=
  let (n1, st1) := loopDoubles inp cons r c S t ds n st
  (loopSinglesPush inp cons r c S t ds n1 st1).2

/-- The guarded body of `_scheduleAllForSubject` for one class, after the
teacher/needed guard has passed. -/
def schedClassCore (inp : SchoolData) (cons : Constraints) (r : RandSrc)
    (S : String) (ds : List String) (dblOnly : Bool)
    (c t : String) (R : Nat) (st : St) : St :=
  let n := R - getScheduledPeriods inp st c S
  if dblOnly then
    let (nRem, st') := loopDoublesOnly inp cons r c S t ds n st
    if nRem > 0 then
      st'.pushDiag ⟨c, S, nRem, "Remaining periods could not be scheduled as doubles"⟩
    else st'
  else
    match findDPRule cons S (getClassDivision c) with
    | some rl =>
      if rl.strict = .smixed then
        match rl.struct with
        | some ms =>
          let (n1, st1) := loopMixedDoubles inp cons r c S t ds ms.doubles n st
          let (n2, st2) := loopMixedSingles inp cons r c S t ds ms.singles n1 st1
          let (n3, st3) := loopMixed3 inp cons r c S t ds n2 n2 st2
          let (n4, st4) := loopSinglesSilent inp cons r c S t ds n3 st3
          if n4 > 0 then
            st4.pushDiag ⟨c, S, n4, "Failed to schedule some periods using mixed structure"⟩
          else st4
        | none => schedDefault inp cons r c S t ds n st
      else schedDefault inp cons r c S t ds n st
    | none => schedDefault inp cons r c S t ds n st

/-- One class iteration of `_scheduleAllForSubject`, including the
teacher-truthy and needed guards. -/
def schedClass (inp : SchoolData) (cons : Constraints) (r : RandSrc)
    (S : String) (ds : List String) (dblOnly : Bool) (c : String) (st : St) : St :=
  match getTeacherForClassSubject inp c S, subjectsLookup inp (getClassDivision c) S with
  | some t, some R =>
    if t ≠ "" ∧ R > 0 then schedClassCore inp cons r S ds dblOnly c t R st else st
  | _, _ => st

/-- `_scheduleAllForSubject`: iterate the shuffled class list. -/
def scheduleAllForSubject (inp : SchoolData) (cons : Constraints) (r : RandSrc)
    (S : String) (ds : List String) (dblOnly : Bool) (st : St) : St :=
  (r.classes (allClasses inp)).foldl (fun st c => schedClass inp cons r S ds dblOnly c st) st

/-! ### The phases and `generate` (sampa revision) -/

/-- All teacher names (flattening array values), the key set of
`teacherStats`. -/
def allTeachersOf (inp : SchoolData) : List String :=
  (inp.teachers.map (·.2)).foldr (fun cs acc => (cs.map (·.2)).foldr (fun ts a => ts ++ a) acc) []

/-- The pre-calculated `totalPeriods` of one teacher. -/
def totalPeriodsFor (inp : SchoolData) (t : String) : Nat :=
  inp.teachers.foldl (fun a ct =>
    match lookupA inp.subjects (getClassDivision ct.1) with
    | none => a
    | some subj =>
      subj.foldl (fun a2 sp =>
        match getTeacherForClassSubject inp ct.1 sp.1 with
        | some t' => if t' ≠ "" ∧ t' = t then a2 + sp.2 else a2
        | none => a2) a) 0

/-- `_initialize` on a freshly constructed generator: empty grids, empty
global schedule, zeroed daily counters for every teacher. -/
def initSt (inp : SchoolData) : St where
  grid := fun _ _ => []
  gTeachers := fun _ _ _ => false
  gICT := fun _ _ => none
  diags := []
  stats := fun t =>
    if (allTeachersOf inp).contains t then some ⟨totalPeriodsFor inp t, fun _ => 0⟩ else none
  calls := 0

/-- Step 1, `_scheduleSpecialEvents`: pin events into still-empty cells of
every applicable class. -/
def scheduleSpecialEvents (inp : SchoolData) (st : St) : St :=
  inp.specialEvents.foldl (fun st e =>
    inp.days.foldl (fun st d =>
      if e.day = d then
        (allClasses inp).foldl (fun st c =>
          if e.appliesToDiv (getClassDivision c) then
            e.ids.foldl (fun st pid =>
              if cellGet (st.grid c d) pid = none then
                St.setCell st c d pid (.event e.name e.color)
              else st) st
          else st) st
      else st) st) st

/-- Step 2, `_scheduleRestrictedSubjects`.  The source would throw on a
restriction rule without a `days` array; the model passes the empty day
list in that case. -/
def scheduleRestrictedSubjects (inp : SchoolData) (cons : Constraints) (r : RandSrc) (st : St) : St :=
  cons.subjectRestrictions.foldl
    (fun st sr => scheduleAllForSubject inp cons r sr.1 (sr.2.days.getD []) false st) st

/-- Step 3, `_scheduleSingleResourceSubjects`. -/
def scheduleSingleResourceSubjects (inp : SchoolData) (cons : Constraints) (r : RandSrc) (st : St) : St :=
  match cons.singleResourceSubjects with
  | some l => l.foldl (fun st S => scheduleAllForSubject inp cons r S inp.days false st) st
  | none => st

/-- Step 4, `_scheduleStrictDoublePeriodSubjects`. -/
def scheduleStrictDoublePeriodSubjects (inp : SchoolData) (cons : Constraints) (r : RandSrc) (st : St) : St :=
  (cons.doublePeriodSubjects.filter (fun rl => rl.strict == .strue && rl.subject != "P.E.")).foldl
    (fun st rl => scheduleAllForSubject inp cons r rl.subject inp.days true st) st

/-- Step 5, `_schedulePE`. -/
def schedulePE (inp : SchoolData) (cons : Constraints) (r : RandSrc) (st : St) : St :=
  scheduleAllForSubject inp cons r "P.E." inp.days true st

/-- First-occurrence deduplication (`[...new Set(...)]`). -/
def dedupFirst (l : List String) : List String :=
  l.foldl (fun acc s => if acc.contains s then acc else acc ++ [s]) []

/-- All subject names over all divisions, first occurrence first. -/
def allSubjectsOf (inp : SchoolData) : List String :=
  dedupFirst ((inp.subjects.map (·.2)).foldr (fun dv a => dv.map (·.1) ++ a) [])

/-- The `subjectsToSkip` set of step 6. -/
def skipSubjects (cons : Constraints) : List String :=
  cons.subjectRestrictions.map (·.1) ++ cons.singleResourceSubjects.getD [] ++
    (cons.doublePeriodSubjects.filter (fun rl => rl.strict == .strue)).map (·.subject) ++ ["P.E."]

/-- Whether a subject has a `strict === mixed` rule (the step 6 sort key,
which ignores divisions). -/
def hasMixedRule (cons : Constraints) (S : String) : Bool :=
  cons.doublePeriodSubjects.any (fun rl => rl.subject == S && rl.strict == .smixed)

/-- Step 6, `_scheduleRemainingLessons`: the stable comparator sort puts
mixed-rule subjects first, preserving relative order inside each part. -/
def scheduleRemainingLessons (inp : SchoolData) (cons : Constraints) (r : RandSrc) (st : St) : St :=
  let rest := (allSubjectsOf inp).filter (fun S => ¬ (skipSubjects cons).contains S)
  let ordered := rest.filter (hasMixedRule cons) ++ rest.filter (fun S => ¬ hasMixedRule cons S)
  ordered.foldl (fun st S => scheduleAllForSubject inp cons r S inp.days false st) st

/-- Step 7, `_injectBreakAndLunch` (division schedule only; the sampa
revision has no per-class override here). -/
def injectBreakAndLunch (inp : SchoolData) (st : St) : St :=
  (allClasses inp).foldl (fun st c =>
    let dsch := inp.divisionSchedules (getClassDivision c)
    inp.days.foldl (fun st d =>
      let st1 :=
        match dsch.bind (·.breakPeriod) with
        | some p => if cellGet (st.grid c d) p = none then St.setCell st c d p .brk else st
        | none => st
      match dsch.bind (·.lunchPeriod) with
      | some p => if cellGet (st1.grid c d) p = none then St.setCell st1 c d p .lunch else st1
      | none => st1) st) st

/-- Step 8, `_fillEmptySlots`: every still-empty cell of every period of
the global period table becomes Free (lesson slot), Arrival (arrival
period) or Free. -/
def fillEmptySlots (inp : SchoolData) (st : St) : St :=
  (allClasses inp).foldl (fun st c =>
    let divSlots := getAvailableLessonSlots inp c
    inp.days.foldl (fun st d =>
      (inp.periods.map (·.id)).foldl (fun st pid =>
        if cellGet (st.grid c d) pid = none then
          if divSlots.contains pid then St.setCell st c d pid (.free "Free Period")
          else if inp.periods.any (fun p => p.id == pid && p.ptype == some "arrival") then
            St.setCell st c d pid .arrival
          else St.setCell st c d pid (.free "Free")
        else st) st) st) st

/-- `generate` of the sampa revision.  `_printTeacherStats` and
`_validateTimetable` only write to the console and mutate nothing, so the
returned state is the state after `_fillEmptySlots`. -/
def generate (inp : SchoolData) (cons : Constraints) (r : RandSrc) : St :=
  let st := initSt inp
  let st := scheduleSpecialEvents inp st
  let st := scheduleRestrictedSubjects inp cons r st
  let st := scheduleSingleResourceSubjects inp cons r st
  let st := scheduleStrictDoublePeriodSubjects inp cons r st
  let st := schedulePE inp cons r st
  let st := scheduleRemainingLessons inp cons r st
  let st := injectBreakAndLunch inp st
  fillEmptySlots inp st

/-! ### The `part_000` revision (namespace `P0`)

This revision differs from sampa in `_getClassDivision` (an extra Year 4
case), per-class schedule overrides, a per-day subject cap inside
`canAssignLesson`, and a stateful two-singles fallback inside
`_scheduleLessonBlock` that can commit one single and still return false. -/

namespace P0

/-- `_getClassDivision` of part_000. -/
def getClassDivision (name : String) : String :=
  let y? := match matchYearPat name.data with
    | some y => some y
    | none => matchNumPat name.data
  match y? with
  | none => "unknown"
  | some y =>
    if 1 ≤ y ∧ y ≤ 3 then "lowerPrimary"
    else if y = 4 ∨ name = "Year 4" then "upperPrimary"
    else if 5 ≤ y ∧ y ≤ 6 then "upperPrimary"
    else if 7 ≤ y ∧ y ≤ 9 then "lowerSecondary"
    else if 10 ≤ y ∧ y ≤ 11 then "upperSecondary"
    else "unknown"

/-- `_getLessonSlotsBreakLunchForClass`: per-class override, else division
schedule (with empty slot list default). -/
def getLessonSlotsBreakLunchForClass (inp : SchoolData) (c : String) : DivSched :=
  match inp.perClassSchedules c with
  | some pc => pc
  | none =>
    match inp.divisionSchedules (getClassDivision c) with
    | some dsch => dsch
    | none => ⟨[], none, none⟩

/-- `_getAvailableLessonSlots` of part_000 (the day argument is unused). -/
def getAvailableLessonSlots (inp : SchoolData) (c : String) : List Nat :=
  (getLessonSlotsBreakLunchForClass inp c).lessonSlots

/-- `canAssignLesson` of part_000: as the sampa version, but the slot list
is per class and a per-day subject cap of 2 is enforced unless
`allowMoreThan2PerDay` is set (no caller sets it). -/
def canAssignLesson (inp : SchoolData) (cons : Constraints) (st : St)
    (c S t d : String) (p : Nat) (allowMoreThan2PerDay : Bool) : CheckRes :=
  if ¬ (getAvailableLessonSlots inp c).contains p then
    .no "slot is not a valid lesson slot for this class"
  else if (cellGet (st.grid c d) p).any (fun e => e.isLesson) then
    .no "class slot already booked"
  else if ¬ allowMoreThan2PerDay ∧ countSubjectOnDay st c S d ≥ 2 then
    .no "subject already scheduled 2 times for this class on this day"
  else
    match st.stats t with
    | some ts =>
      if ts.daily d ≥ capOf cons t then
        .no "teacher daily workload exceeded"
      else if st.gTeachers d p t then
        .no "teacher already booked globally"
      else
        canAssignTail cons st c S t d p
    | none => canAssignTail cons st c S t d p

/-- Ascending insertion used to model `.sort((a, b) => a - b)`. -/
def insertAsc (x : Nat) : List Nat → List Nat
  | [] => [x]
  | y :: ys => if x ≤ y then x :: y :: ys else y :: insertAsc x ys

def sortAsc (l : List Nat) : List Nat := l.foldr insertAsc []

/-- The stateful two-singles fallback of part_000: commit each individually
passing slot as found, stopping after two commits or when the per-day count
reaches 2.  Returns the number of singles committed. -/
def singlesScan (inp : SchoolData) (cons : Constraints) (c S t d : String) :
    List Nat → Nat → Nat → St → Nat × St
  | [], k, _, st => (k, st)
  | p :: ps, k, alr, st =>
    if (canAssignLesson inp cons st c S t d p false).valid then
      let st' := assignLesson c S t d p st
      if k + 1 = 2 ∨ alr + 1 ≥ 2 then (k + 1, st')
      else singlesScan inp cons c S t d ps (k + 1) (alr + 1) st'
    else singlesScan inp cons c S t d ps k alr st

/-- The day loop of `_scheduleLessonBlock` (part_000 revision). -/
def blockGo (inp : SchoolData) (cons : Constraints) (r : RandSrc)
    (c S t : String) (lessonSlots : List Nat) (np : Nat) (strictD singlesA : Bool) :
    List String → St → Bool × St
  | [], st => (false, st)
  | d :: rest, st =>
    if countSubjectOnDay st c S d ≥ 2 then
      blockGo inp cons r c S t lessonSlots np strictD singlesA rest st
    else
      let avail := sortAsc (availableSlotsOn inp st lessonSlots c d)
      let chk := fun p => (canAssignLesson inp cons st c S t d p false).valid
      if np = 2 then
        match findAdjPair chk avail with
        | some (a, b) => (true, assignLesson c S t d b (assignLesson c S t d a st))
        | none =>
          if ¬ strictD ∧ singlesA then
            let (k, st') := singlesScan inp cons c S t d avail 0 (countSubjectOnDay st c S d) st
            if k = 2 then (true, st')
            else blockGo inp cons r c S t lessonSlots np strictD singlesA rest st'
          else blockGo inp cons r c S t lessonSlots np strictD singlesA rest st
      else if np = 1 ∧ singlesA then
        match avail.find? chk with
        | some p => (true, assignLesson c S t d p st)
        | none => blockGo inp cons r c S t lessonSlots np strictD singlesA rest st
      else blockGo inp cons r c S t lessonSlots np strictD singlesA rest st

/-- `_scheduleLessonBlock` (part_000 revision). -/
def scheduleLessonBlock (inp : SchoolData) (cons : Constraints) (r : RandSrc)
    (c S t : String) (allowedDays : List String) (np : Nat)
    (strictD singlesA : Bool) (st : St) : Bool × St :=
  blockGo inp cons r c S t (getAvailableLessonSlots inp c) np strictD singlesA
    (r.days allowedDays) { st with calls := st.calls + 1 }

end P0

def keysNodup (cs : Cells) : Prop := (cs.map (·.1)).Nodup

def keyCount (cs : Cells) (p : Nat) : Nat :=
  (cs.filter (fun pe => pe.1 == p)).length

/-! ### Lemmas about subject counts in a row -/

/-- Number of entries of a row whose subject is `S`. -/
def countS (cs : Cells) (S : String) : Nat :=
  (cs.filter (fun pe => pe.2.subjectOf == some S)).length

/-! ### Effect lemmas for `assignLesson` and `St.setCell` -/

/-- Daily count of a teacher, 0 if untracked. -/
def dailyOf (st : St) (t d : String) : Nat :=
  match st.stats t with
  | some ts => ts.daily d
  | none => 0

/-! ### The run invariants -/

/-- A tracked daily count never exceeds the applicable cap plus one. -/
def TInv (cons : Constraints) (st : St) : Prop :=
  ∀ t d, dailyOf st t d ≤ capOf cons t + 1

/-- Every ICT lesson cell of a class with a non-empty name is recorded in
the lab resource map, which pins down its claiming class; hence at most one
such class holds the lab per slot.  A class literally named `""` stores a
falsy claim (the truthiness test in `canAssignTail` does not see it), so
its cells cannot be registered this way. -/
def IctInv (st : St) : Prop :=
  ∀ c d p t, c ≠ "" → cellGet (st.grid c d) p = some (.lesson "ICT" t) → st.gICT d p = some c

/-- Every grid row has distinct period keys. -/
def GridOK (st : St) : Prop :=
  ∀ c d, keysNodup (st.grid c d)

/-! ### Well-formed run hypotheses

`Math.random`-comparator sorts always permute; day lists have no
duplicates; division slot lists have no duplicates; restriction day lists
name real days (the source would crash otherwise). -/

structure WFInput (inp : SchoolData) (cons : Constraints) (r : RandSrc) : Prop where
  permC : ∀ l, List.Perm (r.classes l) l
  permD : ∀ l, List.Perm (r.days l) l
  permS : ∀ l, List.Perm (r.slots l) l
  daysND : inp.days.Nodup
  slotsND : ∀ c, (getAvailableLessonSlots inp c).Nodup
  restrDays : ∀ pr ∈ cons.subjectRestrictions, ∀ d ∈ pr.2.days.getD [], d ∈ inp.days

/-! ### The per-class loop bookkeeping predicate -/

/-- Everything a scheduling loop guarantees: exact budget accounting,
preservation of unrelated counts, append-only diagnostics, and the three
invariants. -/
def LoopOK (inp : SchoolData) (cons : Constraints) (c S : String)
    (n : Nat) (st : St) (res : Nat × St) : Prop :=
  (getScheduledPeriods inp res.2 c S + res.1 = getScheduledPeriods inp st c S + n) ∧
  res.1 ≤ n ∧
  (∀ c' S' d', ¬ (c' = c ∧ S' = S) →
    countSubjectOnDay res.2 c' S' d' = countSubjectOnDay st c' S' d') ∧
  (∀ dg ∈ st.diags, dg ∈ res.2.diags) ∧
  (TInv cons st → TInv cons res.2) ∧
  (IctInv st → IctInv res.2) ∧
  (GridOK st → GridOK res.2)

/-- The result of one per-class scheduling branch: loop bookkeeping relative
to the entry state, plus a matching diagnostic when periods remain. -/
def CorePost (inp : SchoolData) (cons : Constraints) (c S : String)
    (n : Nat) (st st' : St) : Prop :=
  ∃ m, LoopOK inp cons c S n st (m, st') ∧
    (m = 0 ∨ ∃ dg ∈ st'.diags,
      dg.className = c ∧ dg.subject = S ∧ dg.periodsRemaining = m)

/-! ### Requirement bookkeeping: bounds and the per-pair condition -/

/-- A class never holds more lessons of a subject than its division
requires (0 when there is no requirement). -/
def CB (inp : SchoolData) (st : St) : Prop :=
  ∀ c S, getScheduledPeriods inp st c S ≤ (subjectsLookup inp (getClassDivision c) S).getD 0

/-- Either the requirement is met, or some diagnostic records exactly the
current shortfall for the pair. -/
def OKpair (inp : SchoolData) (c S : String) (R : Nat) (st : St) : Prop :=
  getScheduledPeriods inp st c S = R ∨
  ∃ dg ∈ st.diags, dg.className = c ∧ dg.subject = S ∧
    dg.periodsRemaining + getScheduledPeriods inp st c S = R

/-! ### Subject-level scheduling lemmas -/

/-- What one `_scheduleAllForSubject` pass for subject `T` guarantees
relative to its entry state. -/
def SafsRel (inp : SchoolData) (cons : Constraints) (T : String) (st0 st' : St) : Prop :=
  (∀ c0 S0 d0, S0 ≠ T → countSubjectOnDay st' c0 S0 d0 = countSubjectOnDay st0 c0 S0 d0) ∧
  (∀ dg ∈ st0.diags, dg ∈ st'.diags) ∧
  (CB inp st0 → CB inp st') ∧
  (TInv cons st0 → TInv cons st') ∧
  (IctInv st0 → IctInv st') ∧
  (GridOK st0 → GridOK st')

/-! ### The non-lesson phases: pinned events, break and lunch, gap filler -/

/-- These phases write only typed entries into empty cells: counts, the
diagnostics and the teacher stats are untouched. -/
def PhasePres (cons : Constraints) (st0 st' : St) : Prop :=
  (∀ c0 S0 d0, countSubjectOnDay st' c0 S0 d0 = countSubjectOnDay st0 c0 S0 d0) ∧
  st'.diags = st0.diags ∧
  st'.stats = st0.stats ∧
  (IctInv st0 → IctInv st') ∧
  (GridOK st0 → GridOK st')

/-! ### The pipeline invariant -/

def PipeInv (inp : SchoolData) (cons : Constraints) (st : St) : Prop :=
  CB inp st ∧ TInv cons st ∧ IctInv st ∧ GridOK st

/-! ### Carrying the requirement-or-diagnostic condition through the pipeline -/

/-- The bundle carried for one fixed (class, subject, requirement) triple:
the global count bound plus the requirement-or-diagnostic condition. -/
def KeepP (inp : SchoolData) (c S : String) (R : Nat) (st : St) : Prop :=
  CB inp st ∧ OKpair inp c S R st

/-- The gap filler, restated with named loop bodies (definitionally the
same function as `fillEmptySlots`). -/
def fillCell (inp : SchoolData) (c d : String) (st : St) (pid : Nat) : St :=
  if cellGet (st.grid c d) pid = none then
    if (getAvailableLessonSlots inp c).contains pid then
      St.setCell st c d pid (Entry.free "Free Period")
    else if inp.periods.any (fun p => p.id == pid && p.ptype == some "arrival") then
      St.setCell st c d pid Entry.arrival
    else St.setCell st c d pid (Entry.free "Free")
  else st

def fillRow (inp : SchoolData) (c : String) (st : St) (d : String) : St :=
  (inp.periods.map (fun p => p.id)).foldl (fillCell inp c d) st

def fillClass (inp : SchoolData) (st : St) (c : String) : St :=
  inp.days.foldl (fillRow inp c) st

/-- Mixed-structure budget of a subject for a division: the explicit
`structure.doubles`/`structure.singles` targets, when present. -/
def mixedBudget (cons : Constraints) (S dv : String) : Nat :=
  match findDPRule cons S dv with
  | some rl =>
    if rl.strict = StrictTag.smixed then
      match rl.struct with
      | some ms => ms.doubles + ms.singles
      | none => 0
    else 0
  | none => 0

/-- A loop for class `c` leaves every other class row alone and only pushes
diagnostics naming `c`. -/
def Quiet (c c0 : String) (st : St) (st' : St) : Prop :=
  st'.grid c0 = st.grid c0 ∧ ∀ dg ∈ st'.diags, dg ∈ st.diags ∨ dg.className = c

/-- Relation through the lesson phases, seen from the unknown class: its
row never changes and no new diagnostic names it. -/
def UQ (c0 : String) (st st' : St) : Prop :=
  st'.grid c0 = st.grid c0 ∧ ∀ dg ∈ st'.diags, dg ∈ st.diags ∨ dg.className ≠ c0

/-! ### Non-lesson rows through the typed-write phases -/

/-- The class row holds only typed (non-lesson) entries. -/
def RowNonLesson (c : String) (st : St) : Prop :=
  ∀ d : String, ∀ p : Nat, ∀ e : Entry,
    cellGet (st.grid c d) p = some e → e.isLesson = false

/-! ### Concrete inputs for witnesses and counterexamples -/

/-- Identity shuffles (one fixed draw of `Math.random`). -/
def rid : RandSrc := ⟨id, id, id⟩

/-- Reversing class shuffle (another possible draw). -/
def rrev : RandSrc := ⟨List.reverse, id, id⟩

/-- The identity shuffles again, written differently. -/
def rid2 : RandSrc := ⟨fun l => id l, fun l => id l, fun l => id l⟩

/-- One class, one day, two slots, Math requires 2, teacher daily cap 1. -/
def inpA : SchoolData where
  days := ["Mon"]
  periods := [⟨1, none⟩, ⟨2, none⟩]
  divisionSchedules := fun dv => if dv = "lowerPrimary" then some ⟨[1, 2], none, none⟩ else none
  subjects := [("lowerPrimary", [("Math", 2)])]
  teachers := [("1A", [("Math", ["T"])])]
  specialEvents := []
  perClassSchedules := fun _ => none

def consA : Constraints where
  workloadLimits := ⟨1, 9⟩
  teacherWorkloadExceptions := []
  teacherAvailability := fun _ => none
  subjectRestrictions := []
  singleResourceSubjects := none
  doublePeriodSubjects := []

/-- Two classes competing for the single ICT slot of the day. -/
def inpB : SchoolData where
  days := ["Mon"]
  periods := [⟨1, none⟩]
  divisionSchedules := fun dv => if dv = "lowerPrimary" then some ⟨[1], none, none⟩ else none
  subjects := [("lowerPrimary", [("ICT", 1)])]
  teachers := [("1A", [("ICT", ["TA"])]), ("1B", [("ICT", ["TB"])])]
  specialEvents := []
  perClassSchedules := fun _ => none

def consB : Constraints where
  workloadLimits := ⟨8, 9⟩
  teacherWorkloadExceptions := []
  teacherAvailability := fun _ => none
  subjectRestrictions := []
  singleResourceSubjects := some ["ICT"]
  doublePeriodSubjects := []

/-- Math requires 2 but the class has no teacher entry for it. -/
def inpC : SchoolData where
  days := ["Mon"]
  periods := [⟨1, none⟩, ⟨2, none⟩]
  divisionSchedules := fun dv => if dv = "lowerPrimary" then some ⟨[1, 2], none, none⟩ else none
  subjects := [("lowerPrimary", [("Math", 2)])]
  teachers := [("1A", [])]
  specialEvents := []
  perClassSchedules := fun _ => none

/-- A class name matching no division pattern, next to a normal class. -/
def inpD : SchoolData where
  days := ["Mon"]
  periods := [⟨0, some "arrival"⟩, ⟨1, none⟩]
  divisionSchedules := fun dv => if dv = "lowerPrimary" then some ⟨[1], none, none⟩ else none
  subjects := [("lowerPrimary", [("Math", 1)])]
  teachers := [("Reception", [("Math", ["T"])]), ("1A", [("Math", ["T"])])]
  specialEvents := []
  perClassSchedules := fun _ => none

/-- Three slots, so a third Math period on the same day can be probed. -/
def inpC4 : SchoolData where
  days := ["Mon"]
  periods := [⟨1, none⟩, ⟨2, none⟩, ⟨3, none⟩]
  divisionSchedules := fun dv => if dv = "lowerPrimary" then some ⟨[1, 2, 3], none, none⟩ else none
  subjects := [("lowerPrimary", [("Math", 5)])]
  teachers := [("1A", [("Math", ["T"])])]
  specialEvents := []
  perClassSchedules := fun _ => none

/-- A state with Math already twice on Monday for class 1A. -/
def stC4 : St where
  grid := fun c d => if c = "1A" ∧ d = "Mon" then
    [(1, Entry.lesson "Math" "T"), (2, Entry.lesson "Math" "T")] else []
  gTeachers := fun _ _ _ => false
  gICT := fun _ _ => none
  diags := []
  stats := fun _ => none
  calls := 0

/-- A state whose only occupied cell holds a special event. -/
def stC5 : St where
  grid := fun c d => if c = "1A" ∧ d = "Mon" then [(1, Entry.event "Assembly" "red")] else []
  gTeachers := fun _ _ _ => false
  gICT := fun _ _ => none
  diags := []
  stats := fun _ => none
  calls := 0

/-- Non-adjacent slots 1 and 3 for the part_000 singles fallback. -/
def inpC6 : SchoolData where
  days := ["Mon"]
  periods := [⟨1, none⟩, ⟨3, none⟩]
  divisionSchedules := fun dv => if dv = "upperPrimary" then some ⟨[1, 3], none, none⟩ else none
  subjects := [("upperPrimary", [("Math", 2)])]
  teachers := [("5A", [("Math", ["T"])])]
  specialEvents := []
  perClassSchedules := fun _ => none

/-- The teacher is already booked globally at slot 3, so only slot 1 can
take a single. -/
def stC6 : St where
  grid := fun _ _ => []
  gTeachers := fun d p t => d == "Mon" && p == 3 && t == "T"
  gICT := fun _ _ => none
  diags := []
  stats := fun t => if t = "T" then some ⟨0, fun _ => 0⟩ else none
  calls := 0

/-- A class literally named the empty string next to a normal class, both
requiring ICT; the empty name's division is "unknown", which this subjects
table does list. -/
def inpE : SchoolData where
  days := ["Mon"]
  periods := [⟨1, none⟩]
  divisionSchedules := fun dv =>
    if dv = "unknown" ∨ dv = "lowerPrimary" then some ⟨[1], none, none⟩ else none
  subjects := [("unknown", [("ICT", 1)]), ("lowerPrimary", [("ICT", 1)])]
  teachers := [("", [("ICT", ["TA"])]), ("1B", [("ICT", ["TB"])])]
  specialEvents := []
  perClassSchedules := fun _ => none

/-! ### Basic lemmas about cell rows -/

theorem cellGet_cons (q : Nat) (f : Entry) (cs : Cells) (p : Nat) :
    cellGet ((q, f) :: cs) p = if q == p then some f else cellGet cs p := by
  by_cases h : q == p <;> simp [cellGet, List.find?, h]

theorem any_key_false_of_cellGet_none {cs : Cells} {p : Nat}
    (h : cellGet cs p = none) : cs.any (fun pe => pe.1 == p) = false := by
  induction cs with
  | nil => rfl
  | cons hd tl ih =>
    obtain ⟨q, f⟩ := hd
    rw [cellGet_cons] at h
    by_cases hq : q == p
    · simp [hq] at h
    · simp only [List.any_cons, hq, Bool.false_or]
      exact ih (by simpa [hq] using h)

/-- Writing into an empty key appends. -/
theorem cellSet_of_none {cs : Cells} {p : Nat} (e : Entry) (h : cellGet cs p = none) :
    cellSet cs p e = cs ++ [(p, e)] := by
  unfold cellSet
  rw [any_key_false_of_cellGet_none h]
  simp

theorem cellGet_append (cs cs' : Cells) (p : Nat) :
    cellGet (cs ++ cs') p = (cellGet cs p).orElse (fun _ => cellGet cs' p) := by
  induction cs with
  | nil => simp [cellGet]
  | cons hd tl ih =>
    obtain ⟨q, f⟩ := hd
    by_cases hq : q == p
    · simp [List.cons_append, cellGet_cons, hq]
    · simp [List.cons_append, cellGet_cons, hq, ih]

theorem cellGet_mapReplace_self {cs : Cells} {p : Nat} (e : Entry)
    (ha : cs.any (fun pe => pe.1 == p) = true) :
    cellGet (cs.map (fun pe => if pe.1 == p then (p, e) else pe)) p = some e := by
  induction cs with
  | nil => simp at ha
  | cons hd tl ih =>
    obtain ⟨q, f⟩ := hd
    simp only [List.map_cons]
    by_cases hq : (q == p) = true
    · rw [show (if ((q, f).1 == p) = true then (p, e) else (q, f)) = (p, e) from by simp [hq]]
      rw [cellGet_cons]
      simp
    · rw [show (if ((q, f).1 == p) = true then (p, e) else (q, f)) = (q, f) from by simp [hq]]
      rw [cellGet_cons, if_neg hq]
      simp only [List.any_cons, Bool.or_eq_true] at ha
      rcases ha with h | h
      · exact absurd h hq
      · exact ih h

theorem cellGet_mapReplace_ne {cs : Cells} {p q : Nat} (e : Entry) (h : p ≠ q) :
    cellGet (cs.map (fun pe => if pe.1 == q then (q, e) else pe)) p = cellGet cs p := by
  induction cs with
  | nil => rfl
  | cons hd tl ih =>
    obtain ⟨r, f⟩ := hd
    simp only [List.map_cons]
    have hqp : ¬ ((q == p) = true) := by
      simp only [beq_iff_eq]
      exact Ne.symm h
    by_cases hr : (r == q) = true
    · rw [show (if ((r, f).1 == q) = true then (q, e) else (r, f)) = (q, e) from by simp [hr]]
      have hrq : r = q := by simpa using hr
      rw [cellGet_cons, cellGet_cons, if_neg hqp, if_neg (by rw [hrq]; exact hqp)]
      exact ih
    · rw [show (if ((r, f).1 == q) = true then (q, e) else (r, f)) = (r, f) from by simp [hr]]
      rw [cellGet_cons, cellGet_cons]
      by_cases hrp : (r == p) = true
      · simp [hrp]
      · rw [if_neg hrp, if_neg hrp]
        exact ih

theorem cellGet_of_any_false {cs : Cells} {p : Nat}
    (h : cs.any (fun pe => pe.1 == p) = false) : cellGet cs p = none := by
  induction cs with
  | nil => rfl
  | cons hd tl ih =>
    obtain ⟨q, f⟩ := hd
    simp only [List.any_cons, Bool.or_eq_false_iff] at h
    rw [cellGet_cons, if_neg (by simp [h.1])]
    exact ih h.2

theorem cellGet_cellSet_self (cs : Cells) (p : Nat) (e : Entry) :
    cellGet (cellSet cs p e) p = some e := by
  unfold cellSet
  by_cases ha : cs.any (fun pe => pe.1 == p) = true
  · rw [if_pos ha]
    exact cellGet_mapReplace_self e ha
  · rw [if_neg ha, cellGet_append]
    rw [cellGet_of_any_false (Bool.not_eq_true _ ▸ ha)]
    simp [cellGet, List.find?]

theorem cellGet_cellSet_ne {p q : Nat} (cs : Cells) (e : Entry) (h : p ≠ q) :
    cellGet (cellSet cs q e) p = cellGet cs p := by
  unfold cellSet
  by_cases ha : cs.any (fun pe => pe.1 == q) = true
  · rw [if_pos ha]
    exact cellGet_mapReplace_ne e h
  · rw [if_neg ha, cellGet_append]
    have : cellGet [(q, e)] p = none := by
      rw [cellGet_cons, if_neg (by simp only [beq_iff_eq]; exact Ne.symm h)]
      rfl
    rw [this]
    cases cellGet cs p <;> rfl

/-- A present cell stays present under any write. -/
theorem cellGet_isSome_cellSet {cs : Cells} {p : Nat} (q : Nat) (e : Entry)
    (h : (cellGet cs p).isSome) : (cellGet (cellSet cs q e) p).isSome := by
  by_cases hpq : p = q
  · subst hpq; rw [cellGet_cellSet_self]; rfl
  · rw [cellGet_cellSet_ne cs e hpq]; exact h

theorem keysNodup_nil : keysNodup [] := List.nodup_nil

theorem keysNodup_cellSet {cs : Cells} (p : Nat) (e : Entry) (h : keysNodup cs) :
    keysNodup (cellSet cs p e) := by
  unfold cellSet
  by_cases ha : cs.any (fun pe => pe.1 == p) = true
  · rw [if_pos ha]
    have : (cs.map (fun pe => if pe.1 == p then (p, e) else pe)).map (·.1) = cs.map (·.1) := by
      rw [List.map_map]
      apply List.map_congr_left
      intro pe _
      simp only [Function.comp_apply]
      by_cases hq : (pe.1 == p) = true
      · have : pe.1 = p := by simpa using hq
        simp [hq, this]
      · rw [if_neg hq]
    unfold keysNodup
    rw [this]
    exact h
  · rw [if_neg ha]
    unfold keysNodup
    rw [List.map_append, List.nodup_append]
    refine ⟨h, by simp, ?_⟩
    intro x hx
    simp only [List.map_cons, List.map_nil, List.mem_singleton]
    intro hxp
    subst hxp
    simp only [List.mem_map] at hx
    obtain ⟨pe, hpe, hk⟩ := hx
    exact ha (List.any_eq_true.mpr ⟨pe, hpe, by simp [hk]⟩)

/-- With distinct keys, a present key occurs exactly once. -/
theorem keyCount_one {cs : Cells} {p : Nat} (h : keysNodup cs)
    (h2 : (cellGet cs p).isSome) : keyCount cs p = 1 := by
  induction cs with
  | nil => simp [cellGet] at h2
  | cons hd tl ih =>
    obtain ⟨q, f⟩ := hd
    unfold keysNodup at h
    simp only [List.map_cons, List.nodup_cons] at h
    by_cases hq : (q == p) = true
    · have hqp : q = p := by simpa using hq
      subst hqp
      unfold keyCount
      rw [List.filter_cons]
      simp only [hq, if_true]
      have : (tl.filter (fun pe => pe.1 == q)).length = 0 := by
        rw [List.length_eq_zero, List.filter_eq_nil]
        intro pe hpe
        simp only [beq_iff_eq]
        intro hk
        exact h.1 (by rw [← hk]; exact List.mem_map.mpr ⟨pe, hpe, rfl⟩)
      simp [this]
    · rw [cellGet_cons, if_neg hq] at h2
      unfold keyCount
      rw [List.filter_cons]
      simp only [hq]
      exact ih h.2 h2

theorem countSubjectOnDay_eq (st : St) (c S d : String) :
    countSubjectOnDay st c S d = countS (st.grid c d) S := rfl

theorem countS_append (cs cs' : Cells) (S : String) :
    countS (cs ++ cs') S = countS cs S + countS cs' S := by
  simp [countS, List.filter_append]

theorem countS_lesson_append {cs : Cells} {p : Nat} (S t : String)
    (h : cellGet cs p = none) :
    countS (cellSet cs p (.lesson S t)) S = countS cs S + 1 := by
  rw [cellSet_of_none _ h, countS_append]
  simp [countS, Entry.subjectOf, List.filter]

theorem countS_other_append {cs : Cells} {p : Nat} {e : Entry} (S' : String)
    (h : cellGet cs p = none) (he : e.subjectOf ≠ some S') :
    countS (cellSet cs p e) S' = countS cs S' := by
  rw [cellSet_of_none _ h, countS_append]
  have h0 : countS [(p, e)] S' = 0 := by
    have hb : (e.subjectOf == some S') = false := by simpa using he
    simp [countS, List.filter, hb]
  simp [h0]

theorem setCell_grid_self (st : St) (c d : String) (p : Nat) (e : Entry) :
    (St.setCell st c d p e).grid c d = cellSet (st.grid c d) p e := by
  simp [St.setCell]

theorem setCell_grid_other (st : St) (c d : String) (p : Nat) (e : Entry)
    {c' d' : String} (h : ¬ (c' = c ∧ d' = d)) :
    (St.setCell st c d p e).grid c' d' = st.grid c' d' := by
  simp [St.setCell, h]

theorem setCell_gTeachers (st : St) (c d : String) (p : Nat) (e : Entry) :
    (St.setCell st c d p e).gTeachers = st.gTeachers := rfl

theorem setCell_gICT (st : St) (c d : String) (p : Nat) (e : Entry) :
    (St.setCell st c d p e).gICT = st.gICT := rfl

theorem setCell_diags (st : St) (c d : String) (p : Nat) (e : Entry) :
    (St.setCell st c d p e).diags = st.diags := rfl

theorem setCell_stats (st : St) (c d : String) (p : Nat) (e : Entry) :
    (St.setCell st c d p e).stats = st.stats := rfl

theorem setCell_calls (st : St) (c d : String) (p : Nat) (e : Entry) :
    (St.setCell st c d p e).calls = st.calls := rfl

theorem pushDiag_grid (st : St) (dg : Diag) : (st.pushDiag dg).grid = st.grid := rfl

theorem pushDiag_diags (st : St) (dg : Diag) :
    (st.pushDiag dg).diags = st.diags ++ [dg] := rfl

theorem pushDiag_stats (st : St) (dg : Diag) : (st.pushDiag dg).stats = st.stats := rfl

theorem pushDiag_calls (st : St) (dg : Diag) : (st.pushDiag dg).calls = st.calls := rfl

theorem pushDiag_gICT (st : St) (dg : Diag) : (st.pushDiag dg).gICT = st.gICT := rfl

theorem assign_grid_self (c S t d : String) (p : Nat) (st : St) :
    (assignLesson c S t d p st).grid c d = cellSet (st.grid c d) p (.lesson S t) := by
  simp [assignLesson]

theorem assign_grid_other (c S t d : String) (p : Nat) (st : St)
    {c' d' : String} (h : ¬ (c' = c ∧ d' = d)) :
    (assignLesson c S t d p st).grid c' d' = st.grid c' d' := by
  simp [assignLesson, h]

theorem assign_diags (c S t d : String) (p : Nat) (st : St) :
    (assignLesson c S t d p st).diags = st.diags := rfl

theorem assign_calls (c S t d : String) (p : Nat) (st : St) :
    (assignLesson c S t d p st).calls = st.calls := rfl

theorem assign_gICT_self (c t d : String) (p : Nat) (st : St) :
    (assignLesson c "ICT" t d p st).gICT d p = some c := by
  simp [assignLesson]

theorem assign_gICT_not (c S t d : String) (p : Nat) (st : St) (hS : S ≠ "ICT") :
    (assignLesson c S t d p st).gICT = st.gICT := by
  funext d' p'
  simp [assignLesson, hS]

theorem assign_gICT_other (c S t d : String) (p : Nat) (st : St)
    {d' : String} {p' : Nat} (h : ¬ (d' = d ∧ p' = p)) :
    (assignLesson c S t d p st).gICT d' p' = st.gICT d' p' := by
  unfold assignLesson
  (try dsimp only)
  rw [if_neg (fun hc => h ⟨hc.2.1, hc.2.2⟩)]

theorem dailyOf_assign_other (c S t d : String) (p : Nat) (st : St)
    {t' d' : String} (h : ¬ (t' = t ∧ d' = d)) :
    dailyOf (assignLesson c S t d p st) t' d' = dailyOf st t' d' := by
  unfold dailyOf assignLesson
  (try dsimp only)
  by_cases hc : t ≠ "" ∧ t' = t
  · rw [if_pos hc]
    obtain ⟨ht, htt⟩ := hc
    subst htt
    have hd' : ¬ d' = d := fun hdd => h ⟨rfl, hdd⟩
    cases st.stats t' with
    | none => rfl
    | some ts => simp [hd']
  · rw [if_neg hc]

theorem dailyOf_assign_self_le (c S t d : String) (p : Nat) (st : St) :
    dailyOf (assignLesson c S t d p st) t d ≤ dailyOf st t d + 1 := by
  unfold dailyOf assignLesson
  (try dsimp only)
  by_cases ht : t ≠ ""
  · rw [if_pos ⟨ht, rfl⟩]
    cases st.stats t with
    | none => simp
    | some ts => simp
  · rw [if_neg (fun hc => ht hc.1)]
    omega

theorem assign_stats_isSome (c S t d : String) (p : Nat) (st : St) (t' : String) :
    ((assignLesson c S t d p st).stats t').isSome = (st.stats t').isSome := by
  unfold assignLesson
  (try dsimp only)
  by_cases hc : t ≠ "" ∧ t' = t
  · rw [if_pos hc]
    obtain ⟨ht, htt⟩ := hc
    subst htt
    cases st.stats t' <;> rfl
  · rw [if_neg hc]

/-! ### Facts extracted from a passing constraint check -/

theorem canAssignTail_valid_ict {cons : Constraints} {st : St} {c S t d : String} {p : Nat}
    (h : (canAssignTail cons st c S t d p).valid = true) (hS : S = "ICT") :
    (st.gICT d p).getD "" = "" := by
  unfold canAssignTail at h
  split at h
  · simp [CheckRes.no] at h
  · split at h
    · simp [CheckRes.no] at h
    · split at h
      · simp [CheckRes.no] at h
      · split at h
        · simp [CheckRes.no] at h
        · next hcond =>
            subst hS
            simp only [beq_self_eq_true, Bool.true_and, Bool.not_eq_true] at hcond
            simpa using hcond

theorem canAssign_valid_daily {inp : SchoolData} {cons : Constraints} {st : St}
    {c S t d : String} {p : Nat} {ts : TeacherStat}
    (h : (canAssignLesson inp cons st c S t d p).valid = true)
    (hts : st.stats t = some ts) : ts.daily d < capOf cons t := by
  unfold canAssignLesson at h
  split at h
  · simp [CheckRes.no] at h
  · split at h
    · simp [CheckRes.no] at h
    · split at h
      · next ts' hts' =>
          rw [hts] at hts'
          injection hts' with hts''
          subst hts''
          split at h
          · simp [CheckRes.no] at h
          · next hge => omega
      · next hnone => rw [hts] at hnone; exact absurd hnone (by simp)

theorem canAssign_valid_ict {inp : SchoolData} {cons : Constraints} {st : St}
    {c S t d : String} {p : Nat}
    (h : (canAssignLesson inp cons st c S t d p).valid = true) (hS : S = "ICT") :
    (st.gICT d p).getD "" = "" := by
  unfold canAssignLesson at h
  split at h
  · simp [CheckRes.no] at h
  · split at h
    · simp [CheckRes.no] at h
    · split at h
      · split at h
        · simp [CheckRes.no] at h
        · split at h
          · simp [CheckRes.no] at h
          · exact canAssignTail_valid_ict h hS
      · exact canAssignTail_valid_ict h hS

theorem dailyOf_assign_none {st : St} {t : String} (c S d : String) (p : Nat)
    (h : st.stats t = none) : dailyOf (assignLesson c S t d p st) t d = 0 := by
  unfold dailyOf assignLesson
  (try dsimp only)
  by_cases ht : t ≠ ""
  · rw [if_pos ⟨ht, rfl⟩, h]
  · rw [if_neg (fun hc => ht hc.1), h]

theorem TInv_assign {inp : SchoolData} {cons : Constraints} {st : St}
    {c S t d : String} {p : Nat}
    (hv : (canAssignLesson inp cons st c S t d p).valid = true)
    (hT : TInv cons st) : TInv cons (assignLesson c S t d p st) := by
  intro t' d'
  by_cases hc : t' = t ∧ d' = d
  · obtain ⟨rfl, rfl⟩ := hc
    cases hts : st.stats t' with
    | none => rw [dailyOf_assign_none _ _ _ _ hts]; omega
    | some ts =>
      have hlt := canAssign_valid_daily hv hts
      have hle := dailyOf_assign_self_le c S t' d' p st
      have heq : dailyOf st t' d' = ts.daily d' := by unfold dailyOf; rw [hts]
      omega
  · rw [dailyOf_assign_other _ _ _ _ _ _ hc]
    exact hT t' d'

theorem TInv_assign_pair {inp : SchoolData} {cons : Constraints} {st : St}
    {c S t d : String} {a b : Nat}
    (hva : (canAssignLesson inp cons st c S t d a).valid = true)
    (hvb : (canAssignLesson inp cons st c S t d b).valid = true)
    (hT : TInv cons st) :
    TInv cons (assignLesson c S t d b (assignLesson c S t d a st)) := by
  intro t' d'
  by_cases hc : t' = t ∧ d' = d
  · obtain ⟨rfl, rfl⟩ := hc
    cases hts : st.stats t' with
    | none =>
      have h1 : (assignLesson c S t' d' a st).stats t' = none := by
        have h2 := assign_stats_isSome c S t' d' a st t'
        rw [hts] at h2
        simpa using h2
      rw [dailyOf_assign_none _ _ _ _ h1]
      omega
    | some ts =>
      have hlt := canAssign_valid_daily hva hts
      have l1 := dailyOf_assign_self_le c S t' d' a st
      have l2 := dailyOf_assign_self_le c S t' d' b (assignLesson c S t' d' a st)
      have heq : dailyOf st t' d' = ts.daily d' := by unfold dailyOf; rw [hts]
      omega
  · rw [dailyOf_assign_other _ _ _ _ _ _ hc, dailyOf_assign_other _ _ _ _ _ _ hc]
    exact hT t' d'

theorem IctInv_assign {st : St} {c S t d : String} {p : Nat}
    (hI : IctInv st)
    (hg : S = "ICT" → (st.gICT d p).getD "" = "" ∨ st.gICT d p = some c) :
    IctInv (assignLesson c S t d p st) := by
  intro c₀ d₀ p₀ t₀ hne hcell
  by_cases hS : S = "ICT"
  · by_cases hdp : d₀ = d ∧ p₀ = p
    · obtain ⟨rfl, rfl⟩ := hdp
      have hgict : (assignLesson c S t d₀ p₀ st).gICT d₀ p₀ = some c := by
        subst hS; exact assign_gICT_self c t d₀ p₀ st
      rw [hgict]
      by_cases hc0 : c₀ = c
      · rw [hc0]
      · rw [assign_grid_other c S t d₀ p₀ st (fun hcd => hc0 hcd.1)] at hcell
        have := hI c₀ d₀ p₀ t₀ hne hcell
        rcases hg hS with hn | hs
        · rw [this] at hn
          simp only [Option.getD_some] at hn
          exact absurd hn hne
        · rw [hs] at this
          injection this with this'
          exact absurd this'.symm hc0
    · rw [assign_gICT_other c S t d p st hdp]
      apply hI c₀ d₀ p₀ t₀ hne
      by_cases hcd : c₀ = c ∧ d₀ = d
      · obtain ⟨rfl, rfl⟩ := hcd
        by_cases hp : p₀ = p
        · exact absurd ⟨rfl, hp⟩ hdp
        · rw [assign_grid_self] at hcell
          rw [cellGet_cellSet_ne _ _ hp] at hcell
          exact hcell
      · rw [assign_grid_other c S t d p st hcd] at hcell
        exact hcell
  · rw [assign_gICT_not c S t d p st hS]
    apply hI c₀ d₀ p₀ t₀ hne
    by_cases hcd : c₀ = c ∧ d₀ = d
    · obtain ⟨rfl, rfl⟩ := hcd
      by_cases hp : p₀ = p
      · subst hp
        rw [assign_grid_self, cellGet_cellSet_self] at hcell
        injection hcell with hcell'
        cases hcell'
        exact absurd rfl hS
      · rw [assign_grid_self, cellGet_cellSet_ne _ _ hp] at hcell
        exact hcell
    · rw [assign_grid_other c S t d p st hcd] at hcell
      exact hcell

theorem GridOK_assign {st : St} (c S t d : String) (p : Nat) (h : GridOK st) :
    GridOK (assignLesson c S t d p st) := by
  intro c' d'
  by_cases hcd : c' = c ∧ d' = d
  · obtain ⟨rfl, rfl⟩ := hcd
    rw [assign_grid_self]
    exact keysNodup_cellSet _ _ (h c' d')
  · rw [assign_grid_other c S t d p st hcd]
    exact h c' d'

theorem GridOK_setCell {st : St} (c d : String) (p : Nat) (e : Entry) (h : GridOK st) :
    GridOK (St.setCell st c d p e) := by
  intro c' d'
  by_cases hcd : c' = c ∧ d' = d
  · obtain ⟨rfl, rfl⟩ := hcd
    rw [setCell_grid_self]
    exact keysNodup_cellSet _ _ (h c' d')
  · rw [setCell_grid_other st c d p e hcd]
    exact h c' d'

/-- A typed write into an empty cell preserves the ICT invariant. -/
theorem IctInv_setCell {st : St} (c d : String) (p : Nat) (e : Entry)
    (he : e.isLesson = false) (hI : IctInv st) : IctInv (St.setCell st c d p e) := by
  intro c₀ d₀ p₀ t₀ hne hcell
  rw [show (St.setCell st c d p e).gICT = st.gICT from rfl]
  apply hI c₀ d₀ p₀ t₀ hne
  by_cases hcd : c₀ = c ∧ d₀ = d
  · obtain ⟨rfl, rfl⟩ := hcd
    by_cases hp : p₀ = p
    · subst hp
      rw [setCell_grid_self, cellGet_cellSet_self] at hcell
      injection hcell with hcell'
      rw [hcell'] at he
      simp [Entry.isLesson] at he
    · rw [setCell_grid_self, cellGet_cellSet_ne _ _ hp] at hcell
      exact hcell
  · rw [setCell_grid_other st c d p e hcd] at hcell
    exact hcell

/-! ### Specifications of the scan helpers -/

theorem findAdjPair_spec {chk : Nat → Bool} {l : List Nat} {a b : Nat}
    (h : findAdjPair chk l = some (a, b)) :
    a ∈ l ∧ b ∈ l ∧ b = a + 1 ∧ chk a = true ∧ chk b = true := by
  induction l with
  | nil => simp [findAdjPair] at h
  | cons x xs ih =>
    cases xs with
    | nil => simp [findAdjPair] at h
    | cons y ys =>
      rw [findAdjPair] at h
      by_cases hc : (y == x + 1 && chk x && chk y) = true
      · rw [if_pos hc] at h
        injection h with h'
        have hax : a = x := congrArg Prod.fst h'.symm
        have hby : b = y := congrArg Prod.snd h'.symm
        subst hax
        subst hby
        simp only [Bool.and_eq_true, beq_iff_eq] at hc
        exact ⟨List.mem_cons_self _ _, List.mem_cons_of_mem _ (List.mem_cons_self _ _),
          hc.1.1, hc.1.2, hc.2⟩
      · rw [if_neg hc] at h
        obtain ⟨h1, h2, h3, h4, h5⟩ := ih h
        exact ⟨List.mem_cons_of_mem _ h1, List.mem_cons_of_mem _ h2, h3, h4, h5⟩

theorem findAnyPair_spec {chk : Nat → Bool} {l : List Nat} {a b : Nat}
    (h : findAnyPair chk l = some (a, b)) :
    a ∈ l ∧ b ∈ l ∧ chk a = true ∧ chk b = true ∧ (l.Nodup → a ≠ b) := by
  induction l with
  | nil => simp [findAnyPair] at h
  | cons x xs ih =>
    rw [findAnyPair] at h
    by_cases hx : chk x = true
    · rw [if_pos hx] at h
      cases hfind : xs.find? chk with
      | some y =>
        rw [hfind] at h
        injection h with h'
        have hax : a = x := congrArg Prod.fst h'.symm
        have hby : b = y := congrArg Prod.snd h'.symm
        subst hax
        subst hby
        have hcy := List.find?_some hfind
        have hmy := List.mem_of_find?_eq_some hfind
        refine ⟨List.mem_cons_self _ _, List.mem_cons_of_mem _ hmy, hx, hcy, ?_⟩
        intro hnd heq
        exact (List.nodup_cons.mp hnd).1 (heq ▸ hmy)
      | none =>
        rw [hfind] at h
        obtain ⟨h1, h2, h3, h4, h5⟩ := ih h
        exact ⟨List.mem_cons_of_mem _ h1, List.mem_cons_of_mem _ h2, h3, h4,
          fun hnd => h5 (List.nodup_cons.mp hnd).2⟩
    · rw [if_neg hx] at h
      obtain ⟨h1, h2, h3, h4, h5⟩ := ih h
      exact ⟨List.mem_cons_of_mem _ h1, List.mem_cons_of_mem _ h2, h3, h4,
        fun hnd => h5 (List.nodup_cons.mp hnd).2⟩

/-! ### Generic fold helpers -/

theorem foldl_preserve {α : Type} {P : St → Prop} {f : St → α → St} {l : List α}
    (hf : ∀ st x, x ∈ l → P st → P (f st x)) {st : St} (h : P st) :
    P (l.foldl f st) := by
  induction l generalizing st with
  | nil => exact h
  | cons x xs ih =>
    exact ih (fun st' y hy => hf st' y (List.mem_cons_of_mem _ hy))
      (hf st x (List.mem_cons_self _ _) h)

theorem foldl_establish {α : Type} {P : St → Prop} {f : St → α → St} {l : List α} {x : α}
    (hx : x ∈ l)
    (hpres : ∀ st y, y ∈ l → P st → P (f st y))
    (hest : ∀ st, P (f st x)) (st : St) : P (l.foldl f st) := by
  induction l generalizing st with
  | nil => cases hx
  | cons y ys ih =>
    rcases List.mem_cons.mp hx with rfl | hx'
    · exact foldl_preserve (fun st' z hz => hpres st' z (List.mem_cons_of_mem _ hz)) (hest st)
    · exact ih hx' (fun st' z hz => hpres st' z (List.mem_cons_of_mem _ hz)) (f st y)

/-! ### Count lemmas at the state level -/

theorem count_assign_self {st : St} {c S d : String} {p : Nat} (t : String)
    (hp : cellGet (st.grid c d) p = none) :
    countSubjectOnDay (assignLesson c S t d p st) c S d = countSubjectOnDay st c S d + 1 := by
  rw [countSubjectOnDay_eq, countSubjectOnDay_eq, assign_grid_self]
  exact countS_lesson_append S t hp

theorem count_assign_other {st : St} {c S d : String} {p : Nat} (t : String)
    {c' S' d' : String} (h : ¬ (c' = c ∧ S' = S ∧ d' = d))
    (hp : cellGet (st.grid c d) p = none) :
    countSubjectOnDay (assignLesson c S t d p st) c' S' d' = countSubjectOnDay st c' S' d' := by
  rw [countSubjectOnDay_eq, countSubjectOnDay_eq]
  by_cases hcd : c' = c ∧ d' = d
  · obtain ⟨rfl, rfl⟩ := hcd
    have hS' : S' ≠ S := by tauto
    rw [assign_grid_self]
    refine countS_other_append S' hp ?_
    simp only [Entry.subjectOf, ne_eq, Option.some.injEq]
    exact Ne.symm hS'
  · rw [assign_grid_other c S t d p st hcd]

theorem foldl_add_eq_sum {α : Type} (f : α → Nat) (l : List α) (a : Nat) :
    l.foldl (fun acc x => acc + f x) a = a + (l.map f).sum := by
  induction l generalizing a with
  | nil => simp
  | cons x xs ih => simp [ih, Nat.add_assoc]

theorem sum_map_shift {l : List String} {f g : String → Nat} {d : String} {k : Nat}
    (hd : d ∈ l) (hnd : l.Nodup)
    (hself : g d = f d + k) (hother : ∀ x, x ≠ d → g x = f x) :
    (l.map g).sum = (l.map f).sum + k := by
  induction l with
  | nil => cases hd
  | cons x xs ih =>
    have hnd' := List.nodup_cons.mp hnd
    rcases List.mem_cons.mp hd with rfl | hd'
    · have : xs.map g = xs.map f :=
        List.map_congr_left fun y hy => hother y (fun hyd => hnd'.1 (hyd ▸ hy))
      simp only [List.map_cons, List.sum_cons, hself, this]
      omega
    · have hx : x ≠ d := fun hxd => hnd'.1 (hxd ▸ hd')
      have := ih hd' hnd'.2
      simp only [List.map_cons, List.sum_cons, hother x hx, this]
      omega

theorem getScheduledPeriods_shift {inp : SchoolData} {st st' : St} {c S : String}
    {d : String} {k : Nat}
    (hd : d ∈ inp.days) (hnd : inp.days.Nodup)
    (hself : countSubjectOnDay st' c S d = countSubjectOnDay st c S d + k)
    (hother : ∀ d', d' ≠ d → countSubjectOnDay st' c S d' = countSubjectOnDay st c S d') :
    getScheduledPeriods inp st' c S = getScheduledPeriods inp st c S + k := by
  unfold getScheduledPeriods
  rw [foldl_add_eq_sum, foldl_add_eq_sum]
  rw [sum_map_shift hd hnd hself hother]
  omega

theorem getScheduledPeriods_congr {inp : SchoolData} {st st' : St} {c S : String}
    (h : ∀ d, countSubjectOnDay st' c S d = countSubjectOnDay st c S d) :
    getScheduledPeriods inp st' c S = getScheduledPeriods inp st c S := by
  unfold getScheduledPeriods
  rw [foldl_add_eq_sum, foldl_add_eq_sum]
  congr 1
  exact congrArg _ (List.map_congr_left fun d _ => h d)

/-! ### Facts about the candidate slot list -/

theorem mem_avail_none {inp : SchoolData} {st : St} {lessonSlots : List Nat}
    {c d : String} {r : RandSrc} {p : Nat}
    (hperm : ∀ l, List.Perm (r.slots l) l)
    (hp : p ∈ r.slots (availableSlotsOn inp st lessonSlots c d)) :
    cellGet (st.grid c d) p = none := by
  have hmem := (hperm _).mem_iff.mp hp
  unfold availableSlotsOn at hmem
  have hpred := List.of_mem_filter hmem
  simp only [Bool.and_eq_true] at hpred
  exact Option.isNone_iff_eq_none.mp hpred.1

theorem avail_nodup {inp : SchoolData} {st : St} {lessonSlots : List Nat}
    {c d : String} {r : RandSrc}
    (hls : lessonSlots.Nodup) (hperm : ∀ l, List.Perm (r.slots l) l) :
    (r.slots (availableSlotsOn inp st lessonSlots c d)).Nodup :=
  ((hperm _).nodup_iff).mpr (List.Nodup.filter _ hls)

/-! ### Obligations for the two commit shapes inside the block search -/

theorem commit_single_ob {inp : SchoolData} {cons : Constraints} {st : St}
    {c S t d : String} {p : Nat}
    (hv : (canAssignLesson inp cons st c S t d p).valid = true) :
    (assignLesson c S t d p st).calls = st.calls ∧
    (assignLesson c S t d p st).diags = st.diags ∧
    (∀ c', c' ≠ c → (assignLesson c S t d p st).grid c' = st.grid c') ∧
    (TInv cons st → TInv cons (assignLesson c S t d p st)) ∧
    (IctInv st → IctInv (assignLesson c S t d p st)) ∧
    (GridOK st → GridOK (assignLesson c S t d p st)) := by
  refine ⟨assign_calls c S t d p st, assign_diags c S t d p st, ?_, ?_, ?_, ?_⟩
  · intro c' hc'
    funext d'
    exact assign_grid_other c S t d p st (fun hcd => hc' hcd.1)
  · exact TInv_assign hv
  · exact fun hI => IctInv_assign hI (fun hS => Or.inl (canAssign_valid_ict hv hS))
  · exact GridOK_assign c S t d p

theorem commit_pair_ob {inp : SchoolData} {cons : Constraints} {st : St}
    {c S t d : String} {a b : Nat}
    (hva : (canAssignLesson inp cons st c S t d a).valid = true)
    (hvb : (canAssignLesson inp cons st c S t d b).valid = true) :
    (assignLesson c S t d b (assignLesson c S t d a st)).calls = st.calls ∧
    (assignLesson c S t d b (assignLesson c S t d a st)).diags = st.diags ∧
    (∀ c', c' ≠ c →
      (assignLesson c S t d b (assignLesson c S t d a st)).grid c' = st.grid c') ∧
    (TInv cons st → TInv cons (assignLesson c S t d b (assignLesson c S t d a st))) ∧
    (IctInv st → IctInv (assignLesson c S t d b (assignLesson c S t d a st))) ∧
    (GridOK st → GridOK (assignLesson c S t d b (assignLesson c S t d a st))) := by
  refine ⟨?_, ?_, ?_, ?_, ?_, ?_⟩
  · rw [assign_calls, assign_calls]
  · rw [assign_diags, assign_diags]
  · intro c' hc'
    funext d'
    rw [assign_grid_other _ S t d b _ (fun hcd => hc' hcd.1),
      assign_grid_other _ S t d a _ (fun hcd => hc' hcd.1)]
  · exact TInv_assign_pair hva hvb
  · intro hI
    have hI1 : IctInv (assignLesson c S t d a st) :=
      IctInv_assign hI (fun hS => Or.inl (canAssign_valid_ict hva hS))
    refine IctInv_assign hI1 (fun hS => ?_)
    by_cases hba : b = a
    · subst hba
      subst hS
      exact Or.inr (assign_gICT_self c t d b st)
    · refine Or.inl ?_
      rw [assign_gICT_other c S t d a st (fun hx => hba hx.2)]
      exact canAssign_valid_ict hvb hS
  · intro hG
    exact GridOK_assign c S t d b (GridOK_assign c S t d a hG)

/-! ### The master preservation lemma for the block day loop -/

theorem blockGo_master (inp : SchoolData) (cons : Constraints) (r : RandSrc)
    (c S t : String) (lessonSlots : List Nat) (np : Nat)
    (L : List String) (st : St) :
    (blockGo inp cons r c S t lessonSlots np L st).2.calls = st.calls ∧
    (blockGo inp cons r c S t lessonSlots np L st).2.diags = st.diags ∧
    ((blockGo inp cons r c S t lessonSlots np L st).1 = false →
      (blockGo inp cons r c S t lessonSlots np L st).2 = st) ∧
    (∀ c', c' ≠ c → (blockGo inp cons r c S t lessonSlots np L st).2.grid c' = st.grid c') ∧
    (TInv cons st → TInv cons (blockGo inp cons r c S t lessonSlots np L st).2) ∧
    (IctInv st → IctInv (blockGo inp cons r c S t lessonSlots np L st).2) ∧
    (GridOK st → GridOK (blockGo inp cons r c S t lessonSlots np L st).2) := by
  induction L generalizing st with
  | nil => simp [blockGo]
  | cons d rest ih =>
    simp only [blockGo]
    split
    · exact ih st
    · split
      · -- np = 1
        split
        · next p hfind =>
            have hv : (canAssignLesson inp cons st c S t d p).valid = true := by
              have := List.find?_some hfind
              simpa using this
            obtain ⟨o1, o2, o3, o4, o5, o6⟩ := commit_single_ob hv
            exact ⟨o1, o2, fun hh => by simp at hh, o3, o4, o5, o6⟩
        · exact ih st
      · split
        · -- np = 2
          split
          · next a b hfind =>
              obtain ⟨_, _, _, hva, hvb⟩ := findAdjPair_spec hfind
              obtain ⟨o1, o2, o3, o4, o5, o6⟩ := commit_pair_ob hva hvb
              exact ⟨o1, o2, fun hh => by simp at hh, o3, o4, o5, o6⟩
          · split
            · next a b hfind =>
                obtain ⟨_, _, hva, hvb, _⟩ := findAnyPair_spec hfind
                obtain ⟨o1, o2, o3, o4, o5, o6⟩ := commit_pair_ob hva hvb
                exact ⟨o1, o2, fun hh => by simp at hh, o3, o4, o5, o6⟩
            · exact ih st
        · exact ih st

theorem commit_pair_count {inp : SchoolData} {st : St} {c S t d : String} {a b : Nat}
    (hd : d ∈ inp.days) (hdn : inp.days.Nodup) (hne : b ≠ a)
    (hnonea : cellGet (st.grid c d) a = none) (hnoneb : cellGet (st.grid c d) b = none) :
    (getScheduledPeriods inp (assignLesson c S t d b (assignLesson c S t d a st)) c S =
      getScheduledPeriods inp st c S + 2) ∧
    (∀ c' S' d', ¬ (c' = c ∧ S' = S) →
      countSubjectOnDay (assignLesson c S t d b (assignLesson c S t d a st)) c' S' d' =
        countSubjectOnDay st c' S' d') := by
  have hnoneb1 : cellGet ((assignLesson c S t d a st).grid c d) b = none := by
    rw [assign_grid_self, cellGet_cellSet_ne _ _ hne]
    exact hnoneb
  constructor
  · refine getScheduledPeriods_shift hd hdn ?_ ?_
    · rw [count_assign_self t hnoneb1, count_assign_self t hnonea]
    · intro d' hd'
      rw [count_assign_other t (fun hx => hd' hx.2.2) hnoneb1,
        count_assign_other t (fun hx => hd' hx.2.2) hnonea]
  · intro c' S' d' hcs
    rw [count_assign_other t (fun hx => hcs ⟨hx.1, hx.2.1⟩) hnoneb1,
      count_assign_other t (fun hx => hcs ⟨hx.1, hx.2.1⟩) hnonea]

theorem blockGo_count (inp : SchoolData) (cons : Constraints) (r : RandSrc)
    (c S t : String) (lessonSlots : List Nat) (np : Nat)
    (hls : lessonSlots.Nodup) (hperm : ∀ l, List.Perm (r.slots l) l)
    (hdn : inp.days.Nodup)
    (L : List String) (hsub : ∀ d ∈ L, d ∈ inp.days) (st : St) :
    ((blockGo inp cons r c S t lessonSlots np L st).1 = true →
      getScheduledPeriods inp (blockGo inp cons r c S t lessonSlots np L st).2 c S =
        getScheduledPeriods inp st c S + np) ∧
    (∀ c' S' d', ¬ (c' = c ∧ S' = S) →
      countSubjectOnDay (blockGo inp cons r c S t lessonSlots np L st).2 c' S' d' =
        countSubjectOnDay st c' S' d') := by
  induction L generalizing st with
  | nil =>
    constructor
    · intro h
      simp [blockGo] at h
    · intro c' S' d' _
      rfl
  | cons d rest ih =>
    have hd : d ∈ inp.days := hsub d (List.mem_cons_self _ _)
    have hsub' : ∀ d' ∈ rest, d' ∈ inp.days :=
      fun d' hd' => hsub d' (List.mem_cons_of_mem _ hd')
    simp only [blockGo]
    split
    · exact ih hsub' st
    · split
      · next hnp1 =>
        split
        · next p hfind =>
            have hmem : p ∈ r.slots (availableSlotsOn inp st lessonSlots c d) :=
              List.mem_of_find?_eq_some hfind
            have hnone := mem_avail_none hperm hmem
            constructor
            · intro _
              rw [hnp1]
              exact getScheduledPeriods_shift hd hdn (count_assign_self t hnone)
                (fun d' hd' => count_assign_other t (fun hx => hd' hx.2.2) hnone)
            · intro c' S' d' hcs
              exact count_assign_other t (fun hx => hcs ⟨hx.1, hx.2.1⟩) hnone
        · exact ih hsub' st
      · split
        · next hnp2 =>
          split
          · next a b hfind =>
              obtain ⟨hma, hmb, hba, hva, hvb⟩ := findAdjPair_spec hfind
              have hne : b ≠ a := by omega
              obtain ⟨h1, h2⟩ := commit_pair_count (t := t) (S := S) hd hdn hne
                (mem_avail_none hperm hma) (mem_avail_none hperm hmb)
              exact ⟨fun _ => by rw [hnp2]; exact h1, h2⟩
          · split
            · next a b hfind =>
                obtain ⟨hma, hmb, hva, hvb, hnd⟩ := findAnyPair_spec hfind
                have hne : b ≠ a := Ne.symm (hnd (avail_nodup hls hperm))
                obtain ⟨h1, h2⟩ := commit_pair_count (t := t) (S := S) hd hdn hne
                  (mem_avail_none hperm hma) (mem_avail_none hperm hmb)
                exact ⟨fun _ => by rw [hnp2]; exact h1, h2⟩
            · exact ih hsub' st
        · exact ih hsub' st

/-- Combined specification of one `_scheduleLessonBlock` call. -/
theorem slb_spec (inp : SchoolData) (cons : Constraints) (r : RandSrc)
    (c S t : String) (ds : List String) (np : Nat)
    (hwf : WFInput inp cons r) (hds : ∀ d ∈ ds, d ∈ inp.days) (st : St) :
    (scheduleLessonBlock inp cons r c S t ds np st).2.calls = st.calls + 1 ∧
    (scheduleLessonBlock inp cons r c S t ds np st).2.diags = st.diags ∧
    ((scheduleLessonBlock inp cons r c S t ds np st).1 = false →
      (scheduleLessonBlock inp cons r c S t ds np st).2 = { st with calls := st.calls + 1 }) ∧
    (∀ c', c' ≠ c → (scheduleLessonBlock inp cons r c S t ds np st).2.grid c' = st.grid c') ∧
    (TInv cons st → TInv cons (scheduleLessonBlock inp cons r c S t ds np st).2) ∧
    (IctInv st → IctInv (scheduleLessonBlock inp cons r c S t ds np st).2) ∧
    (GridOK st → GridOK (scheduleLessonBlock inp cons r c S t ds np st).2) ∧
    ((scheduleLessonBlock inp cons r c S t ds np st).1 = true →
      getScheduledPeriods inp (scheduleLessonBlock inp cons r c S t ds np st).2 c S =
        getScheduledPeriods inp st c S + np) ∧
    (∀ c' S' d', ¬ (c' = c ∧ S' = S) →
      countSubjectOnDay (scheduleLessonBlock inp cons r c S t ds np st).2 c' S' d' =
        countSubjectOnDay st c' S' d') := by
  obtain ⟨m1, m2, m3, m4, m5, m6, m7⟩ :=
    blockGo_master inp cons r c S t (getAvailableLessonSlots inp c) np (r.days ds)
      { st with calls := st.calls + 1 }
  obtain ⟨c1, c2⟩ :=
    blockGo_count inp cons r c S t (getAvailableLessonSlots inp c) np (hwf.slotsND c)
      hwf.permS hwf.daysND (r.days ds)
      (fun d hd => hds d ((hwf.permD ds).mem_iff.mp hd)) { st with calls := st.calls + 1 }
  unfold scheduleLessonBlock
  exact ⟨m1, m2, m3, m4, m5, m6, m7, c1, c2⟩

theorem LoopOK_id (inp : SchoolData) (cons : Constraints) (c S : String) (n : Nat) (st : St) :
    LoopOK inp cons c S n st (n, st) :=
  ⟨rfl, le_refl n, fun _ _ _ _ => rfl, fun _ h => h, id, id, id⟩

theorem LoopOK_exit_bump (inp : SchoolData) (cons : Constraints) (c S : String)
    (n : Nat) (st : St) (x : Nat) :
    LoopOK inp cons c S n st (n, { st with calls := x }) :=
  ⟨rfl, le_refl n, fun _ _ _ _ => rfl, fun _ h => h, id, id, id⟩

theorem LoopOK_push {inp : SchoolData} {cons : Constraints} {c S : String}
    {n : Nat} {st : St} {res : Nat × St} (h : LoopOK inp cons c S n st res) (dg : Diag) :
    LoopOK inp cons c S n st (res.1, res.2.pushDiag dg) := by
  obtain ⟨h1, h2, h3, h4, h5, h6, h7⟩ := h
  refine ⟨h1, h2, h3, ?_, h5, h6, h7⟩
  intro dg' hdg'
  rw [pushDiag_diags]
  exact List.mem_append_left _ (h4 dg' hdg')

/-- Transfer `LoopOK` over a ghost-counter change of the start state. -/
theorem LoopOK_of_bump {inp : SchoolData} {cons : Constraints} {c S : String}
    {n : Nat} {st : St} {x : Nat} {res : Nat × St}
    (h : LoopOK inp cons c S n { st with calls := x } res) :
    LoopOK inp cons c S n st res :=
  h

/-- Compose a successful block call with the rest of a loop. -/
theorem LoopOK_step {inp : SchoolData} {cons : Constraints} {r : RandSrc}
    {c S t : String} {ds : List String} {np : Nat}
    (hwf : WFInput inp cons r) (hds : ∀ d ∈ ds, d ∈ inp.days) {st st' : St}
    (heq : scheduleLessonBlock inp cons r c S t ds np st = (true, st'))
    {n' : Nat} {res : Nat × St} (h2 : LoopOK inp cons c S n' st' res) :
    LoopOK inp cons c S (n' + np) st res := by
  obtain ⟨_, s2, _, _, s5, s6, s7, s8, s9⟩ := slb_spec inp cons r c S t ds np hwf hds st
  rw [heq] at s2 s5 s6 s7 s8 s9
  obtain ⟨h1, hle, h3, h4, h5, h6, h7⟩ := h2
  have hcnt : getScheduledPeriods inp st' c S = getScheduledPeriods inp st c S + np :=
    s8 rfl
  refine ⟨?_, ?_, ?_, ?_, ?_, ?_, ?_⟩
  · rw [h1, hcnt]
    omega
  · omega
  · intro c' S' d' hcs
    rw [h3 c' S' d' hcs, s9 c' S' d' hcs]
  · intro dg hdg
    exact h4 dg (s2 ▸ hdg)
  · exact fun hT => h5 (s5 hT)
  · exact fun hI => h6 (s6 hI)
  · exact fun hG => h7 (s7 hG)

/-- A failed block call only bumps the ghost counter. -/
theorem slb_false_state {inp : SchoolData} {cons : Constraints} {r : RandSrc}
    {c S t : String} {ds : List String} {np : Nat}
    (hwf : WFInput inp cons r) (hds : ∀ d ∈ ds, d ∈ inp.days) {st st' : St}
    (heq : scheduleLessonBlock inp cons r c S t ds np st = (false, st')) :
    st' = { st with calls := st.calls + 1 } := by
  obtain ⟨_, _, s3, _⟩ := slb_spec inp cons r c S t ds np hwf hds st
  rw [heq] at s3
  exact s3 rfl

/-! ### The scheduling loops satisfy `LoopOK` -/

theorem loopDoublesOnly_ok (inp : SchoolData) (cons : Constraints) (r : RandSrc)
    (c S t : String) (ds : List String)
    (hwf : WFInput inp cons r) (hds : ∀ d ∈ ds, d ∈ inp.days) :
    ∀ n st, LoopOK inp cons c S n st (loopDoublesOnly inp cons r c S t ds n st) := by
  intro n
  induction n using Nat.strong_induction_on with
  | _ n ih =>
    intro st
    rcases n with _ | _ | n
    · exact LoopOK_id inp cons c S 0 st
    · exact LoopOK_id inp cons c S 1 st
    · simp only [loopDoublesOnly]
      cases heq : scheduleLessonBlock inp cons r c S t ds 2 st with
      | mk ok st' =>
        cases ok
        · have hst' := slb_false_state hwf hds heq
          subst hst'
          exact LoopOK_push (LoopOK_exit_bump inp cons c S (n + 2) st (st.calls + 1)) _
        · exact LoopOK_step hwf hds heq (ih n (by omega) st')

theorem loopDoubles_ok (inp : SchoolData) (cons : Constraints) (r : RandSrc)
    (c S t : String) (ds : List String)
    (hwf : WFInput inp cons r) (hds : ∀ d ∈ ds, d ∈ inp.days) :
    ∀ n st, LoopOK inp cons c S n st (loopDoubles inp cons r c S t ds n st) := by
  intro n
  induction n using Nat.strong_induction_on with
  | _ n ih =>
    intro st
    rcases n with _ | _ | n
    · exact LoopOK_id inp cons c S 0 st
    · exact LoopOK_id inp cons c S 1 st
    · simp only [loopDoubles]
      cases heq : scheduleLessonBlock inp cons r c S t ds 2 st with
      | mk ok st' =>
        cases ok
        · have hst' := slb_false_state hwf hds heq
          subst hst'
          exact LoopOK_exit_bump inp cons c S (n + 2) st (st.calls + 1)
        · exact LoopOK_step hwf hds heq (ih n (by omega) st')

theorem loopSinglesPush_ok (inp : SchoolData) (cons : Constraints) (r : RandSrc)
    (c S t : String) (ds : List String)
    (hwf : WFInput inp cons r) (hds : ∀ d ∈ ds, d ∈ inp.days) :
    ∀ n st, LoopOK inp cons c S n st (loopSinglesPush inp cons r c S t ds n st) := by
  intro n
  induction n using Nat.strong_induction_on with
  | _ n ih =>
    intro st
    rcases n with _ | n
    · exact LoopOK_id inp cons c S 0 st
    · simp only [loopSinglesPush]
      cases heq : scheduleLessonBlock inp cons r c S t ds 1 st with
      | mk ok st' =>
        cases ok
        · have hst' := slb_false_state hwf hds heq
          subst hst'
          exact LoopOK_push (LoopOK_exit_bump inp cons c S (n + 1) st (st.calls + 1)) _
        · exact LoopOK_step hwf hds heq (ih n (by omega) st')

theorem loopSinglesSilent_ok (inp : SchoolData) (cons : Constraints) (r : RandSrc)
    (c S t : String) (ds : List String)
    (hwf : WFInput inp cons r) (hds : ∀ d ∈ ds, d ∈ inp.days) :
    ∀ n st, LoopOK inp cons c S n st (loopSinglesSilent inp cons r c S t ds n st) := by
  intro n
  induction n using Nat.strong_induction_on with
  | _ n ih =>
    intro st
    rcases n with _ | n
    · exact LoopOK_id inp cons c S 0 st
    · simp only [loopSinglesSilent]
      cases heq : scheduleLessonBlock inp cons r c S t ds 1 st with
      | mk ok st' =>
        cases ok
        · have hst' := slb_false_state hwf hds heq
          subst hst'
          exact LoopOK_exit_bump inp cons c S (n + 1) st (st.calls + 1)
        · exact LoopOK_step hwf hds heq (ih n (by omega) st')

theorem loopMixedDoubles_ok (inp : SchoolData) (cons : Constraints) (r : RandSrc)
    (c S t : String) (ds : List String)
    (hwf : WFInput inp cons r) (hds : ∀ d ∈ ds, d ∈ inp.days) :
    ∀ dRem n st, LoopOK inp cons c S n st (loopMixedDoubles inp cons r c S t ds dRem n st) := by
  intro dRem
  induction dRem with
  | zero => intro n st; exact LoopOK_id inp cons c S n st
  | succ d ihd =>
    intro n st
    simp only [loopMixedDoubles]
    by_cases hn : n ≥ 2
    · rw [if_pos hn]
      cases heq : scheduleLessonBlock inp cons r c S t ds 2 st with
      | mk ok st' =>
        cases ok
        · have hst' := slb_false_state hwf hds heq
          subst hst'
          exact LoopOK_exit_bump inp cons c S n st (st.calls + 1)
        · have h2 := LoopOK_step hwf hds heq (ihd (n - 2) st')
          have harith : n - 2 + 2 = n := by omega
          rw [harith] at h2
          exact h2
    · rw [if_neg hn]
      exact LoopOK_id inp cons c S n st

theorem loopMixedSingles_ok (inp : SchoolData) (cons : Constraints) (r : RandSrc)
    (c S t : String) (ds : List String)
    (hwf : WFInput inp cons r) (hds : ∀ d ∈ ds, d ∈ inp.days) :
    ∀ sRem n st, LoopOK inp cons c S n st (loopMixedSingles inp cons r c S t ds sRem n st) := by
  intro sRem
  induction sRem with
  | zero => intro n st; exact LoopOK_id inp cons c S n st
  | succ s ihs =>
    intro n st
    simp only [loopMixedSingles]
    by_cases hn : n ≥ 1
    · rw [if_pos hn]
      cases heq : scheduleLessonBlock inp cons r c S t ds 1 st with
      | mk ok st' =>
        cases ok
        · have hst' := slb_false_state hwf hds heq
          subst hst'
          exact LoopOK_exit_bump inp cons c S n st (st.calls + 1)
        · have h2 := LoopOK_step hwf hds heq (ihs (n - 1) st')
          have harith : n - 1 + 1 = n := by omega
          rw [harith] at h2
          exact h2
    · rw [if_neg hn]
      exact LoopOK_id inp cons c S n st

theorem loopMixed3_ok (inp : SchoolData) (cons : Constraints) (r : RandSrc)
    (c S t : String) (ds : List String)
    (hwf : WFInput inp cons r) (hds : ∀ d ∈ ds, d ∈ inp.days) :
    ∀ f n st, LoopOK inp cons c S n st (loopMixed3 inp cons r c S t ds f n st) := by
  intro f
  induction f with
  | zero => intro n st; exact LoopOK_id inp cons c S n st
  | succ f ihf =>
    intro n st
    simp only [loopMixed3]
    by_cases hn : n ≥ 2
    · rw [if_pos hn]
      cases heq : scheduleLessonBlock inp cons r c S t ds 2 st with
      | mk ok st' =>
        cases ok
        · have hst' := slb_false_state hwf hds heq
          cases heq2 : scheduleLessonBlock inp cons r c S t ds 1 st' with
          | mk ok2 st'' =>
            cases ok2
            · have hst'' := slb_false_state hwf hds heq2
              subst hst''
              subst hst'
              exact LoopOK_exit_bump inp cons c S n st (st.calls + 1 + 1)
            · have h2 := LoopOK_step hwf hds heq2 (ihf (n - 1) st'')
              have harith : n - 1 + 1 = n := by omega
              rw [harith] at h2
              subst hst'
              exact LoopOK_of_bump h2
        · have h2 := LoopOK_step hwf hds heq (ihf (n - 2) st')
          have harith : n - 2 + 2 = n := by omega
          rw [harith] at h2
          exact h2
    · rw [if_neg hn]
      exact LoopOK_id inp cons c S n st

/-- The default-branch singles loop records its own failure. -/
theorem loopSinglesPush_diag (inp : SchoolData) (cons : Constraints) (r : RandSrc)
    (c S t : String) (ds : List String) :
    ∀ n st, (loopSinglesPush inp cons r c S t ds n st).1 > 0 →
      (⟨c, S, (loopSinglesPush inp cons r c S t ds n st).1,
        "Failed to schedule remaining single periods"⟩ : Diag) ∈
        (loopSinglesPush inp cons r c S t ds n st).2.diags := by
  intro n
  induction n using Nat.strong_induction_on with
  | _ n ih =>
    intro st hpos
    rcases n with _ | n
    · simp [loopSinglesPush] at hpos
    · revert hpos
      simp only [loopSinglesPush]
      cases heq : scheduleLessonBlock inp cons r c S t ds 1 st with
      | mk ok st' =>
        cases ok
        · intro _
          simp [St.pushDiag]
        · intro hpos
          exact ih n (by omega) st' hpos

theorem LoopOK_comp {inp : SchoolData} {cons : Constraints} {c S : String}
    {n m1 : Nat} {st st1 : St} {res : Nat × St}
    (h1 : LoopOK inp cons c S n st (m1, st1))
    (h2 : LoopOK inp cons c S m1 st1 res) :
    LoopOK inp cons c S n st res := by
  obtain ⟨a1, a2, a3, a4, a5, a6, a7⟩ := h1
  obtain ⟨b1, b2, b3, b4, b5, b6, b7⟩ := h2
  simp only at a1 a2 a3 a4
  refine ⟨by omega, by omega, ?_, ?_, fun h => b5 (a5 h), fun h => b6 (a6 h),
    fun h => b7 (a7 h)⟩
  · intro c' S' d' h
    rw [b3 c' S' d' h, a3 c' S' d' h]
  · intro dg h
    exact b4 dg (a4 dg h)

theorem schedDefault_post (inp : SchoolData) (cons : Constraints) (r : RandSrc)
    (c S t : String) (ds : List String)
    (hwf : WFInput inp cons r) (hds : ∀ d ∈ ds, d ∈ inp.days) (n : Nat) (st : St) :
    CorePost inp cons c S n st (schedDefault inp cons r c S t ds n st) := by
  unfold schedDefault
  cases heq1 : loopDoubles inp cons r c S t ds n st with
  | mk n1 st1 =>
    (try dsimp only)
    cases heq2 : loopSinglesPush inp cons r c S t ds n1 st1 with
    | mk n2 st2 =>
      (try dsimp only)
      have h1 := loopDoubles_ok inp cons r c S t ds hwf hds n st
      rw [heq1] at h1
      have h2 := loopSinglesPush_ok inp cons r c S t ds hwf hds n1 st1
      rw [heq2] at h2
      refine ⟨n2, LoopOK_comp h1 h2, ?_⟩
      by_cases hpos : n2 > 0
      · right
        have hd := loopSinglesPush_diag inp cons r c S t ds n1 st1
        rw [heq2] at hd
        exact ⟨⟨c, S, n2, "Failed to schedule remaining single periods"⟩, hd hpos, rfl, rfl, rfl⟩
      · left
        omega

theorem schedClassCore_post (inp : SchoolData) (cons : Constraints) (r : RandSrc)
    (S : String) (ds : List String) (dblOnly : Bool) (c t : String) (R : Nat)
    (hwf : WFInput inp cons r) (hds : ∀ d ∈ ds, d ∈ inp.days) (st : St) :
    CorePost inp cons c S (R - getScheduledPeriods inp st c S) st
      (schedClassCore inp cons r S ds dblOnly c t R st) := by
  unfold schedClassCore
  cases dblOnly with
  | true =>
    simp only [if_true]
    cases heq : loopDoublesOnly inp cons r c S t ds (R - getScheduledPeriods inp st c S) st with
    | mk nRem st1 =>
      (try dsimp only)
      have h0 := loopDoublesOnly_ok inp cons r c S t ds hwf hds
        (R - getScheduledPeriods inp st c S) st
      rw [heq] at h0
      by_cases hpos : nRem > 0
      · rw [if_pos hpos]
        exact ⟨nRem, LoopOK_push h0 _,
          Or.inr ⟨⟨c, S, nRem, "Remaining periods could not be scheduled as doubles"⟩,
            by simp [St.pushDiag], rfl, rfl, rfl⟩⟩
      · rw [if_neg hpos]
        exact ⟨nRem, h0, Or.inl (by omega)⟩
  | false =>
    simp only [Bool.false_eq_true, if_false]
    cases hrl : findDPRule cons S (getClassDivision c) with
    | none =>
      (try dsimp only)
      exact schedDefault_post inp cons r c S t ds hwf hds _ st
    | some rl =>
      (try dsimp only)
      by_cases hmx : rl.strict = StrictTag.smixed
      · rw [if_pos hmx]
        cases hms : rl.struct with
        | none =>
          (try dsimp only)
          exact schedDefault_post inp cons r c S t ds hwf hds _ st
        | some ms =>
          (try dsimp only)
          cases heq1 : loopMixedDoubles inp cons r c S t ds ms.doubles
            (R - getScheduledPeriods inp st c S) st with
          | mk n1 st1 =>
            (try dsimp only)
            cases heq2 : loopMixedSingles inp cons r c S t ds ms.singles n1 st1 with
            | mk n2 st2 =>
              (try dsimp only)
              cases heq3 : loopMixed3 inp cons r c S t ds n2 n2 st2 with
              | mk n3 st3 =>
                (try dsimp only)
                cases heq4 : loopSinglesSilent inp cons r c S t ds n3 st3 with
                | mk n4 st4 =>
                  (try dsimp only)
                  have h1 := loopMixedDoubles_ok inp cons r c S t ds hwf hds ms.doubles
                    (R - getScheduledPeriods inp st c S) st
                  rw [heq1] at h1
                  have h2 := loopMixedSingles_ok inp cons r c S t ds hwf hds ms.singles n1 st1
                  rw [heq2] at h2
                  have h3 := loopMixed3_ok inp cons r c S t ds hwf hds n2 n2 st2
                  rw [heq3] at h3
                  have h4 := loopSinglesSilent_ok inp cons r c S t ds hwf hds n3 st3
                  rw [heq4] at h4
                  have hall := LoopOK_comp h1 (LoopOK_comp h2 (LoopOK_comp h3 h4))
                  by_cases hpos : n4 > 0
                  · rw [if_pos hpos]
                    exact ⟨n4, LoopOK_push hall _,
                      Or.inr ⟨⟨c, S, n4, "Failed to schedule some periods using mixed structure"⟩,
                        by simp [St.pushDiag], rfl, rfl, rfl⟩⟩
                  · rw [if_neg hpos]
                    exact ⟨n4, hall, Or.inl (by omega)⟩
      · rw [if_neg hmx]
        exact schedDefault_post inp cons r c S t ds hwf hds _ st

theorem OKpair_mono {inp : SchoolData} {c S : String} {R : Nat} {st st' : St}
    (hcnt : ∀ d0, countSubjectOnDay st' c S d0 = countSubjectOnDay st c S d0)
    (hdg : ∀ dg ∈ st.diags, dg ∈ st'.diags)
    (h : OKpair inp c S R st) : OKpair inp c S R st' := by
  have hgs : getScheduledPeriods inp st' c S = getScheduledPeriods inp st c S :=
    getScheduledPeriods_congr hcnt
  rcases h with h | ⟨dg, hm, h1, h2, h3⟩
  · left
    rw [hgs]
    exact h
  · right
    exact ⟨dg, hdg dg hm, h1, h2, by rw [hgs]; exact h3⟩

theorem schedClass_pres (inp : SchoolData) (cons : Constraints) (r : RandSrc)
    (S : String) (ds : List String) (dblOnly : Bool) (c : String)
    (hwf : WFInput inp cons r) (hds : ∀ d ∈ ds, d ∈ inp.days) (st : St) :
    (∀ c' S' d', ¬ (c' = c ∧ S' = S) →
      countSubjectOnDay (schedClass inp cons r S ds dblOnly c st) c' S' d' =
        countSubjectOnDay st c' S' d') ∧
    (∀ dg ∈ st.diags, dg ∈ (schedClass inp cons r S ds dblOnly c st).diags) ∧
    (CB inp st → CB inp (schedClass inp cons r S ds dblOnly c st)) ∧
    (TInv cons st → TInv cons (schedClass inp cons r S ds dblOnly c st)) ∧
    (IctInv st → IctInv (schedClass inp cons r S ds dblOnly c st)) ∧
    (GridOK st → GridOK (schedClass inp cons r S ds dblOnly c st)) := by
  unfold schedClass
  cases hT : getTeacherForClassSubject inp c S with
  | none =>
    (try dsimp only)
    exact ⟨fun _ _ _ _ => rfl, fun _ h => h, id, id, id, id⟩
  | some t =>
    (try dsimp only)
    cases hRR : subjectsLookup inp (getClassDivision c) S with
    | none =>
      (try dsimp only)
      exact ⟨fun _ _ _ _ => rfl, fun _ h => h, id, id, id, id⟩
    | some R =>
      (try dsimp only)
      by_cases hg : t ≠ "" ∧ R > 0
      · rw [if_pos hg]
        obtain ⟨m, hok, _⟩ := schedClassCore_post inp cons r S ds dblOnly c t R hwf hds st
        obtain ⟨k1, k2, k3, k4, k5, k6, k7⟩ := hok
        simp only at k1 k2 k3 k4
        refine ⟨k3, k4, ?_, k5, k6, k7⟩
        intro hCB c0 S0
        by_cases hcs : c0 = c ∧ S0 = S
        · obtain ⟨rfl, rfl⟩ := hcs
          have hb := hCB c0 S0
          rw [hRR] at hb ⊢
          simp only [Option.getD_some] at hb ⊢
          omega
        · rw [getScheduledPeriods_congr (fun d0 => k3 c0 S0 d0 hcs)]
          exact hCB c0 S0
      · rw [if_neg hg]
        exact ⟨fun _ _ _ _ => rfl, fun _ h => h, id, id, id, id⟩

theorem schedClass_est (inp : SchoolData) (cons : Constraints) (r : RandSrc)
    (S : String) (ds : List String) (dblOnly : Bool) (c : String)
    (hwf : WFInput inp cons r) (hds : ∀ d ∈ ds, d ∈ inp.days)
    {t : String} {R : Nat}
    (hT : getTeacherForClassSubject inp c S = some t) (ht : t ≠ "")
    (hR : subjectsLookup inp (getClassDivision c) S = some R) (hR0 : R > 0)
    (st : St) (hCB : CB inp st) :
    OKpair inp c S R (schedClass inp cons r S ds dblOnly c st) := by
  unfold schedClass
  rw [hT, hR]
  (try dsimp only)
  rw [if_pos ⟨ht, hR0⟩]
  obtain ⟨m, hok, hdg⟩ := schedClassCore_post inp cons r S ds dblOnly c t R hwf hds st
  obtain ⟨k1, k2, _⟩ := hok
  simp only at k1 k2
  have hble : getScheduledPeriods inp st c S ≤ R := by
    have hb := hCB c S
    rw [hR] at hb
    simpa using hb
  rcases hdg with hm0 | ⟨dg, hdgm, hdc, hdS, hdrem⟩
  · left
    omega
  · right
    exact ⟨dg, hdgm, hdc, hdS, by omega⟩

theorem schedClass_OKpair_pres (inp : SchoolData) (cons : Constraints) (r : RandSrc)
    (S : String) (ds : List String) (dblOnly : Bool) (c : String)
    (hwf : WFInput inp cons r) (hds : ∀ d ∈ ds, d ∈ inp.days)
    {c0 : String} {t0 : String} {R0 : Nat}
    (hT0 : getTeacherForClassSubject inp c0 S = some t0) (ht0 : t0 ≠ "")
    (hR0 : subjectsLookup inp (getClassDivision c0) S = some R0) (hR00 : R0 > 0)
    (st : St) (hCB : CB inp st) (hp : OKpair inp c0 S R0 st) :
    OKpair inp c0 S R0 (schedClass inp cons r S ds dblOnly c st) := by
  obtain ⟨p1, p2, _⟩ := schedClass_pres inp cons r S ds dblOnly c hwf hds st
  by_cases hc : c0 = c
  · subst hc
    exact schedClass_est inp cons r S ds dblOnly c0 hwf hds hT0 ht0 hR0 hR00 st hCB
  · exact OKpair_mono (fun d0 => p1 c0 S d0 (fun hx => hc hx.1)) p2 hp

theorem foldl_est_inv {α : Type} {Q P : St → Prop} {f : St → α → St} {l : List α} {x : α}
    (hx : x ∈ l)
    (hQ : ∀ st y, y ∈ l → Q st → Q (f st y))
    (hP : ∀ st y, y ∈ l → Q st → P st → P (f st y))
    (hest : ∀ st, Q st → P (f st x))
    {st : St} (hq : Q st) : P (l.foldl f st) ∧ Q (l.foldl f st) := by
  induction l generalizing st with
  | nil => cases hx
  | cons y ys ih =>
    rcases List.mem_cons.mp hx with rfl | hx'
    · have h0 : P (f st x) ∧ Q (f st x) := ⟨hest st hq, hQ st x (List.mem_cons_self _ _) hq⟩
      exact foldl_preserve (P := fun s => P s ∧ Q s) (l := ys)
        (fun st' z hz hpq => ⟨hP st' z (List.mem_cons_of_mem _ hz) hpq.2 hpq.1,
          hQ st' z (List.mem_cons_of_mem _ hz) hpq.2⟩) h0
    · exact ih hx' (fun st' z hz => hQ st' z (List.mem_cons_of_mem _ hz))
        (fun st' z hz => hP st' z (List.mem_cons_of_mem _ hz))
        (hQ st y (List.mem_cons_self _ _) hq)

theorem SafsRel_refl (inp : SchoolData) (cons : Constraints) (T : String) (st : St) :
    SafsRel inp cons T st st :=
  ⟨fun _ _ _ _ => rfl, fun _ h => h, id, id, id, id⟩

theorem SafsRel_trans {inp : SchoolData} {cons : Constraints} {T : String}
    {st0 st1 st2 : St} (h1 : SafsRel inp cons T st0 st1) (h2 : SafsRel inp cons T st1 st2) :
    SafsRel inp cons T st0 st2 := by
  obtain ⟨a1, a2, a3, a4, a5, a6⟩ := h1
  obtain ⟨b1, b2, b3, b4, b5, b6⟩ := h2
  exact ⟨fun c0 S0 d0 h => (b1 c0 S0 d0 h).trans (a1 c0 S0 d0 h),
    fun dg h => b2 dg (a2 dg h), fun h => b3 (a3 h), fun h => b4 (a4 h),
    fun h => b5 (a5 h), fun h => b6 (a6 h)⟩

theorem scheduleAllForSubject_pres (inp : SchoolData) (cons : Constraints) (r : RandSrc)
    (T : String) (ds : List String) (dblOnly : Bool)
    (hwf : WFInput inp cons r) (hds : ∀ d ∈ ds, d ∈ inp.days) (st : St) :
    SafsRel inp cons T st (scheduleAllForSubject inp cons r T ds dblOnly st) := by
  unfold scheduleAllForSubject
  generalize r.classes (allClasses inp) = L
  induction L generalizing st with
  | nil => exact SafsRel_refl inp cons T st
  | cons cc cs ih =>
    refine SafsRel_trans ?_ (ih (schedClass inp cons r T ds dblOnly cc st))
    obtain ⟨p1, p2, p3, p4, p5, p6⟩ := schedClass_pres inp cons r T ds dblOnly cc hwf hds st
    exact ⟨fun c0 S0 d0 h => p1 c0 S0 d0 (fun hx => h hx.2), p2, p3, p4, p5, p6⟩

theorem scheduleAllForSubject_est (inp : SchoolData) (cons : Constraints) (r : RandSrc)
    (S : String) (ds : List String) (dblOnly : Bool)
    (hwf : WFInput inp cons r) (hds : ∀ d ∈ ds, d ∈ inp.days)
    {c t : String} {R : Nat} (hcm : c ∈ allClasses inp)
    (hT : getTeacherForClassSubject inp c S = some t) (ht : t ≠ "")
    (hR : subjectsLookup inp (getClassDivision c) S = some R) (hR0 : R > 0)
    (st : St) (hCB : CB inp st) :
    OKpair inp c S R (scheduleAllForSubject inp cons r S ds dblOnly st) ∧
    CB inp (scheduleAllForSubject inp cons r S ds dblOnly st) := by
  unfold scheduleAllForSubject
  exact foldl_est_inv (Q := CB inp) (P := OKpair inp c S R)
    ((hwf.permC _).mem_iff.mpr hcm)
    (fun st' y _ hq => (schedClass_pres inp cons r S ds dblOnly y hwf hds st').2.2.1 hq)
    (fun st' y _ hq hp =>
      schedClass_OKpair_pres inp cons r S ds dblOnly y hwf hds hT ht hR hR0 st' hq hp)
    (fun st' hq => schedClass_est inp cons r S ds dblOnly c hwf hds hT ht hR hR0 st' hq)
    hCB

/-- Any `_scheduleAllForSubject` pass keeps the fixed pair condition: it
either leaves the pair untouched or re-establishes it. -/
theorem scheduleAllForSubject_keep (inp : SchoolData) (cons : Constraints) (r : RandSrc)
    (T : String) (ds : List String) (dblOnly : Bool)
    (hwf : WFInput inp cons r) (hds : ∀ d ∈ ds, d ∈ inp.days)
    {c t : String} {R : Nat} {S : String} (hcm : c ∈ allClasses inp)
    (hT : getTeacherForClassSubject inp c S = some t) (ht : t ≠ "")
    (hR : subjectsLookup inp (getClassDivision c) S = some R) (hR0 : R > 0)
    (st : St) (hq : CB inp st ∧ OKpair inp c S R st) :
    CB inp (scheduleAllForSubject inp cons r T ds dblOnly st) ∧
    OKpair inp c S R (scheduleAllForSubject inp cons r T ds dblOnly st) := by
  obtain ⟨s1, s2, s3, _⟩ := scheduleAllForSubject_pres inp cons r T ds dblOnly hwf hds st
  by_cases hST : S = T
  · subst hST
    obtain ⟨ho, hc⟩ := scheduleAllForSubject_est inp cons r S ds dblOnly hwf hds hcm
      hT ht hR hR0 st hq.1
    exact ⟨hc, ho⟩
  · exact ⟨s3 hq.1, OKpair_mono (fun d0 => s1 c S d0 hST) s2 hq.2⟩

theorem PhasePres_refl (cons : Constraints) (st : St) : PhasePres cons st st :=
  ⟨fun _ _ _ => rfl, rfl, rfl, id, id⟩

theorem PhasePres_trans {cons : Constraints} {st0 st1 st2 : St}
    (h1 : PhasePres cons st0 st1) (h2 : PhasePres cons st1 st2) :
    PhasePres cons st0 st2 := by
  obtain ⟨a1, a2, a3, a4, a5⟩ := h1
  obtain ⟨b1, b2, b3, b4, b5⟩ := h2
  exact ⟨fun c0 S0 d0 => (b1 c0 S0 d0).trans (a1 c0 S0 d0), b2.trans a2, b3.trans a3,
    fun h => b4 (a4 h), fun h => b5 (a5 h)⟩

theorem PhasePres_setCell (cons : Constraints) (st : St) (c d : String) (p : Nat) (e : Entry)
    (he : e.subjectOf = none) (hel : e.isLesson = false)
    (hguard : cellGet (st.grid c d) p = none) :
    PhasePres cons st (St.setCell st c d p e) := by
  refine ⟨?_, rfl, rfl, IctInv_setCell c d p e hel, GridOK_setCell c d p e⟩
  intro c0 S0 d0
  rw [countSubjectOnDay_eq, countSubjectOnDay_eq]
  by_cases hcd : c0 = c ∧ d0 = d
  · obtain ⟨rfl, rfl⟩ := hcd
    rw [setCell_grid_self]
    exact countS_other_append S0 hguard (by rw [he]; exact fun h => Option.noConfusion h)
  · rw [setCell_grid_other st c d p e hcd]

theorem foldl_phasePres {cons : Constraints} {α : Type} {f : St → α → St} {l : List α}
    (hf : ∀ st x, x ∈ l → PhasePres cons st (f st x)) (st : St) :
    PhasePres cons st (l.foldl f st) := by
  induction l generalizing st with
  | nil => exact PhasePres_refl cons st
  | cons x xs ih =>
    exact PhasePres_trans (hf st x (List.mem_cons_self _ _))
      (ih (fun st' y hy => hf st' y (List.mem_cons_of_mem _ hy)) (f st x))

theorem scheduleSpecialEvents_pres (inp : SchoolData) (cons : Constraints) (st : St) :
    PhasePres cons st (scheduleSpecialEvents inp st) := by
  unfold scheduleSpecialEvents
  refine foldl_phasePres (fun st1 e _ => ?_) st
  refine foldl_phasePres (fun st2 d _ => ?_) st1
  by_cases hd : e.day = d
  · rw [if_pos hd]
    refine foldl_phasePres (fun st3 c _ => ?_) st2
    by_cases hap : e.appliesToDiv (getClassDivision c) = true
    · rw [if_pos hap]
      refine foldl_phasePres (fun st4 pid _ => ?_) st3
      by_cases hg : cellGet (st4.grid c d) pid = none
      · rw [if_pos hg]
        exact PhasePres_setCell cons st4 c d pid _ rfl rfl hg
      · rw [if_neg hg]
        exact PhasePres_refl cons st4
    · rw [if_neg hap]
      exact PhasePres_refl cons st3
  · rw [if_neg hd]
    exact PhasePres_refl cons st2

theorem injectBreakAndLunch_pres (inp : SchoolData) (cons : Constraints) (st : St) :
    PhasePres cons st (injectBreakAndLunch inp st) := by
  unfold injectBreakAndLunch
  refine foldl_phasePres (fun st1 c _ => ?_) st
  refine foldl_phasePres (fun st2 d _ => ?_) st1
  refine @PhasePres_trans cons st2 ?_ _ ?_ ?_
  case _ =>
    exact (match (inp.divisionSchedules (getClassDivision c)).bind DivSched.breakPeriod with
      | some p => if cellGet (st2.grid c d) p = none then St.setCell st2 c d p .brk else st2
      | none => st2)
  · cases hbp : (inp.divisionSchedules (getClassDivision c)).bind DivSched.breakPeriod with
    | none => exact PhasePres_refl cons st2
    | some p =>
      (try dsimp only)
      by_cases hg : cellGet (st2.grid c d) p = none
      · rw [if_pos hg]
        exact PhasePres_setCell cons st2 c d p _ rfl rfl hg
      · rw [if_neg hg]
        exact PhasePres_refl cons st2
  · cases hbp : (inp.divisionSchedules (getClassDivision c)).bind DivSched.breakPeriod with
    | none =>
      (try dsimp only)
      cases hlp : (inp.divisionSchedules (getClassDivision c)).bind DivSched.lunchPeriod with
      | none => exact PhasePres_refl cons _
      | some p =>
        (try dsimp only)
        by_cases hg : cellGet (st2.grid c d) p = none
        · rw [if_pos hg]
          exact PhasePres_setCell cons _ c d p _ rfl rfl hg
        · rw [if_neg hg]
          exact PhasePres_refl cons _
    | some p =>
      (try dsimp only)
      cases hlp : (inp.divisionSchedules (getClassDivision c)).bind DivSched.lunchPeriod with
      | none => exact PhasePres_refl cons _
      | some p2 =>
        (try dsimp only)
        by_cases hg : cellGet (((if cellGet (st2.grid c d) p = none then St.setCell st2 c d p .brk else st2)).grid c d) p2 = none
        · rw [if_pos hg]
          exact PhasePres_setCell cons _ c d p2 _ rfl rfl hg
        · rw [if_neg hg]
          exact PhasePres_refl cons _

theorem fillEmptySlots_pres (inp : SchoolData) (cons : Constraints) (st : St) :
    PhasePres cons st (fillEmptySlots inp st) := by
  unfold fillEmptySlots
  refine foldl_phasePres (fun st1 c _ => ?_) st
  refine foldl_phasePres (fun st2 d _ => ?_) st1
  refine foldl_phasePres (fun st3 pid _ => ?_) st2
  by_cases hg : cellGet (st3.grid c d) pid = none
  · rw [if_pos hg]
    by_cases h1 : (getAvailableLessonSlots inp c).contains pid = true
    · rw [if_pos h1]
      exact PhasePres_setCell cons st3 c d pid _ rfl rfl hg
    · rw [if_neg h1]
      by_cases h2 : inp.periods.any (fun p => p.id == pid && p.ptype == some "arrival") = true
      · rw [if_pos h2]
        exact PhasePres_setCell cons st3 c d pid _ rfl rfl hg
      · rw [if_neg h2]
        exact PhasePres_setCell cons st3 c d pid _ rfl rfl hg
  · rw [if_neg hg]
    exact PhasePres_refl cons st3

/-! ### Facts about the initial state -/

theorem initSt_count (inp : SchoolData) (c S d : String) :
    countSubjectOnDay (initSt inp) c S d = 0 := rfl

theorem initSt_scheduled (inp : SchoolData) (c S : String) :
    getScheduledPeriods inp (initSt inp) c S = 0 := by
  unfold getScheduledPeriods
  rw [foldl_add_eq_sum]
  have h : ∀ x ∈ inp.days.map (fun d => countSubjectOnDay (initSt inp) c S d), x = 0 := by
    intro x hx
    obtain ⟨d, _, rfl⟩ := List.mem_map.mp hx
    rfl
  rw [List.sum_eq_zero h]
  rfl

theorem initSt_CB (inp : SchoolData) : CB inp (initSt inp) := by
  intro c S
  rw [initSt_scheduled]
  exact Nat.zero_le _

theorem initSt_TInv (inp : SchoolData) (cons : Constraints) : TInv cons (initSt inp) := by
  intro t d
  unfold dailyOf initSt
  dsimp only
  by_cases h : (allTeachersOf inp).contains t
  · rw [if_pos h]
    exact Nat.zero_le _
  · rw [if_neg h]
    exact Nat.zero_le _

theorem initSt_IctInv (inp : SchoolData) : IctInv (initSt inp) := by
  intro c d p t hne h
  simp [initSt, cellGet, List.find?] at h

theorem initSt_GridOK (inp : SchoolData) : GridOK (initSt inp) :=
  fun _ _ => keysNodup_nil

theorem initSt_diags (inp : SchoolData) : (initSt inp).diags = [] := rfl

/-! ### Corollaries of `PhasePres` -/

theorem PhasePres_TInv {cons : Constraints} {st0 st' : St}
    (h : PhasePres cons st0 st') (hT : TInv cons st0) : TInv cons st' := by
  intro t d
  have heq : dailyOf st' t d = dailyOf st0 t d := by
    unfold dailyOf
    rw [h.2.2.1]
  rw [heq]
  exact hT t d

theorem PhasePres_CB {inp : SchoolData} {cons : Constraints} {st0 st' : St}
    (h : PhasePres cons st0 st') (hCB : CB inp st0) : CB inp st' := by
  intro c S
  rw [getScheduledPeriods_congr (fun d => h.1 c S d)]
  exact hCB c S

theorem PhasePres_OKpair {inp : SchoolData} {cons : Constraints} {c S : String} {R : Nat}
    {st0 st' : St} (h : PhasePres cons st0 st') (hp : OKpair inp c S R st0) :
    OKpair inp c S R st' :=
  OKpair_mono (fun d0 => h.1 c S d0) (fun dg hd => h.2.1 ▸ hd) hp

/-! ### Membership helpers -/

theorem lookupA_mem {β : Type} {l : List (String × β)} {k : String} {v : β}
    (h : lookupA l k = some v) : k ∈ l.map (·.1) := by
  unfold lookupA at h
  cases hf : l.find? (fun kv => kv.1 == k) with
  | none => rw [hf] at h; simp at h
  | some kv =>
    have h1 := List.find?_some hf
    have h2 := List.mem_of_find?_eq_some hf
    exact List.mem_map.mpr ⟨kv, h2, by simpa using h1⟩

theorem contains_iff_mem {l : List String} {x : String} : l.contains x = true ↔ x ∈ l :=
  List.elem_iff

theorem mem_dedupFirst {l : List String} {x : String} (h : x ∈ l) : x ∈ dedupFirst l := by
  unfold dedupFirst
  suffices hgen : ∀ acc : List String, x ∈ acc ∨ x ∈ l →
      x ∈ l.foldl (fun acc s => if acc.contains s then acc else acc ++ [s]) acc from
    hgen [] (Or.inr h)
  clear h
  induction l with
  | nil =>
    intro acc h
    rcases h with h | h
    · exact h
    · cases h
  | cons y ys ih =>
    intro acc h
    simp only [List.foldl_cons]
    by_cases hy : acc.contains y = true
    · rw [if_pos hy]
      apply ih
      rcases h with h | h
      · exact Or.inl h
      · rcases List.mem_cons.mp h with rfl | h'
        · exact Or.inl (contains_iff_mem.mp hy)
        · exact Or.inr h'
    · rw [if_neg hy]
      apply ih
      rcases h with h | h
      · exact Or.inl (List.mem_append_left _ h)
      · rcases List.mem_cons.mp h with rfl | h'
        · exact Or.inl (List.mem_append_right _ (List.mem_singleton.mpr rfl))
        · exact Or.inr h'

theorem mem_foldr_append {x : String} {dvl : List (String × Nat)}
    {ll : List (List (String × Nat))} (hdvl : dvl ∈ ll) (hx : x ∈ dvl.map (·.1)) :
    x ∈ ll.foldr (fun dv a => dv.map (·.1) ++ a) [] := by
  induction ll with
  | nil => cases hdvl
  | cons hd tl ih =>
    simp only [List.foldr_cons]
    rcases List.mem_cons.mp hdvl with rfl | h'
    · exact List.mem_append_left _ hx
    · exact List.mem_append_right _ (ih h')

/-- The subject of a requirement lookup is listed by step 6. -/
theorem mem_allSubjectsOf {inp : SchoolData} {dv S : String} {R : Nat}
    (hR : subjectsLookup inp dv S = some R) : S ∈ allSubjectsOf inp := by
  unfold subjectsLookup at hR
  cases hl : lookupA inp.subjects dv with
  | none => rw [hl] at hR; simp at hR
  | some subj =>
    rw [hl] at hR
    have hR2 : lookupA subj S = some R := hR
    apply mem_dedupFirst
    have hsubj : subj ∈ inp.subjects.map (·.2) := by
      unfold lookupA at hl
      cases hf : inp.subjects.find? (fun kv => kv.1 == dv) with
      | none => rw [hf] at hl; simp at hl
      | some kv =>
        rw [hf] at hl
        have h2 := List.mem_of_find?_eq_some hf
        have : kv.2 = subj := by simpa using hl
        exact this ▸ List.mem_map.mpr ⟨kv, h2, rfl⟩
    exact mem_foldr_append hsubj (lookupA_mem hR2)

theorem SAFS_PipeInv (inp : SchoolData) (cons : Constraints) (r : RandSrc)
    (T : String) (ds : List String) (dblOnly : Bool)
    (hwf : WFInput inp cons r) (hds : ∀ d ∈ ds, d ∈ inp.days) (st : St)
    (h : PipeInv inp cons st) :
    PipeInv inp cons (scheduleAllForSubject inp cons r T ds dblOnly st) := by
  obtain ⟨_, _, p3, p4, p5, p6⟩ := scheduleAllForSubject_pres inp cons r T ds dblOnly hwf hds st
  exact ⟨p3 h.1, p4 h.2.1, p5 h.2.2.1, p6 h.2.2.2⟩

theorem PhasePres_PipeInv {inp : SchoolData} {cons : Constraints} {st0 st' : St}
    (h : PhasePres cons st0 st') (hp : PipeInv inp cons st0) : PipeInv inp cons st' :=
  ⟨PhasePres_CB h hp.1, PhasePres_TInv h hp.2.1, h.2.2.2.1 hp.2.2.1, h.2.2.2.2 hp.2.2.2⟩

theorem phase2_PipeInv (inp : SchoolData) (cons : Constraints) (r : RandSrc)
    (hwf : WFInput inp cons r) (st : St) (h : PipeInv inp cons st) :
    PipeInv inp cons (scheduleRestrictedSubjects inp cons r st) := by
  unfold scheduleRestrictedSubjects
  exact foldl_preserve (fun st' pr hpr hp =>
    SAFS_PipeInv inp cons r pr.1 (pr.2.days.getD []) false hwf (hwf.restrDays pr hpr) st' hp) h

theorem phase3_PipeInv (inp : SchoolData) (cons : Constraints) (r : RandSrc)
    (hwf : WFInput inp cons r) (st : St) (h : PipeInv inp cons st) :
    PipeInv inp cons (scheduleSingleResourceSubjects inp cons r st) := by
  unfold scheduleSingleResourceSubjects
  cases cons.singleResourceSubjects with
  | none => exact h
  | some l =>
    exact foldl_preserve (fun st' T _ hp =>
      SAFS_PipeInv inp cons r T inp.days false hwf (fun d hd => hd) st' hp) h

theorem phase4_PipeInv (inp : SchoolData) (cons : Constraints) (r : RandSrc)
    (hwf : WFInput inp cons r) (st : St) (h : PipeInv inp cons st) :
    PipeInv inp cons (scheduleStrictDoublePeriodSubjects inp cons r st) := by
  unfold scheduleStrictDoublePeriodSubjects
  exact foldl_preserve (fun st' rl _ hp =>
    SAFS_PipeInv inp cons r rl.subject inp.days true hwf (fun d hd => hd) st' hp) h

theorem phase5_PipeInv (inp : SchoolData) (cons : Constraints) (r : RandSrc)
    (hwf : WFInput inp cons r) (st : St) (h : PipeInv inp cons st) :
    PipeInv inp cons (schedulePE inp cons r st) :=
  SAFS_PipeInv inp cons r "P.E." inp.days true hwf (fun d hd => hd) st h

theorem phase6_PipeInv (inp : SchoolData) (cons : Constraints) (r : RandSrc)
    (hwf : WFInput inp cons r) (st : St) (h : PipeInv inp cons st) :
    PipeInv inp cons (scheduleRemainingLessons inp cons r st) := by
  unfold scheduleRemainingLessons
  exact foldl_preserve (fun st' T _ hp =>
    SAFS_PipeInv inp cons r T inp.days false hwf (fun d hd => hd) st' hp) h

theorem generate_PipeInv (inp : SchoolData) (cons : Constraints) (r : RandSrc)
    (hwf : WFInput inp cons r) : PipeInv inp cons (generate inp cons r) := by
  unfold generate
  apply PhasePres_PipeInv (fillEmptySlots_pres inp cons _)
  apply PhasePres_PipeInv (injectBreakAndLunch_pres inp cons _)
  apply phase6_PipeInv inp cons r hwf
  apply phase5_PipeInv inp cons r hwf
  apply phase4_PipeInv inp cons r hwf
  apply phase3_PipeInv inp cons r hwf
  apply phase2_PipeInv inp cons r hwf
  apply PhasePres_PipeInv (scheduleSpecialEvents_pres inp cons _)
  exact ⟨initSt_CB inp, initSt_TInv inp cons, initSt_IctInv inp, initSt_GridOK inp⟩

theorem phase2_keep (inp : SchoolData) (cons : Constraints) (r : RandSrc)
    (hwf : WFInput inp cons r) {c S t : String} {R : Nat}
    (hcm : c ∈ allClasses inp)
    (hT : getTeacherForClassSubject inp c S = some t) (ht : t ≠ "")
    (hR : subjectsLookup inp (getClassDivision c) S = some R) (hR0 : R > 0)
    (st : St) (h : KeepP inp c S R st) :
    KeepP inp c S R (scheduleRestrictedSubjects inp cons r st) := by
  unfold scheduleRestrictedSubjects
  refine foldl_preserve (P := KeepP inp c S R) ?_ h
  intro st' pr hpr hp
  exact scheduleAllForSubject_keep inp cons r pr.1 (pr.2.days.getD []) false hwf
    (hwf.restrDays pr hpr) hcm hT ht hR hR0 st' hp

theorem phase3_keep (inp : SchoolData) (cons : Constraints) (r : RandSrc)
    (hwf : WFInput inp cons r) {c S t : String} {R : Nat}
    (hcm : c ∈ allClasses inp)
    (hT : getTeacherForClassSubject inp c S = some t) (ht : t ≠ "")
    (hR : subjectsLookup inp (getClassDivision c) S = some R) (hR0 : R > 0)
    (st : St) (h : KeepP inp c S R st) :
    KeepP inp c S R (scheduleSingleResourceSubjects inp cons r st) := by
  unfold scheduleSingleResourceSubjects
  cases cons.singleResourceSubjects with
  | none => exact h
  | some l =>
    exact foldl_preserve (P := KeepP inp c S R)
      (fun st' T _ hp =>
        scheduleAllForSubject_keep inp cons r T inp.days false hwf
          (fun d hd => hd) hcm hT ht hR hR0 st' hp) h

theorem phase4_keep (inp : SchoolData) (cons : Constraints) (r : RandSrc)
    (hwf : WFInput inp cons r) {c S t : String} {R : Nat}
    (hcm : c ∈ allClasses inp)
    (hT : getTeacherForClassSubject inp c S = some t) (ht : t ≠ "")
    (hR : subjectsLookup inp (getClassDivision c) S = some R) (hR0 : R > 0)
    (st : St) (h : KeepP inp c S R st) :
    KeepP inp c S R (scheduleStrictDoublePeriodSubjects inp cons r st) := by
  unfold scheduleStrictDoublePeriodSubjects
  refine foldl_preserve (P := KeepP inp c S R) ?_ h
  intro st' rl hrl hp
  exact scheduleAllForSubject_keep inp cons r rl.subject inp.days true hwf
    (fun d hd => hd) hcm hT ht hR hR0 st' hp

theorem phase5_keep (inp : SchoolData) (cons : Constraints) (r : RandSrc)
    (hwf : WFInput inp cons r) {c S t : String} {R : Nat}
    (hcm : c ∈ allClasses inp)
    (hT : getTeacherForClassSubject inp c S = some t) (ht : t ≠ "")
    (hR : subjectsLookup inp (getClassDivision c) S = some R) (hR0 : R > 0)
    (st : St) (h : KeepP inp c S R st) :
    KeepP inp c S R (schedulePE inp cons r st) :=
  scheduleAllForSubject_keep inp cons r "P.E." inp.days true hwf
    (fun d hd => hd) hcm hT ht hR hR0 st h

theorem phase6_keep (inp : SchoolData) (cons : Constraints) (r : RandSrc)
    (hwf : WFInput inp cons r) {c S t : String} {R : Nat}
    (hcm : c ∈ allClasses inp)
    (hT : getTeacherForClassSubject inp c S = some t) (ht : t ≠ "")
    (hR : subjectsLookup inp (getClassDivision c) S = some R) (hR0 : R > 0)
    (st : St) (h : KeepP inp c S R st) :
    KeepP inp c S R (scheduleRemainingLessons inp cons r st) := by
  unfold scheduleRemainingLessons
  exact foldl_preserve (P := KeepP inp c S R)
    (fun st' T _ hp =>
      scheduleAllForSubject_keep inp cons r T inp.days false hwf
        (fun d hd => hd) hcm hT ht hR hR0 st' hp) h

theorem phase2_est (inp : SchoolData) (cons : Constraints) (r : RandSrc)
    (hwf : WFInput inp cons r) {c S t : String} {R : Nat}
    (hcm : c ∈ allClasses inp)
    (hT : getTeacherForClassSubject inp c S = some t) (ht : t ≠ "")
    (hR : subjectsLookup inp (getClassDivision c) S = some R) (hR0 : R > 0)
    (hr2 : S ∈ cons.subjectRestrictions.map (fun pr => pr.1))
    (st : St) (hCB : CB inp st) :
    KeepP inp c S R (scheduleRestrictedSubjects inp cons r st) := by
  obtain ⟨⟨S1, rr⟩, hprm, hpr1⟩ := List.mem_map.mp hr2
  dsimp at hpr1
  subst hpr1
  unfold scheduleRestrictedSubjects
  have h := foldl_est_inv (Q := CB inp) (P := OKpair inp c S1 R) (x := (S1, rr)) hprm
    (fun st' y hy hq =>
      (scheduleAllForSubject_pres inp cons r y.1 (y.2.days.getD []) false hwf
        (hwf.restrDays y hy) st').2.2.1 hq)
    (fun st' y hy hq hp =>
      (scheduleAllForSubject_keep inp cons r y.1 (y.2.days.getD []) false hwf
        (hwf.restrDays y hy) hcm hT ht hR hR0 st' ⟨hq, hp⟩).2)
    (fun st' hq =>
      (scheduleAllForSubject_est inp cons r S1 (rr.days.getD []) false hwf
        (hwf.restrDays (S1, rr) hprm) hcm hT ht hR hR0 st' hq).1)
    hCB
  exact ⟨h.2, h.1⟩

theorem phase3_est (inp : SchoolData) (cons : Constraints) (r : RandSrc)
    (hwf : WFInput inp cons r) {c S t : String} {R : Nat}
    (hcm : c ∈ allClasses inp)
    (hT : getTeacherForClassSubject inp c S = some t) (ht : t ≠ "")
    (hR : subjectsLookup inp (getClassDivision c) S = some R) (hR0 : R > 0)
    (hr3 : S ∈ cons.singleResourceSubjects.getD [])
    (st : St) (hCB : CB inp st) :
    KeepP inp c S R (scheduleSingleResourceSubjects inp cons r st) := by
  unfold scheduleSingleResourceSubjects
  cases hl : cons.singleResourceSubjects with
  | none => rw [hl] at hr3; simp at hr3
  | some l =>
    rw [hl] at hr3
    simp only [Option.getD_some] at hr3
    have h := foldl_est_inv (Q := CB inp) (P := OKpair inp c S R) (x := S) hr3
      (fun st' y _ hq =>
        (scheduleAllForSubject_pres inp cons r y inp.days false hwf
          (fun d hd => hd) st').2.2.1 hq)
      (fun st' y _ hq hp =>
        (scheduleAllForSubject_keep inp cons r y inp.days false hwf
          (fun d hd => hd) hcm hT ht hR hR0 st' ⟨hq, hp⟩).2)
      (fun st' hq =>
        (scheduleAllForSubject_est inp cons r S inp.days false hwf
          (fun d hd => hd) hcm hT ht hR hR0 st' hq).1)
      hCB
    exact ⟨h.2, h.1⟩

theorem phase4_est (inp : SchoolData) (cons : Constraints) (r : RandSrc)
    (hwf : WFInput inp cons r) {c S t : String} {R : Nat}
    (hcm : c ∈ allClasses inp)
    (hT : getTeacherForClassSubject inp c S = some t) (ht : t ≠ "")
    (hR : subjectsLookup inp (getClassDivision c) S = some R) (hR0 : R > 0)
    (hPE : S ≠ "P.E.")
    (hr4 : S ∈ (cons.doublePeriodSubjects.filter
      (fun rl => rl.strict == StrictTag.strue)).map (fun rl => rl.subject))
    (st : St) (hCB : CB inp st) :
    KeepP inp c S R (scheduleStrictDoublePeriodSubjects inp cons r st) := by
  obtain ⟨rl, hrlm, hrl1⟩ := List.mem_map.mp hr4
  have hrl2 := List.mem_filter.mp hrlm
  have hmem2 : rl ∈ cons.doublePeriodSubjects.filter
      (fun rl => rl.strict == StrictTag.strue && rl.subject != "P.E.") := by
    refine List.mem_filter.mpr ⟨hrl2.1, ?_⟩
    simp only [Bool.and_eq_true]
    refine ⟨hrl2.2, ?_⟩
    simp only [bne_iff_ne, ne_eq]
    rw [hrl1]
    exact hPE
  unfold scheduleStrictDoublePeriodSubjects
  have h := foldl_est_inv (Q := CB inp) (P := OKpair inp c S R) (x := rl) hmem2
    (fun st' y _ hq =>
      (scheduleAllForSubject_pres inp cons r y.subject inp.days true hwf
        (fun d hd => hd) st').2.2.1 hq)
    (fun st' y _ hq hp =>
      (scheduleAllForSubject_keep inp cons r y.subject inp.days true hwf
        (fun d hd => hd) hcm hT ht hR hR0 st' ⟨hq, hp⟩).2)
    (fun st' hq => by
      rw [hrl1]
      exact (scheduleAllForSubject_est inp cons r S inp.days true hwf
        (fun d hd => hd) hcm hT ht hR hR0 st' hq).1)
    hCB
  exact ⟨h.2, h.1⟩

theorem phase6_est (inp : SchoolData) (cons : Constraints) (r : RandSrc)
    (hwf : WFInput inp cons r) {c S t : String} {R : Nat}
    (hcm : c ∈ allClasses inp)
    (hT : getTeacherForClassSubject inp c S = some t) (ht : t ≠ "")
    (hR : subjectsLookup inp (getClassDivision c) S = some R) (hR0 : R > 0)
    (hskip : S ∉ skipSubjects cons)
    (st : St) (hCB : CB inp st) :
    KeepP inp c S R (scheduleRemainingLessons inp cons r st) := by
  have hall : S ∈ allSubjectsOf inp := mem_allSubjectsOf hR
  have hrest : S ∈ (allSubjectsOf inp).filter
      (fun S => ¬ (skipSubjects cons).contains S) := by
    refine List.mem_filter.mpr ⟨hall, ?_⟩
    have hc : ¬ (skipSubjects cons).contains S = true :=
      fun hx => hskip (contains_iff_mem.mp hx)
    simpa using hc
  have hord : S ∈ ((allSubjectsOf inp).filter
        (fun S => ¬ (skipSubjects cons).contains S)).filter (hasMixedRule cons) ++
      ((allSubjectsOf inp).filter
        (fun S => ¬ (skipSubjects cons).contains S)).filter
        (fun S => ¬ hasMixedRule cons S) := by
    by_cases hm : hasMixedRule cons S = true
    · exact List.mem_append_left _ (List.mem_filter.mpr ⟨hrest, hm⟩)
    · refine List.mem_append_right _ (List.mem_filter.mpr ⟨hrest, ?_⟩)
      simpa using hm
  have h := foldl_est_inv (Q := CB inp) (P := OKpair inp c S R) (x := S) hord
    (fun st' y _ hq =>
      (scheduleAllForSubject_pres inp cons r y inp.days false hwf
        (fun d hd => hd) st').2.2.1 hq)
    (fun st' y _ hq hp =>
      (scheduleAllForSubject_keep inp cons r y inp.days false hwf
        (fun d hd => hd) hcm hT ht hR hR0 st' ⟨hq, hp⟩).2)
    (fun st' hq =>
      (scheduleAllForSubject_est inp cons r S inp.days false hwf
        (fun d hd => hd) hcm hT ht hR hR0 st' hq).1)
    hCB
  exact ⟨h.2, h.1⟩

/-- The requirement-or-diagnostic condition holds at the end of the whole
pipeline for every pair with an assigned non-empty teacher and a positive
requirement. -/
theorem generate_OKpair (inp : SchoolData) (cons : Constraints) (r : RandSrc)
    (hwf : WFInput inp cons r) {c S t : String} {R : Nat}
    (hcm : c ∈ allClasses inp)
    (hT : getTeacherForClassSubject inp c S = some t) (ht : t ≠ "")
    (hR : subjectsLookup inp (getClassDivision c) S = some R) (hR0 : R > 0) :
    OKpair inp c S R (generate inp cons r) := by
  have p1 : PipeInv inp cons (scheduleSpecialEvents inp (initSt inp)) :=
    PhasePres_PipeInv (scheduleSpecialEvents_pres inp cons (initSt inp))
      ⟨initSt_CB inp, initSt_TInv inp cons, initSt_IctInv inp, initSt_GridOK inp⟩
  have p2 := phase2_PipeInv inp cons r hwf _ p1
  have p3 := phase3_PipeInv inp cons r hwf _ p2
  have p4 := phase4_PipeInv inp cons r hwf _ p3
  have p5 := phase5_PipeInv inp cons r hwf _ p4
  have h6 : KeepP inp c S R (scheduleRemainingLessons inp cons r
      (schedulePE inp cons r (scheduleStrictDoublePeriodSubjects inp cons r
        (scheduleSingleResourceSubjects inp cons r (scheduleRestrictedSubjects inp cons r
          (scheduleSpecialEvents inp (initSt inp))))))) := by
    by_cases hPE : S = "P.E."
    · subst hPE
      have h5 : KeepP inp c "P.E." R (schedulePE inp cons r
          (scheduleStrictDoublePeriodSubjects inp cons r
            (scheduleSingleResourceSubjects inp cons r (scheduleRestrictedSubjects inp cons r
              (scheduleSpecialEvents inp (initSt inp)))))) := by
        have e := scheduleAllForSubject_est inp cons r "P.E." inp.days true hwf
          (fun d hd => hd) hcm hT ht hR hR0 _ p4.1
        exact ⟨e.2, e.1⟩
      exact phase6_keep inp cons r hwf hcm hT ht hR hR0 _ h5
    by_cases hr2 : S ∈ cons.subjectRestrictions.map (fun pr => pr.1)
    · have h2 := phase2_est inp cons r hwf hcm hT ht hR hR0 hr2 _ p1.1
      have h3 := phase3_keep inp cons r hwf hcm hT ht hR hR0 _ h2
      have h4 := phase4_keep inp cons r hwf hcm hT ht hR hR0 _ h3
      have h5 := phase5_keep inp cons r hwf hcm hT ht hR hR0 _ h4
      exact phase6_keep inp cons r hwf hcm hT ht hR hR0 _ h5
    by_cases hr3 : S ∈ cons.singleResourceSubjects.getD []
    · have h3 := phase3_est inp cons r hwf hcm hT ht hR hR0 hr3 _ p2.1
      have h4 := phase4_keep inp cons r hwf hcm hT ht hR hR0 _ h3
      have h5 := phase5_keep inp cons r hwf hcm hT ht hR hR0 _ h4
      exact phase6_keep inp cons r hwf hcm hT ht hR hR0 _ h5
    by_cases hr4 : S ∈ (cons.doublePeriodSubjects.filter
        (fun rl => rl.strict == StrictTag.strue)).map (fun rl => rl.subject)
    · have h4 := phase4_est inp cons r hwf hcm hT ht hR hR0 hPE hr4 _ p3.1
      have h5 := phase5_keep inp cons r hwf hcm hT ht hR hR0 _ h4
      exact phase6_keep inp cons r hwf hcm hT ht hR hR0 _ h5
    · have hskip : S ∉ skipSubjects cons := by
        intro hsk
        unfold skipSubjects at hsk
        rcases List.mem_append.mp hsk with h1 | h1
        · rcases List.mem_append.mp h1 with h2 | h2
          · rcases List.mem_append.mp h2 with h3 | h3
            · exact hr2 h3
            · exact hr3 h3
          · exact hr4 h2
        · exact hPE (List.mem_singleton.mp h1)
      exact phase6_est inp cons r hwf hcm hT ht hR hR0 hskip _ p5.1
  have h7 : KeepP inp c S R (injectBreakAndLunch inp
      (scheduleRemainingLessons inp cons r
        (schedulePE inp cons r (scheduleStrictDoublePeriodSubjects inp cons r
          (scheduleSingleResourceSubjects inp cons r (scheduleRestrictedSubjects inp cons r
            (scheduleSpecialEvents inp (initSt inp)))))))) :=
    ⟨PhasePres_CB (injectBreakAndLunch_pres inp cons _) h6.1,
     PhasePres_OKpair (injectBreakAndLunch_pres inp cons _) h6.2⟩
  have h8 : KeepP inp c S R (fillEmptySlots inp (injectBreakAndLunch inp
      (scheduleRemainingLessons inp cons r
        (schedulePE inp cons r (scheduleStrictDoublePeriodSubjects inp cons r
          (scheduleSingleResourceSubjects inp cons r (scheduleRestrictedSubjects inp cons r
            (scheduleSpecialEvents inp (initSt inp))))))))) :=
    ⟨PhasePres_CB (fillEmptySlots_pres inp cons _) h7.1,
     PhasePres_OKpair (fillEmptySlots_pres inp cons _) h7.2⟩
  exact h8.2

/-! ### Coverage by the gap filler -/

/-- A present cell stays present under any `setCell`, also across rows. -/
theorem cellGet_isSome_setCell {st : St} {c0 d0 : String} {p0 : Nat}
    (c1 d1 : String) (q : Nat) (e : Entry)
    (h : (cellGet (st.grid c0 d0) p0).isSome) :
    (cellGet ((St.setCell st c1 d1 q e).grid c0 d0) p0).isSome := by
  by_cases hcd : c0 = c1 ∧ d0 = d1
  · obtain ⟨rfl, rfl⟩ := hcd
    rw [setCell_grid_self]
    exact cellGet_isSome_cellSet q e h
  · rw [setCell_grid_other st c1 d1 q e hcd]
    exact h

/-- Abstract fold over period ids: a monotone, self-establishing step fills
every listed cell and loses none. -/
theorem foldl_fill_spec {f : St → Nat → St}
    (c d : String)
    (hmono : ∀ st pid, ∀ c0 d0 : String, ∀ p0 : Nat,
      (cellGet (st.grid c0 d0) p0).isSome → (cellGet ((f st pid).grid c0 d0) p0).isSome)
    (hest : ∀ st pid, (cellGet ((f st pid).grid c d) pid).isSome)
    (l : List Nat) (st : St) :
    (∀ c0 d0 : String, ∀ p0 : Nat, (cellGet (st.grid c0 d0) p0).isSome →
      (cellGet (((l.foldl f st)).grid c0 d0) p0).isSome) ∧
    (∀ pid ∈ l, (cellGet ((l.foldl f st).grid c d) pid).isSome) := by
  constructor
  · intro c0 d0 p0 h
    exact foldl_preserve (P := fun s => (cellGet (s.grid c0 d0) p0).isSome)
      (fun st' x _ hp => hmono st' x c0 d0 p0 hp) h
  · intro pid hpid
    exact foldl_establish (P := fun s => (cellGet (s.grid c d) pid).isSome) hpid
      (fun st' y _ hp => hmono st' y c d pid hp)
      (fun st' => hest st' pid) st

theorem fillEmptySlots_eq (inp : SchoolData) (st : St) :
    fillEmptySlots inp st = (allClasses inp).foldl (fillClass inp) st := rfl

theorem fillCell_mono (inp : SchoolData) (c d : String)
    (st : St) (pid : Nat) (c0 d0 : String) (p0 : Nat)
    (h : (cellGet (st.grid c0 d0) p0).isSome) :
    (cellGet ((fillCell inp c d st pid).grid c0 d0) p0).isSome := by
  unfold fillCell
  split
  · split
    · exact cellGet_isSome_setCell c d pid _ h
    · split
      · exact cellGet_isSome_setCell c d pid _ h
      · exact cellGet_isSome_setCell c d pid _ h
  · exact h

theorem fillCell_est (inp : SchoolData) (c d : String) (st : St) (pid : Nat) :
    (cellGet ((fillCell inp c d st pid).grid c d) pid).isSome := by
  unfold fillCell
  by_cases h0 : cellGet (st.grid c d) pid = none
  · rw [if_pos h0]
    split
    · rw [setCell_grid_self, cellGet_cellSet_self]; rfl
    · split
      · rw [setCell_grid_self, cellGet_cellSet_self]; rfl
      · rw [setCell_grid_self, cellGet_cellSet_self]; rfl
  · rw [if_neg h0]
    exact Option.isSome_iff_ne_none.mpr h0

theorem fillRow_spec (inp : SchoolData) (c d : String) (st : St) :
    (∀ c0 d0 : String, ∀ p0 : Nat, (cellGet (st.grid c0 d0) p0).isSome →
      (cellGet ((fillRow inp c st d).grid c0 d0) p0).isSome) ∧
    (∀ pid ∈ inp.periods.map (fun p => p.id),
      (cellGet ((fillRow inp c st d).grid c d) pid).isSome) := by
  unfold fillRow
  exact foldl_fill_spec c d (fun st2 pid2 c0 d0 p0 => fillCell_mono inp c d st2 pid2 c0 d0 p0)
    (fun st2 pid2 => fillCell_est inp c d st2 pid2) (inp.periods.map (fun p => p.id)) st

theorem fillClass_spec (inp : SchoolData) (c : String) (st : St) :
    (∀ c0 d0 : String, ∀ p0 : Nat, (cellGet (st.grid c0 d0) p0).isSome →
      (cellGet ((fillClass inp st c).grid c0 d0) p0).isSome) ∧
    (∀ d ∈ inp.days, ∀ pid ∈ inp.periods.map (fun p => p.id),
      (cellGet ((fillClass inp st c).grid c d) pid).isSome) := by
  constructor
  · intro c0 d0 p0 h
    exact foldl_preserve (P := fun s => (cellGet (s.grid c0 d0) p0).isSome)
      (fun st2 d2 _ hp => (fillRow_spec inp c d2 st2).1 c0 d0 p0 hp) h
  · intro d hd pid hpid
    refine foldl_establish (P := fun s => (cellGet (s.grid c d) pid).isSome) hd ?_ ?_ st
    · intro st2 d2 _ hp
      exact (fillRow_spec inp c d2 st2).1 c d pid hp
    · intro st2
      exact (fillRow_spec inp c d st2).2 pid hpid

/-- `_fillEmptySlots` leaves every cell of the global period table present,
for every class and day of the input. -/
theorem fillEmptySlots_covers (inp : SchoolData) (st : St)
    {c d : String} {pid : Nat} (hc : c ∈ allClasses inp) (hd : d ∈ inp.days)
    (hp : pid ∈ inp.periods.map (fun p => p.id)) :
    (cellGet ((fillEmptySlots inp st).grid c d) pid).isSome := by
  rw [fillEmptySlots_eq]
  refine foldl_establish (P := fun s => (cellGet (s.grid c d) pid).isSome) hc ?_ ?_ st
  · intro st2 c2 _ hp2
    exact (fillClass_spec inp c2 st2).1 c d pid hp2
  · intro st2
    exact (fillClass_spec inp c st2).2 d hd pid hp

/-! ### Bounding the number of placement searches (termination budget) -/

/-- Every `_scheduleLessonBlock` call bumps the ghost counter by exactly
one, with no well-formedness assumptions. -/
theorem slb_calls (inp : SchoolData) (cons : Constraints) (r : RandSrc)
    (c S t : String) (ds : List String) (np : Nat) (st : St) :
    (scheduleLessonBlock inp cons r c S t ds np st).2.calls = st.calls + 1 := by
  unfold scheduleLessonBlock
  exact (blockGo_master inp cons r c S t (getAvailableLessonSlots inp c) np (r.days ds)
    { st with calls := st.calls + 1 }).1

theorem loopDoublesOnly_calls (inp : SchoolData) (cons : Constraints) (r : RandSrc)
    (c S t : String) (ds : List String) (n : Nat) (st : St) :
    (loopDoublesOnly inp cons r c S t ds n st).2.calls ≤ st.calls + n + 1 := by
  induction n using Nat.strong_induction_on generalizing st with
  | _ n ih =>
    match n with
    | 0 => simp [loopDoublesOnly]
    | 1 =>
      simp [loopDoublesOnly]
      omega
    | n + 2 =>
      rw [loopDoublesOnly]
      cases hok : (scheduleLessonBlock inp cons r c S t ds 2 st).1 with
      | true =>
        simp only [hok, if_true]
        calc (loopDoublesOnly inp cons r c S t ds n
              (scheduleLessonBlock inp cons r c S t ds 2 st).2).2.calls
            ≤ (scheduleLessonBlock inp cons r c S t ds 2 st).2.calls + n + 1 :=
              ih n (by omega) _
          _ = st.calls + 1 + n + 1 := by rw [slb_calls]
          _ ≤ st.calls + (n + 2) + 1 := by omega
      | false =>
        simp only [hok, Bool.false_eq_true, if_false, pushDiag_calls]
        rw [slb_calls]
        omega

theorem loopDoubles_calls (inp : SchoolData) (cons : Constraints) (r : RandSrc)
    (c S t : String) (ds : List String) (n : Nat) (st : St) :
    (loopDoubles inp cons r c S t ds n st).2.calls ≤ st.calls + n + 1 := by
  induction n using Nat.strong_induction_on generalizing st with
  | _ n ih =>
    match n with
    | 0 => simp [loopDoubles]
    | 1 =>
      simp [loopDoubles]
      omega
    | n + 2 =>
      rw [loopDoubles]
      cases hok : (scheduleLessonBlock inp cons r c S t ds 2 st).1 with
      | true =>
        simp only [hok, if_true]
        calc (loopDoubles inp cons r c S t ds n
              (scheduleLessonBlock inp cons r c S t ds 2 st).2).2.calls
            ≤ (scheduleLessonBlock inp cons r c S t ds 2 st).2.calls + n + 1 :=
              ih n (by omega) _
          _ = st.calls + 1 + n + 1 := by rw [slb_calls]
          _ ≤ st.calls + (n + 2) + 1 := by omega
      | false =>
        simp only [hok, Bool.false_eq_true, if_false]
        rw [slb_calls]
        omega

theorem loopSinglesPush_calls (inp : SchoolData) (cons : Constraints) (r : RandSrc)
    (c S t : String) (ds : List String) (n : Nat) (st : St) :
    (loopSinglesPush inp cons r c S t ds n st).2.calls ≤ st.calls + n := by
  induction n generalizing st with
  | zero => simp [loopSinglesPush]
  | succ n ih =>
    rw [loopSinglesPush]
    cases hok : (scheduleLessonBlock inp cons r c S t ds 1 st).1 with
    | true =>
      simp only [hok, if_true]
      calc (loopSinglesPush inp cons r c S t ds n
            (scheduleLessonBlock inp cons r c S t ds 1 st).2).2.calls
          ≤ (scheduleLessonBlock inp cons r c S t ds 1 st).2.calls + n := ih _
        _ = st.calls + 1 + n := by rw [slb_calls]
        _ ≤ st.calls + (n + 1) := by omega
    | false =>
      simp only [hok, Bool.false_eq_true, if_false, pushDiag_calls]
      rw [slb_calls]
      omega

theorem loopSinglesSilent_calls (inp : SchoolData) (cons : Constraints) (r : RandSrc)
    (c S t : String) (ds : List String) (n : Nat) (st : St) :
    (loopSinglesSilent inp cons r c S t ds n st).2.calls ≤ st.calls + n := by
  induction n generalizing st with
  | zero => simp [loopSinglesSilent]
  | succ n ih =>
    rw [loopSinglesSilent]
    cases hok : (scheduleLessonBlock inp cons r c S t ds 1 st).1 with
    | true =>
      simp only [hok, if_true]
      calc (loopSinglesSilent inp cons r c S t ds n
            (scheduleLessonBlock inp cons r c S t ds 1 st).2).2.calls
          ≤ (scheduleLessonBlock inp cons r c S t ds 1 st).2.calls + n := ih _
        _ = st.calls + 1 + n := by rw [slb_calls]
        _ ≤ st.calls + (n + 1) := by omega
    | false =>
      simp only [hok, Bool.false_eq_true, if_false]
      rw [slb_calls]
      omega

theorem loopMixedDoubles_calls (inp : SchoolData) (cons : Constraints) (r : RandSrc)
    (c S t : String) (ds : List String) (dRem n : Nat) (st : St) :
    (loopMixedDoubles inp cons r c S t ds dRem n st).2.calls ≤ st.calls + dRem := by
  induction dRem generalizing n st with
  | zero => simp [loopMixedDoubles]
  | succ dRem ih =>
    rw [loopMixedDoubles]
    by_cases hge : n ≥ 2
    · rw [if_pos hge]
      cases hok : (scheduleLessonBlock inp cons r c S t ds 2 st).1 with
      | true =>
        simp only [hok, if_true]
        calc (loopMixedDoubles inp cons r c S t ds dRem (n - 2)
              (scheduleLessonBlock inp cons r c S t ds 2 st).2).2.calls
            ≤ (scheduleLessonBlock inp cons r c S t ds 2 st).2.calls + dRem := ih _ _
          _ = st.calls + 1 + dRem := by rw [slb_calls]
          _ ≤ st.calls + (dRem + 1) := by omega
      | false =>
        simp only [hok, Bool.false_eq_true, if_false]
        rw [slb_calls]
        omega
    · rw [if_neg hge]
      simp

theorem loopMixedSingles_calls (inp : SchoolData) (cons : Constraints) (r : RandSrc)
    (c S t : String) (ds : List String) (sRem n : Nat) (st : St) :
    (loopMixedSingles inp cons r c S t ds sRem n st).2.calls ≤ st.calls + sRem := by
  induction sRem generalizing n st with
  | zero => simp [loopMixedSingles]
  | succ sRem ih =>
    rw [loopMixedSingles]
    by_cases hge : n ≥ 1
    · rw [if_pos hge]
      cases hok : (scheduleLessonBlock inp cons r c S t ds 1 st).1 with
      | true =>
        simp only [hok, if_true]
        calc (loopMixedSingles inp cons r c S t ds sRem (n - 1)
              (scheduleLessonBlock inp cons r c S t ds 1 st).2).2.calls
            ≤ (scheduleLessonBlock inp cons r c S t ds 1 st).2.calls + sRem := ih _ _
          _ = st.calls + 1 + sRem := by rw [slb_calls]
          _ ≤ st.calls + (sRem + 1) := by omega
      | false =>
        simp only [hok, Bool.false_eq_true, if_false]
        rw [slb_calls]
        omega
    · rw [if_neg hge]
      simp

theorem loopMixed3_calls (inp : SchoolData) (cons : Constraints) (r : RandSrc)
    (c S t : String) (ds : List String) (f n : Nat) (st : St) :
    (loopMixed3 inp cons r c S t ds f n st).2.calls ≤ st.calls + 2 * f := by
  induction f generalizing n st with
  | zero => simp [loopMixed3]
  | succ f ih =>
    rw [loopMixed3]
    by_cases hge : n ≥ 2
    · rw [if_pos hge]
      cases hok : (scheduleLessonBlock inp cons r c S t ds 2 st).1 with
      | true =>
        simp only [hok, if_true]
        calc (loopMixed3 inp cons r c S t ds f (n - 2)
              (scheduleLessonBlock inp cons r c S t ds 2 st).2).2.calls
            ≤ (scheduleLessonBlock inp cons r c S t ds 2 st).2.calls + 2 * f := ih _ _
          _ = st.calls + 1 + 2 * f := by rw [slb_calls]
          _ ≤ st.calls + 2 * (f + 1) := by omega
      | false =>
        simp only [hok, Bool.false_eq_true, if_false]
        cases hok2 : (scheduleLessonBlock inp cons r c S t ds 1
            (scheduleLessonBlock inp cons r c S t ds 2 st).2).1 with
        | true =>
          simp only [hok2, if_true]
          calc (loopMixed3 inp cons r c S t ds f (n - 1)
                (scheduleLessonBlock inp cons r c S t ds 1
                  (scheduleLessonBlock inp cons r c S t ds 2 st).2).2).2.calls
              ≤ (scheduleLessonBlock inp cons r c S t ds 1
                  (scheduleLessonBlock inp cons r c S t ds 2 st).2).2.calls + 2 * f := ih _ _
            _ = st.calls + 1 + 1 + 2 * f := by rw [slb_calls, slb_calls]
            _ ≤ st.calls + 2 * (f + 1) := by omega
        | false =>
          simp only [hok2, Bool.false_eq_true, if_false]
          rw [slb_calls, slb_calls]
          omega
    · rw [if_neg hge]
      simp

theorem loopDoubles_n_le (inp : SchoolData) (cons : Constraints) (r : RandSrc)
    (c S t : String) (ds : List String) (n : Nat) (st : St) :
    (loopDoubles inp cons r c S t ds n st).1 ≤ n := by
  induction n using Nat.strong_induction_on generalizing st with
  | _ n ih =>
    match n with
    | 0 => simp [loopDoubles]
    | 1 => simp [loopDoubles]
    | n + 2 =>
      rw [loopDoubles]
      cases hok : (scheduleLessonBlock inp cons r c S t ds 2 st).1 with
      | true =>
        simp only [hok, if_true]
        calc (loopDoubles inp cons r c S t ds n
              (scheduleLessonBlock inp cons r c S t ds 2 st).2).1 ≤ n := ih n (by omega) _
          _ ≤ n + 2 := by omega
      | false =>
        simp only [hok, Bool.false_eq_true, if_false]
        omega

theorem loopMixedDoubles_n_le (inp : SchoolData) (cons : Constraints) (r : RandSrc)
    (c S t : String) (ds : List String) (dRem n : Nat) (st : St) :
    (loopMixedDoubles inp cons r c S t ds dRem n st).1 ≤ n := by
  induction dRem generalizing n st with
  | zero => simp [loopMixedDoubles]
  | succ dRem ih =>
    rw [loopMixedDoubles]
    by_cases hge : n ≥ 2
    · rw [if_pos hge]
      cases hok : (scheduleLessonBlock inp cons r c S t ds 2 st).1 with
      | true =>
        simp only [hok, if_true]
        calc (loopMixedDoubles inp cons r c S t ds dRem (n - 2)
              (scheduleLessonBlock inp cons r c S t ds 2 st).2).1 ≤ n - 2 := ih _ _
          _ ≤ n := by omega
      | false =>
        simp only [hok, Bool.false_eq_true, if_false]
        omega
    · rw [if_neg hge]

theorem loopMixedSingles_n_le (inp : SchoolData) (cons : Constraints) (r : RandSrc)
    (c S t : String) (ds : List String) (sRem n : Nat) (st : St) :
    (loopMixedSingles inp cons r c S t ds sRem n st).1 ≤ n := by
  induction sRem generalizing n st with
  | zero => simp [loopMixedSingles]
  | succ sRem ih =>
    rw [loopMixedSingles]
    by_cases hge : n ≥ 1
    · rw [if_pos hge]
      cases hok : (scheduleLessonBlock inp cons r c S t ds 1 st).1 with
      | true =>
        simp only [hok, if_true]
        calc (loopMixedSingles inp cons r c S t ds sRem (n - 1)
              (scheduleLessonBlock inp cons r c S t ds 1 st).2).1 ≤ n - 1 := ih _ _
          _ ≤ n := by omega
      | false =>
        simp only [hok, Bool.false_eq_true, if_false]
        omega
    · rw [if_neg hge]

theorem loopMixed3_n_le (inp : SchoolData) (cons : Constraints) (r : RandSrc)
    (c S t : String) (ds : List String) (f n : Nat) (st : St) :
    (loopMixed3 inp cons r c S t ds f n st).1 ≤ n := by
  induction f generalizing n st with
  | zero => simp [loopMixed3]
  | succ f ih =>
    rw [loopMixed3]
    by_cases hge : n ≥ 2
    · rw [if_pos hge]
      cases hok : (scheduleLessonBlock inp cons r c S t ds 2 st).1 with
      | true =>
        simp only [hok, if_true]
        calc (loopMixed3 inp cons r c S t ds f (n - 2)
              (scheduleLessonBlock inp cons r c S t ds 2 st).2).1 ≤ n - 2 := ih _ _
          _ ≤ n := by omega
      | false =>
        simp only [hok, Bool.false_eq_true, if_false]
        cases hok2 : (scheduleLessonBlock inp cons r c S t ds 1
            (scheduleLessonBlock inp cons r c S t ds 2 st).2).1 with
        | true =>
          simp only [hok2, if_true]
          calc (loopMixed3 inp cons r c S t ds f (n - 1)
                (scheduleLessonBlock inp cons r c S t ds 1
                  (scheduleLessonBlock inp cons r c S t ds 2 st).2).2).1 ≤ n - 1 := ih _ _
            _ ≤ n := by omega
        | false =>
          simp only [hok2, Bool.false_eq_true, if_false]
          omega
    · rw [if_neg hge]

theorem schedDefault_calls (inp : SchoolData) (cons : Constraints) (r : RandSrc)
    (c S t : String) (ds : List String) (n : Nat) (st : St) :
    (schedDefault inp cons r c S t ds n st).calls ≤ st.calls + 2 * n + 1 := by
  unfold schedDefault
  cases heq : loopDoubles inp cons r c S t ds n st with
  | mk n1 st1 =>
    (try dsimp only)
    have h1 : st1.calls ≤ st.calls + n + 1 := by
      have h := loopDoubles_calls inp cons r c S t ds n st
      rw [heq] at h
      exact h
    have hn1 : n1 ≤ n := by
      have h := loopDoubles_n_le inp cons r c S t ds n st
      rw [heq] at h
      exact h
    have h2 := loopSinglesPush_calls inp cons r c S t ds n1 st1
    omega

/-- Per-(class, subject) budget: one `_scheduleAllForSubject` body performs
at most `mixedBudget + 3 * needed + 1` placement searches. -/
theorem schedClassCore_calls (inp : SchoolData) (cons : Constraints) (r : RandSrc)
    (S : String) (ds : List String) (dblOnly : Bool) (c t : String) (R : Nat) (st : St) :
    (schedClassCore inp cons r S ds dblOnly c t R st).calls ≤
      st.calls + mixedBudget cons S (getClassDivision c) +
        3 * (R - getScheduledPeriods inp st c S) + 1 := by
  unfold schedClassCore
  cases dblOnly with
  | true =>
    simp only [if_true]
    cases heq : loopDoublesOnly inp cons r c S t ds (R - getScheduledPeriods inp st c S) st with
    | mk nRem st1 =>
      (try dsimp only)
      have h0 : st1.calls ≤ st.calls + (R - getScheduledPeriods inp st c S) + 1 := by
        have h := loopDoublesOnly_calls inp cons r c S t ds
          (R - getScheduledPeriods inp st c S) st
        rw [heq] at h
        exact h
      by_cases hpos : nRem > 0
      · rw [if_pos hpos, pushDiag_calls]
        omega
      · rw [if_neg hpos]
        omega
  | false =>
    simp only [Bool.false_eq_true, if_false]
    cases hrl : findDPRule cons S (getClassDivision c) with
    | none =>
      (try dsimp only)
      have hmb : mixedBudget cons S (getClassDivision c) = 0 := by
        unfold mixedBudget
        rw [hrl]
      have h := schedDefault_calls inp cons r c S t ds
        (R - getScheduledPeriods inp st c S) st
      omega
    | some rl =>
      (try dsimp only)
      by_cases hmx : rl.strict = StrictTag.smixed
      · rw [if_pos hmx]
        cases hms : rl.struct with
        | none =>
          (try dsimp only)
          have hmb : mixedBudget cons S (getClassDivision c) = 0 := by
            unfold mixedBudget
            rw [hrl]
            (try dsimp only)
            rw [if_pos hmx, hms]
          have h := schedDefault_calls inp cons r c S t ds
            (R - getScheduledPeriods inp st c S) st
          omega
        | some ms =>
          (try dsimp only)
          have hmb : mixedBudget cons S (getClassDivision c) = ms.doubles + ms.singles := by
            unfold mixedBudget
            rw [hrl]
            (try dsimp only)
            rw [if_pos hmx, hms]
          cases heq1 : loopMixedDoubles inp cons r c S t ds ms.doubles
            (R - getScheduledPeriods inp st c S) st with
          | mk n1 st1 =>
            (try dsimp only)
            cases heq2 : loopMixedSingles inp cons r c S t ds ms.singles n1 st1 with
            | mk n2 st2 =>
              (try dsimp only)
              cases heq3 : loopMixed3 inp cons r c S t ds n2 n2 st2 with
              | mk n3 st3 =>
                (try dsimp only)
                cases heq4 : loopSinglesSilent inp cons r c S t ds n3 st3 with
                | mk n4 st4 =>
                  (try dsimp only)
                  have h1c : st1.calls ≤ st.calls + ms.doubles := by
                    have h := loopMixedDoubles_calls inp cons r c S t ds ms.doubles
                      (R - getScheduledPeriods inp st c S) st
                    rw [heq1] at h
                    exact h
                  have hn1 : n1 ≤ R - getScheduledPeriods inp st c S := by
                    have h := loopMixedDoubles_n_le inp cons r c S t ds ms.doubles
                      (R - getScheduledPeriods inp st c S) st
                    rw [heq1] at h
                    exact h
                  have h2c : st2.calls ≤ st1.calls + ms.singles := by
                    have h := loopMixedSingles_calls inp cons r c S t ds ms.singles n1 st1
                    rw [heq2] at h
                    exact h
                  have hn2 : n2 ≤ n1 := by
                    have h := loopMixedSingles_n_le inp cons r c S t ds ms.singles n1 st1
                    rw [heq2] at h
                    exact h
                  have h3c : st3.calls ≤ st2.calls + 2 * n2 := by
                    have h := loopMixed3_calls inp cons r c S t ds n2 n2 st2
                    rw [heq3] at h
                    exact h
                  have hn3 : n3 ≤ n2 := by
                    have h := loopMixed3_n_le inp cons r c S t ds n2 n2 st2
                    rw [heq3] at h
                    exact h
                  have h4c : st4.calls ≤ st3.calls + n3 := by
                    have h := loopSinglesSilent_calls inp cons r c S t ds n3 st3
                    rw [heq4] at h
                    exact h
                  by_cases hpos : n4 > 0
                  · rw [if_pos hpos, pushDiag_calls]
                    omega
                  · rw [if_neg hpos]
                    omega
      · rw [if_neg hmx]
        have hmb : mixedBudget cons S (getClassDivision c) = 0 := by
          unfold mixedBudget
          rw [hrl]
          (try dsimp only)
          rw [if_neg hmx]
        have h := schedDefault_calls inp cons r c S t ds
          (R - getScheduledPeriods inp st c S) st
        omega

/-! ### What a scheduling pass does to other classes (for the unknown
division) -/

theorem slb_gridOther (inp : SchoolData) (cons : Constraints) (r : RandSrc)
    (c S t : String) (ds : List String) (np : Nat) (st : St)
    {c0 : String} (hne : c0 ≠ c) :
    (scheduleLessonBlock inp cons r c S t ds np st).2.grid c0 = st.grid c0 := by
  unfold scheduleLessonBlock
  exact (blockGo_master inp cons r c S t (getAvailableLessonSlots inp c) np (r.days ds)
    { st with calls := st.calls + 1 }).2.2.2.1 c0 hne

theorem slb_diags_eq (inp : SchoolData) (cons : Constraints) (r : RandSrc)
    (c S t : String) (ds : List String) (np : Nat) (st : St) :
    (scheduleLessonBlock inp cons r c S t ds np st).2.diags = st.diags := by
  unfold scheduleLessonBlock
  exact (blockGo_master inp cons r c S t (getAvailableLessonSlots inp c) np (r.days ds)
    { st with calls := st.calls + 1 }).2.1

theorem Quiet_refl (c c0 : String) (st : St) : Quiet c c0 st st :=
  ⟨rfl, fun _ h => Or.inl h⟩

theorem Quiet_trans {c c0 : String} {st0 st1 st2 : St}
    (h1 : Quiet c c0 st0 st1) (h2 : Quiet c c0 st1 st2) : Quiet c c0 st0 st2 :=
  ⟨h2.1.trans h1.1, fun dg h => (h2.2 dg h).elim (fun hx => h1.2 dg hx) Or.inr⟩

theorem Quiet_slb (inp : SchoolData) (cons : Constraints) (r : RandSrc)
    (c S t : String) (ds : List String) (np : Nat) (st : St)
    {c0 : String} (hne : c0 ≠ c) :
    Quiet c c0 st (scheduleLessonBlock inp cons r c S t ds np st).2 :=
  ⟨slb_gridOther inp cons r c S t ds np st hne,
   fun dg h => Or.inl ((slb_diags_eq inp cons r c S t ds np st) ▸ h)⟩

theorem Quiet_pushDiag {c c0 : String} {st : St} (S : String) (n : Nat) (reason : String) :
    Quiet c c0 st (st.pushDiag ⟨c, S, n, reason⟩) := by
  refine ⟨rfl, fun dg h => ?_⟩
  rw [pushDiag_diags] at h
  rcases List.mem_append.mp h with h | h
  · exact Or.inl h
  · right
    rw [List.mem_singleton.mp h]

theorem loopDoublesOnly_quiet (inp : SchoolData) (cons : Constraints) (r : RandSrc)
    (c S t : String) (ds : List String) (n : Nat) (st : St)
    {c0 : String} (hne : c0 ≠ c) :
    Quiet c c0 st (loopDoublesOnly inp cons r c S t ds n st).2 := by
  induction n using Nat.strong_induction_on generalizing st with
  | _ n ih =>
    match n with
    | 0 => exact Quiet_refl c c0 st
    | 1 => exact Quiet_refl c c0 st
    | n + 2 =>
      rw [loopDoublesOnly]
      cases hok : (scheduleLessonBlock inp cons r c S t ds 2 st).1 with
      | true =>
        simp only [hok, if_true]
        exact Quiet_trans (Quiet_slb inp cons r c S t ds 2 st hne) (ih n (by omega) _)
      | false =>
        simp only [hok, Bool.false_eq_true, if_false]
        exact Quiet_trans (Quiet_slb inp cons r c S t ds 2 st hne)
          (Quiet_pushDiag S (n + 2) "Failed to schedule mandatory double period")

theorem loopDoubles_quiet (inp : SchoolData) (cons : Constraints) (r : RandSrc)
    (c S t : String) (ds : List String) (n : Nat) (st : St)
    {c0 : String} (hne : c0 ≠ c) :
    Quiet c c0 st (loopDoubles inp cons r c S t ds n st).2 := by
  induction n using Nat.strong_induction_on generalizing st with
  | _ n ih =>
    match n with
    | 0 => exact Quiet_refl c c0 st
    | 1 => exact Quiet_refl c c0 st
    | n + 2 =>
      rw [loopDoubles]
      cases hok : (scheduleLessonBlock inp cons r c S t ds 2 st).1 with
      | true =>
        simp only [hok, if_true]
        exact Quiet_trans (Quiet_slb inp cons r c S t ds 2 st hne) (ih n (by omega) _)
      | false =>
        simp only [hok, Bool.false_eq_true, if_false]
        exact Quiet_slb inp cons r c S t ds 2 st hne

theorem loopSinglesPush_quiet (inp : SchoolData) (cons : Constraints) (r : RandSrc)
    (c S t : String) (ds : List String) (n : Nat) (st : St)
    {c0 : String} (hne : c0 ≠ c) :
    Quiet c c0 st (loopSinglesPush inp cons r c S t ds n st).2 := by
  induction n generalizing st with
  | zero => exact Quiet_refl c c0 st
  | succ n ih =>
    rw [loopSinglesPush]
    cases hok : (scheduleLessonBlock inp cons r c S t ds 1 st).1 with
    | true =>
      simp only [hok, if_true]
      exact Quiet_trans (Quiet_slb inp cons r c S t ds 1 st hne) (ih _)
    | false =>
      simp only [hok, Bool.false_eq_true, if_false]
      exact Quiet_trans (Quiet_slb inp cons r c S t ds 1 st hne)
        (Quiet_pushDiag S (n + 1) "Failed to schedule remaining single periods")

theorem loopSinglesSilent_quiet (inp : SchoolData) (cons : Constraints) (r : RandSrc)
    (c S t : String) (ds : List String) (n : Nat) (st : St)
    {c0 : String} (hne : c0 ≠ c) :
    Quiet c c0 st (loopSinglesSilent inp cons r c S t ds n st).2 := by
  induction n generalizing st with
  | zero => exact Quiet_refl c c0 st
  | succ n ih =>
    rw [loopSinglesSilent]
    cases hok : (scheduleLessonBlock inp cons r c S t ds 1 st).1 with
    | true =>
      simp only [hok, if_true]
      exact Quiet_trans (Quiet_slb inp cons r c S t ds 1 st hne) (ih _)
    | false =>
      simp only [hok, Bool.false_eq_true, if_false]
      exact Quiet_slb inp cons r c S t ds 1 st hne

theorem loopMixedDoubles_quiet (inp : SchoolData) (cons : Constraints) (r : RandSrc)
    (c S t : String) (ds : List String) (dRem n : Nat) (st : St)
    {c0 : String} (hne : c0 ≠ c) :
    Quiet c c0 st (loopMixedDoubles inp cons r c S t ds dRem n st).2 := by
  induction dRem generalizing n st with
  | zero => exact Quiet_refl c c0 st
  | succ dRem ih =>
    rw [loopMixedDoubles]
    by_cases hge : n ≥ 2
    · rw [if_pos hge]
      cases hok : (scheduleLessonBlock inp cons r c S t ds 2 st).1 with
      | true =>
        simp only [hok, if_true]
        exact Quiet_trans (Quiet_slb inp cons r c S t ds 2 st hne) (ih _ _)
      | false =>
        simp only [hok, Bool.false_eq_true, if_false]
        exact Quiet_slb inp cons r c S t ds 2 st hne
    · rw [if_neg hge]
      exact Quiet_refl c c0 st

theorem loopMixedSingles_quiet (inp : SchoolData) (cons : Constraints) (r : RandSrc)
    (c S t : String) (ds : List String) (sRem n : Nat) (st : St)
    {c0 : String} (hne : c0 ≠ c) :
    Quiet c c0 st (loopMixedSingles inp cons r c S t ds sRem n st).2 := by
  induction sRem generalizing n st with
  | zero => exact Quiet_refl c c0 st
  | succ sRem ih =>
    rw [loopMixedSingles]
    by_cases hge : n ≥ 1
    · rw [if_pos hge]
      cases hok : (scheduleLessonBlock inp cons r c S t ds 1 st).1 with
      | true =>
        simp only [hok, if_true]
        exact Quiet_trans (Quiet_slb inp cons r c S t ds 1 st hne) (ih _ _)
      | false =>
        simp only [hok, Bool.false_eq_true, if_false]
        exact Quiet_slb inp cons r c S t ds 1 st hne
    · rw [if_neg hge]
      exact Quiet_refl c c0 st

theorem loopMixed3_quiet (inp : SchoolData) (cons : Constraints) (r : RandSrc)
    (c S t : String) (ds : List String) (f n : Nat) (st : St)
    {c0 : String} (hne : c0 ≠ c) :
    Quiet c c0 st (loopMixed3 inp cons r c S t ds f n st).2 := by
  induction f generalizing n st with
  | zero => exact Quiet_refl c c0 st
  | succ f ih =>
    rw [loopMixed3]
    by_cases hge : n ≥ 2
    · rw [if_pos hge]
      cases hok : (scheduleLessonBlock inp cons r c S t ds 2 st).1 with
      | true =>
        simp only [hok, if_true]
        exact Quiet_trans (Quiet_slb inp cons r c S t ds 2 st hne) (ih _ _)
      | false =>
        simp only [hok, Bool.false_eq_true, if_false]
        cases hok2 : (scheduleLessonBlock inp cons r c S t ds 1
            (scheduleLessonBlock inp cons r c S t ds 2 st).2).1 with
        | true =>
          simp only [hok2, if_true]
          exact Quiet_trans (Quiet_slb inp cons r c S t ds 2 st hne)
            (Quiet_trans (Quiet_slb inp cons r c S t ds 1 _ hne) (ih _ _))
        | false =>
          simp only [hok2, Bool.false_eq_true, if_false]
          exact Quiet_trans (Quiet_slb inp cons r c S t ds 2 st hne)
            (Quiet_slb inp cons r c S t ds 1 _ hne)
    · rw [if_neg hge]
      exact Quiet_refl c c0 st

theorem schedDefault_quiet (inp : SchoolData) (cons : Constraints) (r : RandSrc)
    (c S t : String) (ds : List String) (n : Nat) (st : St)
    {c0 : String} (hne : c0 ≠ c) :
    Quiet c c0 st (schedDefault inp cons r c S t ds n st) := by
  unfold schedDefault
  cases heq : loopDoubles inp cons r c S t ds n st with
  | mk n1 st1 =>
    (try dsimp only)
    have h1 := loopDoubles_quiet inp cons r c S t ds n st hne
    rw [heq] at h1
    exact Quiet_trans h1 (loopSinglesPush_quiet inp cons r c S t ds n1 st1 hne)

theorem schedClassCore_quiet (inp : SchoolData) (cons : Constraints) (r : RandSrc)
    (S : String) (ds : List String) (dblOnly : Bool) (c t : String) (R : Nat) (st : St)
    {c0 : String} (hne : c0 ≠ c) :
    Quiet c c0 st (schedClassCore inp cons r S ds dblOnly c t R st) := by
  unfold schedClassCore
  cases dblOnly with
  | true =>
    simp only [if_true]
    cases heq : loopDoublesOnly inp cons r c S t ds (R - getScheduledPeriods inp st c S) st with
    | mk nRem st1 =>
      (try dsimp only)
      have h0 := loopDoublesOnly_quiet inp cons r c S t ds
        (R - getScheduledPeriods inp st c S) st hne
      rw [heq] at h0
      by_cases hpos : nRem > 0
      · rw [if_pos hpos]
        exact Quiet_trans h0 (Quiet_pushDiag S nRem
          "Remaining periods could not be scheduled as doubles")
      · rw [if_neg hpos]
        exact h0
  | false =>
    simp only [Bool.false_eq_true, if_false]
    cases hrl : findDPRule cons S (getClassDivision c) with
    | none =>
      (try dsimp only)
      exact schedDefault_quiet inp cons r c S t ds _ st hne
    | some rl =>
      (try dsimp only)
      by_cases hmx : rl.strict = StrictTag.smixed
      · rw [if_pos hmx]
        cases hms : rl.struct with
        | none =>
          (try dsimp only)
          exact schedDefault_quiet inp cons r c S t ds _ st hne
        | some ms =>
          (try dsimp only)
          cases heq1 : loopMixedDoubles inp cons r c S t ds ms.doubles
            (R - getScheduledPeriods inp st c S) st with
          | mk n1 st1 =>
            (try dsimp only)
            cases heq2 : loopMixedSingles inp cons r c S t ds ms.singles n1 st1 with
            | mk n2 st2 =>
              (try dsimp only)
              cases heq3 : loopMixed3 inp cons r c S t ds n2 n2 st2 with
              | mk n3 st3 =>
                (try dsimp only)
                cases heq4 : loopSinglesSilent inp cons r c S t ds n3 st3 with
                | mk n4 st4 =>
                  (try dsimp only)
                  have h1 := loopMixedDoubles_quiet inp cons r c S t ds ms.doubles
                    (R - getScheduledPeriods inp st c S) st hne
                  rw [heq1] at h1
                  have h2 := loopMixedSingles_quiet inp cons r c S t ds ms.singles n1 st1 hne
                  rw [heq2] at h2
                  have h3 := loopMixed3_quiet inp cons r c S t ds n2 n2 st2 hne
                  rw [heq3] at h3
                  have h4 := loopSinglesSilent_quiet inp cons r c S t ds n3 st3 hne
                  rw [heq4] at h4
                  have hall := Quiet_trans h1 (Quiet_trans h2 (Quiet_trans h3 h4))
                  by_cases hpos : n4 > 0
                  · rw [if_pos hpos]
                    exact Quiet_trans hall (Quiet_pushDiag S n4
                      "Failed to schedule some periods using mixed structure")
                  · rw [if_neg hpos]
                    exact hall
      · rw [if_neg hmx]
        exact schedDefault_quiet inp cons r c S t ds _ st hne

/-- A class of the unknown division is skipped by the per-class body: the
requirement lookup is `undefined`. -/
theorem schedClass_unknown_skip (inp : SchoolData) (cons : Constraints) (r : RandSrc)
    (S : String) (ds : List String) (dblOnly : Bool) (c : String) (st : St)
    (hdiv : getClassDivision c = "unknown")
    (hu : lookupA inp.subjects "unknown" = none) :
    schedClass inp cons r S ds dblOnly c st = st := by
  unfold schedClass
  have hsl : subjectsLookup inp (getClassDivision c) S = none := by
    unfold subjectsLookup
    rw [hdiv, hu]
    rfl
  rw [hsl]
  cases getTeacherForClassSubject inp c S <;> rfl

/-- One class step leaves the unknown class's row and diagnostic set
untouched (diagnostics for other classes name those classes). -/
theorem schedClass_quiet (inp : SchoolData) (cons : Constraints) (r : RandSrc)
    (S : String) (ds : List String) (dblOnly : Bool) (c1 : String) (st : St)
    {c0 : String} (hdiv : getClassDivision c0 = "unknown")
    (hu : lookupA inp.subjects "unknown" = none) :
    Quiet c1 c0 st (schedClass inp cons r S ds dblOnly c1 st) := by
  by_cases hne : c0 = c1
  · subst hne
    rw [schedClass_unknown_skip inp cons r S ds dblOnly c0 st hdiv hu]
    exact Quiet_refl c0 c0 st
  · unfold schedClass
    cases getTeacherForClassSubject inp c1 S with
    | none => exact Quiet_refl c1 c0 st
    | some t =>
      (try dsimp only)
      cases subjectsLookup inp (getClassDivision c1) S with
      | none => exact Quiet_refl c1 c0 st
      | some R =>
        (try dsimp only)
        split
        · exact schedClassCore_quiet inp cons r S ds dblOnly c1 t R st hne
        · exact Quiet_refl c1 c0 st

theorem UQ_refl (c0 : String) (st : St) : UQ c0 st st :=
  ⟨rfl, fun _ h => Or.inl h⟩

theorem UQ_trans {c0 : String} {st0 st1 st2 : St}
    (h1 : UQ c0 st0 st1) (h2 : UQ c0 st1 st2) : UQ c0 st0 st2 :=
  ⟨h2.1.trans h1.1, fun dg h => (h2.2 dg h).elim (fun hx => h1.2 dg hx) Or.inr⟩

theorem schedClass_UQ (inp : SchoolData) (cons : Constraints) (r : RandSrc)
    (S : String) (ds : List String) (dblOnly : Bool) (c1 : String) (st : St)
    {c0 : String} (hdiv : getClassDivision c0 = "unknown")
    (hu : lookupA inp.subjects "unknown" = none) :
    UQ c0 st (schedClass inp cons r S ds dblOnly c1 st) := by
  by_cases hne : c0 = c1
  · subst hne
    rw [schedClass_unknown_skip inp cons r S ds dblOnly c0 st hdiv hu]
    exact UQ_refl c0 st
  · have h := schedClass_quiet inp cons r S ds dblOnly c1 st hdiv hu
    exact ⟨h.1, fun dg hm => (h.2 dg hm).elim Or.inl
      (fun hx => Or.inr (hx ▸ Ne.symm hne))⟩

theorem SAFS_UQ (inp : SchoolData) (cons : Constraints) (r : RandSrc)
    (S : String) (ds : List String) (dblOnly : Bool) (st : St)
    {c0 : String} (hdiv : getClassDivision c0 = "unknown")
    (hu : lookupA inp.subjects "unknown" = none) :
    UQ c0 st (scheduleAllForSubject inp cons r S ds dblOnly st) := by
  unfold scheduleAllForSubject
  exact foldl_preserve (P := fun st' => UQ c0 st st')
    (fun st' c1 _ hp =>
      UQ_trans hp (schedClass_UQ inp cons r S ds dblOnly c1 st' hdiv hu))
    (UQ_refl c0 st)

theorem phase2_UQ (inp : SchoolData) (cons : Constraints) (r : RandSrc) (st : St)
    {c0 : String} (hdiv : getClassDivision c0 = "unknown")
    (hu : lookupA inp.subjects "unknown" = none) :
    UQ c0 st (scheduleRestrictedSubjects inp cons r st) := by
  unfold scheduleRestrictedSubjects
  refine foldl_preserve (P := fun st' => UQ c0 st st') ?_ (UQ_refl c0 st)
  intro st' pr _ hp
  exact UQ_trans hp (SAFS_UQ inp cons r pr.1 (pr.2.days.getD []) false st' hdiv hu)

theorem phase3_UQ (inp : SchoolData) (cons : Constraints) (r : RandSrc) (st : St)
    {c0 : String} (hdiv : getClassDivision c0 = "unknown")
    (hu : lookupA inp.subjects "unknown" = none) :
    UQ c0 st (scheduleSingleResourceSubjects inp cons r st) := by
  unfold scheduleSingleResourceSubjects
  cases cons.singleResourceSubjects with
  | none => exact UQ_refl c0 st
  | some l =>
    exact foldl_preserve (P := fun st' => UQ c0 st st')
      (fun st' T _ hp => UQ_trans hp (SAFS_UQ inp cons r T inp.days false st' hdiv hu))
      (UQ_refl c0 st)

theorem phase4_UQ (inp : SchoolData) (cons : Constraints) (r : RandSrc) (st : St)
    {c0 : String} (hdiv : getClassDivision c0 = "unknown")
    (hu : lookupA inp.subjects "unknown" = none) :
    UQ c0 st (scheduleStrictDoublePeriodSubjects inp cons r st) := by
  unfold scheduleStrictDoublePeriodSubjects
  refine foldl_preserve (P := fun st' => UQ c0 st st') ?_ (UQ_refl c0 st)
  intro st' rl _ hp
  exact UQ_trans hp (SAFS_UQ inp cons r rl.subject inp.days true st' hdiv hu)

theorem phase5_UQ (inp : SchoolData) (cons : Constraints) (r : RandSrc) (st : St)
    {c0 : String} (hdiv : getClassDivision c0 = "unknown")
    (hu : lookupA inp.subjects "unknown" = none) :
    UQ c0 st (schedulePE inp cons r st) :=
  SAFS_UQ inp cons r "P.E." inp.days true st hdiv hu

theorem phase6_UQ (inp : SchoolData) (cons : Constraints) (r : RandSrc) (st : St)
    {c0 : String} (hdiv : getClassDivision c0 = "unknown")
    (hu : lookupA inp.subjects "unknown" = none) :
    UQ c0 st (scheduleRemainingLessons inp cons r st) := by
  unfold scheduleRemainingLessons
  refine foldl_preserve (P := fun st' => UQ c0 st st') ?_ (UQ_refl c0 st)
  intro st' T _ hp
  exact UQ_trans hp (SAFS_UQ inp cons r T inp.days false st' hdiv hu)

theorem rowNonLesson_setCell {st : St} {c0 : String} (c1 d1 : String) (q : Nat)
    (e1 : Entry) (he : e1.isLesson = false) (h : RowNonLesson c0 st) :
    RowNonLesson c0 (St.setCell st c1 d1 q e1) := by
  intro d p e hcell
  by_cases hcd : c0 = c1 ∧ d = d1
  · obtain ⟨rfl, rfl⟩ := hcd
    rw [setCell_grid_self] at hcell
    by_cases hpq : p = q
    · subst hpq
      rw [cellGet_cellSet_self] at hcell
      cases hcell
      exact he
    · rw [cellGet_cellSet_ne _ _ hpq] at hcell
      exact h d p e hcell
  · rw [setCell_grid_other st c1 d1 q e1 hcd] at hcell
    exact h d p e hcell

theorem rowNonLesson_events (inp : SchoolData) (st : St) {c0 : String}
    (h : RowNonLesson c0 st) : RowNonLesson c0 (scheduleSpecialEvents inp st) := by
  unfold scheduleSpecialEvents
  refine foldl_preserve (P := RowNonLesson c0) ?_ h
  intro st1 e _ h1
  refine foldl_preserve (P := RowNonLesson c0) ?_ h1
  intro st2 d _ h2
  split
  · refine foldl_preserve (P := RowNonLesson c0) ?_ h2
    intro st3 c1 _ h3
    split
    · refine foldl_preserve (P := RowNonLesson c0) ?_ h3
      intro st4 pid _ h4
      split
      · exact rowNonLesson_setCell c1 d pid _ rfl h4
      · exact h4
    · exact h3
  · exact h2

theorem rowNonLesson_condSet (st : St) (c1 d1 : String) (o : Option Nat) (e1 : Entry)
    (he : e1.isLesson = false) {c0 : String} (h : RowNonLesson c0 st) :
    RowNonLesson c0 (match o with
      | some p => if cellGet (st.grid c1 d1) p = none then St.setCell st c1 d1 p e1 else st
      | none => st) := by
  cases o with
  | none => exact h
  | some p =>
    (try dsimp only)
    split
    · exact rowNonLesson_setCell c1 d1 p e1 he h
    · exact h

theorem rowNonLesson_inject (inp : SchoolData) (st : St) {c0 : String}
    (h : RowNonLesson c0 st) : RowNonLesson c0 (injectBreakAndLunch inp st) := by
  unfold injectBreakAndLunch
  refine foldl_preserve (P := RowNonLesson c0) ?_ h
  intro st1 c1 _ h1
  refine foldl_preserve (P := RowNonLesson c0) ?_ h1
  intro st2 d _ h2
  exact rowNonLesson_condSet _ c1 d _ Entry.lunch rfl
    (rowNonLesson_condSet st2 c1 d _ Entry.brk rfl h2)

theorem rowNonLesson_fill (inp : SchoolData) (st : St) {c0 : String}
    (h : RowNonLesson c0 st) : RowNonLesson c0 (fillEmptySlots inp st) := by
  rw [fillEmptySlots_eq]
  refine foldl_preserve (P := RowNonLesson c0) ?_ h
  intro st1 c1 _ h1
  unfold fillClass
  refine foldl_preserve (P := RowNonLesson c0) ?_ h1
  intro st2 d _ h2
  unfold fillRow
  refine foldl_preserve (P := RowNonLesson c0) ?_ h2
  intro st3 pid _ h3
  unfold fillCell
  split
  · split
    · exact rowNonLesson_setCell c1 d pid _ rfl h3
    · split
      · exact rowNonLesson_setCell c1 d pid _ rfl h3
      · exact rowNonLesson_setCell c1 d pid _ rfl h3
  · exact h3

/-- End-to-end behaviour of `generate` for a class of the unknown division
(when the subjects table has no "unknown" key, as in the shipped data):
its row holds only typed non-lesson entries and no diagnostic names it. -/
theorem generate_unknown (inp : SchoolData) (cons : Constraints) (r : RandSrc)
    {c0 : String} (hdiv : getClassDivision c0 = "unknown")
    (hu : lookupA inp.subjects "unknown" = none) :
    RowNonLesson c0 (generate inp cons r) ∧
    (∀ dg ∈ (generate inp cons r).diags, dg.className ≠ c0) := by
  have hinit : RowNonLesson c0 (initSt inp) := by
    intro d p e hcell
    simp [initSt, cellGet, List.find?] at hcell
  have hev : RowNonLesson c0 (scheduleSpecialEvents inp (initSt inp)) :=
    rowNonLesson_events inp _ hinit
  have u2 := phase2_UQ inp cons r (scheduleSpecialEvents inp (initSt inp)) hdiv hu
  have u3 := phase3_UQ inp cons r (scheduleRestrictedSubjects inp cons r
    (scheduleSpecialEvents inp (initSt inp))) hdiv hu
  have u4 := phase4_UQ inp cons r (scheduleSingleResourceSubjects inp cons r
    (scheduleRestrictedSubjects inp cons r
      (scheduleSpecialEvents inp (initSt inp)))) hdiv hu
  have u5 := phase5_UQ inp cons r (scheduleStrictDoublePeriodSubjects inp cons r
    (scheduleSingleResourceSubjects inp cons r (scheduleRestrictedSubjects inp cons r
      (scheduleSpecialEvents inp (initSt inp))))) hdiv hu
  have u6 := phase6_UQ inp cons r (schedulePE inp cons r
    (scheduleStrictDoublePeriodSubjects inp cons r
      (scheduleSingleResourceSubjects inp cons r (scheduleRestrictedSubjects inp cons r
        (scheduleSpecialEvents inp (initSt inp)))))) hdiv hu
  have uAll := UQ_trans u2 (UQ_trans u3 (UQ_trans u4 (UQ_trans u5 u6)))
  have h6row : RowNonLesson c0 (scheduleRemainingLessons inp cons r
      (schedulePE inp cons r (scheduleStrictDoublePeriodSubjects inp cons r
        (scheduleSingleResourceSubjects inp cons r (scheduleRestrictedSubjects inp cons r
          (scheduleSpecialEvents inp (initSt inp))))))) := by
    intro d p e hcell
    rw [uAll.1] at hcell
    exact hev d p e hcell
  have hrow : RowNonLesson c0 (fillEmptySlots inp (injectBreakAndLunch inp
      (scheduleRemainingLessons inp cons r
        (schedulePE inp cons r (scheduleStrictDoublePeriodSubjects inp cons r
          (scheduleSingleResourceSubjects inp cons r (scheduleRestrictedSubjects inp cons r
            (scheduleSpecialEvents inp (initSt inp))))))))) :=
    rowNonLesson_fill inp _ (rowNonLesson_inject inp _ h6row)
  have hevdiags : (scheduleSpecialEvents inp (initSt inp)).diags = [] := by
    rw [(scheduleSpecialEvents_pres inp cons (initSt inp)).2.1, initSt_diags]
  have h6diags : ∀ dg ∈ (scheduleRemainingLessons inp cons r
      (schedulePE inp cons r (scheduleStrictDoublePeriodSubjects inp cons r
        (scheduleSingleResourceSubjects inp cons r (scheduleRestrictedSubjects inp cons r
          (scheduleSpecialEvents inp (initSt inp))))))).diags, dg.className ≠ c0 := by
    intro dg hm
    rcases uAll.2 dg hm with hx | hx
    · rw [hevdiags] at hx
      cases hx
    · exact hx
  have hdiags : ∀ dg ∈ (fillEmptySlots inp (injectBreakAndLunch inp
      (scheduleRemainingLessons inp cons r
        (schedulePE inp cons r (scheduleStrictDoublePeriodSubjects inp cons r
          (scheduleSingleResourceSubjects inp cons r (scheduleRestrictedSubjects inp cons r
            (scheduleSpecialEvents inp (initSt inp))))))))).diags, dg.className ≠ c0 := by
    intro dg hm
    rw [(fillEmptySlots_pres inp cons _).2.1, (injectBreakAndLunch_pres inp cons _).2.1] at hm
    exact h6diags dg hm
  exact ⟨hrow, hdiags⟩

/-- `inpA` with identity shuffles satisfies the well-formedness bundle. -/
theorem wfA : WFInput inpA consA rid := by
  refine ⟨fun l => List.Perm.refl l, fun l => List.Perm.refl l, fun l => List.Perm.refl l,
    by decide, ?_, ?_⟩
  · intro c
    unfold getAvailableLessonSlots
    have hds : inpA.divisionSchedules (getClassDivision c) =
        if getClassDivision c = "lowerPrimary" then some ⟨[1, 2], none, none⟩ else none := rfl
    rw [hds]
    by_cases h : getClassDivision c = "lowerPrimary"
    · rw [if_pos h]
      decide
    · rw [if_neg h]
      decide
  · intro pr hpr
    simp [consA] at hpr

/-- `inpB` with identity shuffles satisfies the well-formedness bundle. -/
theorem wfB : WFInput inpB consB rid := by
  refine ⟨fun l => List.Perm.refl l, fun l => List.Perm.refl l, fun l => List.Perm.refl l,
    by decide, ?_, ?_⟩
  · intro c
    unfold getAvailableLessonSlots
    have hds : inpB.divisionSchedules (getClassDivision c) =
        if getClassDivision c = "lowerPrimary" then some ⟨[1], none, none⟩ else none := rfl
    rw [hds]
    by_cases h : getClassDivision c = "lowerPrimary"
    · rw [if_pos h]
      decide
    · rw [if_neg h]
      decide
  · intro pr hpr
    simp [consB] at hpr

/-! ### The claims -/

/-- C1: after `generate`, every (class, day, period-table id) cell of the
class's weekly grid holds exactly one entry: the key is present and, the
row keys being distinct, it occurs exactly once. -/
theorem C1_cell_coverage (inp : SchoolData) (cons : Constraints) (r : RandSrc)
    (hwf : WFInput inp cons r) (c d : String) (pid : Nat)
    (hc : c ∈ allClasses inp) (hd : d ∈ inp.days)
    (hp : pid ∈ inp.periods.map (fun p => p.id)) :
    keyCount ((generate inp cons r).grid c d) pid = 1 := by
  have hg : GridOK (generate inp cons r) := (generate_PipeInv inp cons r hwf).2.2.2
  have hcov : (cellGet ((generate inp cons r).grid c d) pid).isSome :=
    fillEmptySlots_covers inp _ hc hd hp
  exact keyCount_one (hg c d) hcov

/-- C1 witness: the concrete one-class input. -/
theorem C1_cell_coverage_witness :
    keyCount ((generate inpA consA rid).grid "1A" "Mon") 1 = 1 :=
  C1_cell_coverage inpA consA rid wfA "1A" "Mon" 1 (by decide) (by decide) (by decide)

/-- C2 (amended): a teacher's per-day count can exceed the applicable cap
by at most one after generation; the cap itself is not an invariant
because `_scheduleLessonBlock` checks both slots of a double against the
pre-commit state. -/
theorem C2_teacher_cap_amended (inp : SchoolData) (cons : Constraints) (r : RandSrc)
    (hwf : WFInput inp cons r) (t d : String) :
    dailyOf (generate inp cons r) t d ≤ capOf cons t + 1 :=
  (generate_PipeInv inp cons r hwf).2.1 t d

/-- C2 amended witness. -/
theorem C2_teacher_cap_amended_witness :
    dailyOf (generate inpA consA rid) "T" "Mon" ≤ capOf consA "T" + 1 :=
  C2_teacher_cap_amended inpA consA rid wfA "T" "Mon"

/-- C2 counterexample: with cap 1 and a required double, the committed
double leaves the teacher at 2 for the day, exceeding the cap. -/
theorem C2_teacher_cap_counterexample :
    dailyOf (generate inpA consA rid) "T" "Mon" = 2 ∧ capOf consA "T" = 1 := by
  exact ⟨by decide, by decide⟩

/-- C3 (amended): for a pair with an assigned non-empty teacher and a
positive requirement, after `generate` the scheduled count equals the
requirement or some diagnostic for the pair records exactly the
shortfall.  (A missing teacher silently skips the pair: see the
counterexample.) -/
theorem C3_requirement_or_diag_amended (inp : SchoolData) (cons : Constraints)
    (r : RandSrc) (hwf : WFInput inp cons r) (c S t : String) (R : Nat)
    (hcm : c ∈ allClasses inp)
    (hT : getTeacherForClassSubject inp c S = some t) (ht : t ≠ "")
    (hR : subjectsLookup inp (getClassDivision c) S = some R) (hR0 : R > 0) :
    OKpair inp c S R (generate inp cons r) :=
  generate_OKpair inp cons r hwf hcm hT ht hR hR0

/-- C3 amended witness. -/
theorem C3_requirement_or_diag_amended_witness :
    OKpair inpA "1A" "Math" 2 (generate inpA consA rid) :=
  C3_requirement_or_diag_amended inpA consA rid wfA "1A" "Math" "T" 2
    (by decide) (by decide) (by decide) (by decide) (by decide)

/-- C3 counterexample: a requirement of 2 with no teacher assigned ends
with zero scheduled periods and no diagnostic at all. -/
theorem C3_requirement_or_diag_counterexample :
    getTeacherForClassSubject inpC "1A" "Math" = none ∧
    subjectsLookup inpC (getClassDivision "1A") "Math" = some 2 ∧
    getScheduledPeriods inpC (generate inpC consB rid) "1A" "Math" = 0 ∧
    (generate inpC consB rid).diags = [] := by
  exact ⟨by decide, by decide, by decide, by decide⟩

/-- C4 (amended): the part_000 evaluator rejects, with a reason, any
placement whose subject already sits twice on the day (and the part_000
day loop skips such days).  The sampa revision enforces no per-day
subject cap anywhere: its evaluator accepts at the cap and its day loop
has no skip, so a generated sampa timetable can hold three same-day
periods of one subject (see the counterexample). -/
theorem C4_subject_day_cap_amended (inp : SchoolData) (cons : Constraints) (st : St)
    (c S t d : String) (p : Nat) (hcap : countSubjectOnDay st c S d ≥ 2) :
    (P0.canAssignLesson inp cons st c S t d p false).valid = false ∧
    ((P0.canAssignLesson inp cons st c S t d p false).reason).isSome = true := by
  unfold P0.canAssignLesson
  split
  · exact ⟨rfl, rfl⟩
  · split
    · exact ⟨rfl, rfl⟩
    · rw [if_pos ⟨by simp, hcap⟩]
      exact ⟨rfl, rfl⟩

/-- C4 amended witness. -/
theorem C4_subject_day_cap_amended_witness :
    (P0.canAssignLesson inpC4 consB stC4 "1A" "Math" "T" "Mon" 3 false).valid = false ∧
    ((P0.canAssignLesson inpC4 consB stC4 "1A" "Math" "T" "Mon" 3 false).reason).isSome = true :=
  C4_subject_day_cap_amended inpC4 consB stC4 "1A" "Math" "T" "Mon" 3 (by decide)

/-- C4 counterexample: the sampa evaluator accepts a third same-day period
of a subject already at the cap of 2, and a full sampa run on one day with
three slots and a requirement of 5 really places three Math periods on
that day — the cap is enforced nowhere in this revision. -/
theorem C4_subject_day_cap_counterexample :
    countSubjectOnDay stC4 "1A" "Math" "Mon" = 2 ∧
    (canAssignLesson inpC4 consB stC4 "1A" "Math" "T" "Mon" 3).valid = true ∧
    countSubjectOnDay (generate inpC4 consB rid) "1A" "Math" "Mon" = 3 := by
  exact ⟨by decide, by decide, by decide⟩

/-- C5 (amended): the sampa evaluator rejects a cell only when its
occupant is a lesson record (`type === undefined`); typed entries do not
block (see the counterexample). -/
theorem C5_occupied_cell_amended (inp : SchoolData) (cons : Constraints) (st : St)
    (c S t d : String) (p : Nat) (e : Entry)
    (hcell : cellGet (st.grid c d) p = some e) (hl : e.isLesson = true) :
    (canAssignLesson inp cons st c S t d p).valid = false := by
  unfold canAssignLesson
  split
  · rfl
  · rw [if_pos (by rw [hcell]; simpa using hl)]
    rfl

/-- C5 amended witness. -/
theorem C5_occupied_cell_amended_witness :
    (canAssignLesson inpC4 consB stC4 "1A" "Math" "T" "Mon" 1).valid = false :=
  C5_occupied_cell_amended inpC4 consB stC4 "1A" "Math" "T" "Mon" 1
    (Entry.lesson "Math" "T") (by decide) (by decide)

/-- C5 counterexample: a cell occupied by a special event is accepted by
the evaluator, not rejected. -/
theorem C5_occupied_cell_counterexample :
    cellGet (stC5.grid "1A" "Mon") 1 = some (Entry.event "Assembly" "red") ∧
    (canAssignLesson inpC4 consB stC5 "1A" "Math" "T" "Mon" 1).valid = true := by
  exact ⟨by decide, by decide⟩

/-- C6 (amended): the sampa `_scheduleLessonBlock` returns true only with
the full length committed (the count rises by exactly `np`), and a false
return leaves the observable state unchanged — it has no singles
fallback, so no partial commitment can be discarded.  The part_000
fallback does discard one (see the counterexample). -/
theorem C6_block_result_amended (inp : SchoolData) (cons : Constraints) (r : RandSrc)
    (c S t : String) (ds : List String) (np : Nat) (st : St)
    (hwf : WFInput inp cons r) (hds : ∀ d ∈ ds, d ∈ inp.days) :
    ((scheduleLessonBlock inp cons r c S t ds np st).1 = false →
      (scheduleLessonBlock inp cons r c S t ds np st).2 = { st with calls := st.calls + 1 }) ∧
    ((scheduleLessonBlock inp cons r c S t ds np st).1 = true →
      getScheduledPeriods inp (scheduleLessonBlock inp cons r c S t ds np st).2 c S =
        getScheduledPeriods inp st c S + np) :=
  ⟨(slb_spec inp cons r c S t ds np hwf hds st).2.2.1,
   (slb_spec inp cons r c S t ds np hwf hds st).2.2.2.2.2.2.2.1⟩

/-- C6 amended witness. -/
theorem C6_block_result_amended_witness :
    (((scheduleLessonBlock inpA consA rid "1A" "Math" "T" ["Mon"] 2 (initSt inpA)).1 = false →
      (scheduleLessonBlock inpA consA rid "1A" "Math" "T" ["Mon"] 2 (initSt inpA)).2 =
        { initSt inpA with calls := (initSt inpA).calls + 1 }) ∧
    ((scheduleLessonBlock inpA consA rid "1A" "Math" "T" ["Mon"] 2 (initSt inpA)).1 = true →
      getScheduledPeriods inpA
          (scheduleLessonBlock inpA consA rid "1A" "Math" "T" ["Mon"] 2 (initSt inpA)).2
          "1A" "Math" =
        getScheduledPeriods inpA (initSt inpA) "1A" "Math" + 2)) :=
  C6_block_result_amended inpA consA rid "1A" "Math" "T" ["Mon"] 2 (initSt inpA)
    wfA (by decide)

/-- C6 counterexample: the part_000 singles fallback commits one single,
fails the second, returns false, and the committed lesson stays in the
grid — partial progress is not surfaced. -/
theorem C6_block_result_counterexample :
    (P0.scheduleLessonBlock inpC6 consB rid "5A" "Math" "T" ["Mon"] 2 false true stC6).1
      = false ∧
    cellGet ((P0.scheduleLessonBlock inpC6 consB rid "5A" "Math" "T" ["Mon"] 2
      false true stC6).2.grid "5A" "Mon") 1 = some (Entry.lesson "Math" "T") := by
  exact ⟨by decide, by decide⟩

/-- C7 (amended): the ICT lab is claimed by at most one class with a
non-empty name per (day, period): any two ICT lesson cells at the same
slot whose classes have non-empty names belong to the same class.  The
resource check is the truthiness test `if (resources["ICT"])`, so a class
named `""` stores a falsy claim and one further class can take the same
slot (see the counterexample). -/
theorem C7_ict_exclusive (inp : SchoolData) (cons : Constraints) (r : RandSrc)
    (hwf : WFInput inp cons r) (c1 c2 d : String) (p : Nat) (t1 t2 : String)
    (hne1 : c1 ≠ "") (hne2 : c2 ≠ "")
    (h1 : cellGet ((generate inp cons r).grid c1 d) p = some (Entry.lesson "ICT" t1))
    (h2 : cellGet ((generate inp cons r).grid c2 d) p = some (Entry.lesson "ICT" t2)) :
    c1 = c2 := by
  have hI := (generate_PipeInv inp cons r hwf).2.2.1
  have e1 := hI c1 d p t1 hne1 h1
  have e2 := hI c2 d p t2 hne2 h2
  rw [e1] at e2
  exact Option.some_inj.mp e2

/-- C7 witness: the contended ICT input, with the slot actually claimed. -/
theorem C7_ict_exclusive_witness : "1A" = "1A" :=
  C7_ict_exclusive inpB consB rid wfB "1A" "1A" "Mon" 1 "TA" "TA"
    (by decide) (by decide) (by decide) (by decide)

/-- C7 counterexample: a class named `""` schedules ICT first and stores a
falsy claim; a second class then passes the truthiness check, and two
different classes end holding ICT lessons at the same (day, period). -/
theorem C7_ict_exclusive_counterexample :
    cellGet ((generate inpE consB rid).grid "" "Mon") 1 = some (Entry.lesson "ICT" "TA") ∧
    cellGet ((generate inpE consB rid).grid "1B" "Mon") 1 = some (Entry.lesson "ICT" "TB") ∧
    ("" : String) ≠ "1B" := by
  exact ⟨by decide, by decide, by decide⟩

/-- C8 (amended): the output is a function of the input and of the drawn
shuffles: two runs whose shuffle draws agree pointwise produce identical
states.  The source draws from the ambient `Math.random()` with no seed
parameter, so equal draws cannot be forced from outside (see the
counterexample for two draws with different outputs). -/
theorem C8_determinism_amended (inp : SchoolData) (cons : Constraints)
    (r1 r2 : RandSrc)
    (hc : ∀ l, r1.classes l = r2.classes l)
    (hd : ∀ l, r1.days l = r2.days l)
    (hs : ∀ l, r1.slots l = r2.slots l) :
    generate inp cons r1 = generate inp cons r2 := by
  have h12 : r1 = r2 := by
    cases r1
    cases r2
    simp only [RandSrc.mk.injEq]
    exact ⟨funext hc, funext hd, funext hs⟩
  rw [h12]

/-- C8 amended witness. -/
theorem C8_determinism_amended_witness :
    generate inpB consB rid = generate inpB consB rid2 :=
  C8_determinism_amended inpB consB rid rid2
    (fun l => rfl) (fun l => rfl) (fun l => rfl)

/-- C8 counterexample: two draws of the ambient shuffle give different
timetables on identical input, and the source exposes no seed that could
pin the draw down. -/
theorem C8_determinism_counterexample :
    cellGet ((generate inpB consB rid).grid "1A" "Mon") 1 ≠
      cellGet ((generate inpB consB rrev).grid "1A" "Mon") 1 := by
  decide

/-- C9: every loop of the per-class scheduling body strictly consumes its
decreasing counter, so one `_scheduleAllForSubject` body performs at most
`mixedBudget + 3 * needed + 1` placement searches; every search is itself
a structural scan over days and slots, and the embedding is built from
total structural recursion throughout, so `generate` always terminates. -/
theorem C9_attempt_budget (inp : SchoolData) (cons : Constraints) (r : RandSrc)
    (S : String) (ds : List String) (dblOnly : Bool) (c t : String) (R : Nat) (st : St) :
    (schedClassCore inp cons r S ds dblOnly c t R st).calls ≤
      st.calls + mixedBudget cons S (getClassDivision c) +
        3 * (R - getScheduledPeriods inp st c S) + 1 :=
  schedClassCore_calls inp cons r S ds dblOnly c t R st

/-- C10: a class of the unknown division gets no lessons and no
diagnostic; the gap filler still covers every period of its row with a
typed non-lesson entry (assuming the subjects table, keyed by the real
division names, has no "unknown" key). -/
theorem C10_unknown_division (inp : SchoolData) (cons : Constraints) (r : RandSrc)
    (c0 : String) (hdiv : getClassDivision c0 = "unknown")
    (hu : lookupA inp.subjects "unknown" = none) (hc : c0 ∈ allClasses inp) :
    (∀ d ∈ inp.days, ∀ pid ∈ inp.periods.map (fun p => p.id),
      ∃ e, cellGet ((generate inp cons r).grid c0 d) pid = some e ∧ e.isLesson = false) ∧
    (∀ dg ∈ (generate inp cons r).diags, dg.className ≠ c0) := by
  obtain ⟨hrow, hdg⟩ := generate_unknown inp cons r hdiv hu
  refine ⟨?_, hdg⟩
  intro d hd pid hp
  have hcov : (cellGet ((generate inp cons r).grid c0 d) pid).isSome :=
    fillEmptySlots_covers inp _ hc hd hp
  obtain ⟨e, he⟩ := Option.isSome_iff_exists.mp hcov
  exact ⟨e, he, hrow d pid e he⟩

/-- C10 witness: the class "Reception". -/
theorem C10_unknown_division_witness :
    (∀ d ∈ inpD.days, ∀ pid ∈ inpD.periods.map (fun p => p.id),
      ∃ e, cellGet ((generate inpD consB rid).grid "Reception" d) pid = some e ∧
        e.isLesson = false) ∧
    (∀ dg ∈ (generate inpD consB rid).diags, dg.className ≠ "Reception") :=
  C10_unknown_division inpD consB rid "Reception" (by decide) (by decide) (by decide)
